import Mathlib

/-!
# CrossDesk web client: the input controller (`src/control.js`)

A shallow embedding of `ControlManager` and a verification of its documented
behaviour.

## Numbers

JavaScript numbers are modelled by `JSNum`: a finite value is an exact rational,
and the three non-finite values `Infinity`, `-Infinity` and `NaN` are kept apart,
because the controller divides by the width and height of a rectangle that may
be zero.  Rounding of finite results and the sign of zero are not modelled.
-/

namespace CrossDesk

/-- A JavaScript number: an exact finite value, an infinity, or `NaN`. -/
inductive JSNum where
  | fin (q : ℚ)
  | pinf
  | ninf
  | nan
  deriving DecidableEq

namespace JSNum

/-- Unary minus. -/
def neg : JSNum → JSNum
  | fin a => fin (-a)
  | pinf => ninf
  | ninf => pinf
  | nan => nan

/-- The `+` operator on numbers. -/
def add : JSNum → JSNum → JSNum
  | fin a, fin b => fin (a + b)
  | fin _, pinf => pinf
  | fin _, ninf => ninf
  | pinf, fin _ => pinf
  | pinf, pinf => pinf
  | pinf, ninf => nan
  | ninf, fin _ => ninf
  | ninf, ninf => ninf
  | ninf, pinf => nan
  | nan, _ => nan
  | fin _, nan => nan
  | pinf, nan => nan
  | ninf, nan => nan

/-- The binary `-` operator. -/
def sub (a b : JSNum) : JSNum := add a (neg b)

/-- The `*` operator on numbers. -/
def mul : JSNum → JSNum → JSNum
  | fin a, fin b => fin (a * b)
  | fin a, pinf => if a = 0 then nan else if 0 < a then pinf else ninf
  | fin a, ninf => if a = 0 then nan else if 0 < a then ninf else pinf
  | pinf, fin b => if b = 0 then nan else if 0 < b then pinf else ninf
  | ninf, fin b => if b = 0 then nan else if 0 < b then ninf else pinf
  | pinf, pinf => pinf
  | pinf, ninf => ninf
  | ninf, pinf => ninf
  | ninf, ninf => pinf
  | nan, _ => nan
  | fin _, nan => nan
  | pinf, nan => nan
  | ninf, nan => nan

/-- The `/` operator on numbers: `0/0` is `NaN`, and a non-zero finite value
divided by zero is an infinity of the sign of the numerator. -/
def div : JSNum → JSNum → JSNum
  | fin a, fin b =>
      if b = 0 then (if a = 0 then nan else if 0 < a then pinf else ninf)
      else fin (a / b)
  | fin _, pinf => fin 0
  | fin _, ninf => fin 0
  | pinf, fin b => if 0 ≤ b then pinf else ninf
  | ninf, fin b => if 0 ≤ b then ninf else pinf
  | pinf, pinf => nan
  | pinf, ninf => nan
  | ninf, pinf => nan
  | ninf, ninf => nan
  | nan, _ => nan
  | fin _, nan => nan
  | pinf, nan => nan
  | ninf, nan => nan

/-- The `<=` operator: false as soon as one side is `NaN`. -/
def le : JSNum → JSNum → Bool
  | fin a, fin b => decide (a ≤ b)
  | fin _, pinf => true
  | fin _, ninf => false
  | pinf, fin _ => false
  | pinf, pinf => true
  | pinf, ninf => false
  | ninf, fin _ => true
  | ninf, pinf => true
  | ninf, ninf => true
  | nan, _ => false
  | fin _, nan => false
  | pinf, nan => false
  | ninf, nan => false

/-- The `<` operator: false as soon as one side is `NaN`. -/
def lt : JSNum → JSNum → Bool
  | fin a, fin b => decide (a < b)
  | fin _, pinf => true
  | fin _, ninf => false
  | pinf, fin _ => false
  | pinf, pinf => false
  | pinf, ninf => false
  | ninf, fin _ => true
  | ninf, pinf => true
  | ninf, ninf => false
  | nan, _ => false
  | fin _, nan => false
  | pinf, nan => false
  | ninf, nan => false

/-- The `>=` operator. -/
def ge (a b : JSNum) : Bool := le b a

/-- The `>` operator. -/
def gt (a b : JSNum) : Bool := lt b a

/-- Strict equality `===` of two numbers (`NaN` equals nothing). -/
def strictEq : JSNum → JSNum → Bool
  | fin a, fin b => decide (a = b)
  | pinf, pinf => true
  | ninf, ninf => true
  | _, _ => false

/-- Truthiness of a number: `0` and `NaN` are falsy. -/
def truthy : JSNum → Bool
  | fin a => decide (a ≠ 0)
  | pinf => true
  | ninf => true
  | nan => false

/-- The test `Number.isNaN`. -/
def isNaN : JSNum → Bool
  | nan => true
  | _ => false

/-- The function `Math.min` of two arguments: `NaN` as soon as one is `NaN`. -/
def min (a b : JSNum) : JSNum :=
  if a.isNaN || b.isNaN then nan else if le a b then a else b

/-- The function `Math.max` of two arguments: `NaN` as soon as one is `NaN`. -/
def max (a b : JSNum) : JSNum :=
  if a.isNaN || b.isNaN then nan else if le a b then b else a

/-- Truncation of a rational toward zero. -/
def truncQ (q : ℚ) : Int := if 0 ≤ q then Int.floor q else Int.ceil q

/-- Wrap an integer into the signed 32-bit range. -/
def wrap32 (n : Int) : Int :=
  let r := n % 4294967296
  if r < 2147483648 then r else r - 4294967296

/-- The conversion `ToInt32`, as performed by `v | 0`. -/
def toInt32 : JSNum → Int
  | fin q => wrap32 (truncQ q)
  | _ => 0

/-- A number is finite. -/
def isFinite : JSNum → Bool
  | fin _ => true
  | _ => false

/-- The value lies in the closed interval `[0,1]`. -/
def InUnit (v : JSNum) : Prop := le (fin 0) v = true ∧ le v (fin 1) = true

instance (v : JSNum) : Decidable (InUnit v) := by
  unfold InUnit; infer_instance

end JSNum

/-- Source line 22: `clamp01 = (value) => Math.max(0, Math.min(1, value))`. -/
def clamp01 (value : JSNum) : JSNum :=
  JSNum.max (JSNum.fin 0) (JSNum.min (JSNum.fin 1) value)

/-! ## Protocol constants and action records -/

/-- Source lines 2-8: the `ControlType` discriminants. -/
inductive ControlType where
  | mouse
  | keyboard
  | audio_capture
  | host_infomation
  | display_id
  deriving DecidableEq

/-- The numeric value of a `ControlType` member. -/
def ControlType.val : ControlType → Int
  | mouse => 0
  | keyboard => 1
  | audio_capture => 2
  | host_infomation => 3
  | display_id => 4

namespace MouseFlag

/-- Source line 11. -/
def move : Int := 0
/-- Source line 12. -/
def left_down : Int := 1
/-- Source line 13. -/
def left_up : Int := 2
/-- Source line 14. -/
def right_down : Int := 3
/-- Source line 15. -/
def right_up : Int := 4
/-- Source line 16. -/
def middle_down : Int := 5
/-- Source line 17. -/
def middle_up : Int := 6
/-- Source line 18. -/
def wheel_vertical : Int := 7
/-- Source line 19. -/
def wheel_horizontal : Int := 8

/-- The own properties of the `MouseFlag` object literal (source lines 10-20). -/
def own : List (String × Int) :=
  [("move", move), ("left_down", left_down), ("left_up", left_up),
   ("right_down", right_down), ("right_up", right_up),
   ("middle_down", middle_down), ("middle_up", middle_up),
   ("wheel_vertical", wheel_vertical), ("wheel_horizontal", wheel_horizontal)]

end MouseFlag

/-- The value found by a property read `MouseFlag[name]` that is not nullish:
a member of the table, or a member that the object literal inherits from
`Object.prototype` (a function or object, not a number). -/
inductive FlagVal where
  | int (n : Int)
  | inherited (name : String)
  deriving DecidableEq

/-- The property names every object literal inherits from `Object.prototype`. -/
def objectPrototypeMembers : List String :=
  ["constructor", "hasOwnProperty", "isPrototypeOf", "propertyIsEnumerable",
   "toLocaleString", "toString", "valueOf", "__proto__", "__defineGetter__",
   "__defineSetter__", "__lookupGetter__", "__lookupSetter__"]

/-- The property read `MouseFlag[name]`; `none` stands for `undefined`. -/
def MouseFlag.get (name : String) : Option FlagVal :=
  match MouseFlag.own.lookup name with
  | some n => some (FlagVal.int n)
  | none =>
    if name ∈ objectPrototypeMembers then some (FlagVal.inherited name) else none

/-- The `flag` argument of `sendMouseAction`: a string, a number, or absent. -/
inductive FlagArg where
  | str (name : String)
  | num (v : JSNum)
  | undefined

/-- Source lines 136-141: the `mouse` member of a mouse action. -/
structure MouseRecord where
  x : JSNum
  y : JSNum
  s : Int
  flag : FlagVal
  deriving DecidableEq

/-- Source lines 150-153: the `keyboard` member of a keyboard action. -/
structure KeyboardRecord where
  key_value : Int
  flag : Int
  deriving DecidableEq

/-- An action record as built by the `send...` methods (lines 134, 148, 159, 167). -/
inductive Action where
  | mouse (mouse : MouseRecord)
  | keyboard (keyboard : KeyboardRecord)
  | audio_capture (enabled : Bool)
  | display_id (id : Int)
  deriving DecidableEq

/-- The `type` field of an action record. -/
def Action.type : Action → Int
  | mouse _ => ControlType.mouse.val
  | keyboard _ => ControlType.keyboard.val
  | audio_capture _ => ControlType.audio_capture.val
  | display_id _ => ControlType.display_id.val

/-! ## The controller object -/

/-- A point `{x, y}`: `normalizedPos`, `lastPointerPos`, `dragOffset`. -/
structure Pos where
  x : JSNum
  y : JSNum
  deriving DecidableEq

/-- The rectangle returned by `getBoundingClientRect()`.  Its width and height
are never negative, so that `right` is `left + width` and `bottom` is
`top + height`. -/
structure Rect where
  left : JSNum
  top : JSNum
  width : JSNum
  height : JSNum
  deriving DecidableEq

/-- The `right` member of a bounding rectangle. -/
def Rect.right (r : Rect) : JSNum := r.left.add r.width

/-- The `bottom` member of a bounding rectangle. -/
def Rect.bottom (r : Rect) : JSNum := r.top.add r.height

/-- Source lines 594-599: the anchor stored by `onTouchpadStart`. -/
structure TouchpadStart where
  x : JSNum
  y : JSNum
  normalizedX : JSNum
  normalizedY : JSNum
  deriving DecidableEq

/-- Source lines 50-62: `this.state`.  The member `pointerLockToastTimer`
belongs to the toast, which is presentation only and is left out. -/
structure State where
  pointerLocked : Bool
  normalizedPos : Pos
  lastPointerPos : Option Pos
  lastWheelAt : Int
  isFullscreen : Bool
  isRealFullscreen : Bool
  touchpadStart : Option TouchpadStart
  draggingVirtualMouse : Bool
  dragOffset : Pos
  videoRect : Option Rect
  deriving DecidableEq

/-- The data channel handed to `setDataChannel`: its `readyState`, and whether
its `send` method throws. -/
structure DataChannel where
  readyState : String
  sendThrows : Bool
  deriving DecidableEq

/-- A line appended to the text of the `data-channel` log element. -/
inductive LogLine where
  | payload (action : Action)
  | pointerlock (entered : Bool)
  deriving DecidableEq

/-- The `ControlManager` object together with what it has done to its
collaborators.

* `dataChannel`, `state`, `virtualWheelTimer` are the members of the source object;
* `video` is `this.elements.video` (the identity of the element, `none` when the
  lookup failed), `dataLog` is the text of `this.elements.dataLog` (`none` when
  the element is absent), `mediaContainer`, `videoContainer` and `virtualMouse`
  say whether those elements were found;
* `sendCalls` lists the argument of every call of `send`, in order;
* `channelSent` lists the payloads passed to `dataChannel.send` that it accepted;
* `intervals` are the handles of the interval timers created by `setInterval`
  and not yet cleared, `timerCount` the number of timers created so far;
* `lockRequests` and `lockExits` count the calls of `requestPointerLock` on the
  video element and of `document.exitPointerLock`. -/
structure ControlManager where
  dataChannel : Option DataChannel
  video : Option Nat
  dataLog : Option (List LogLine)
  mediaContainer : Bool
  videoContainer : Bool
  virtualMouse : Bool
  state : State
  virtualWheelTimer : Option Nat
  sendCalls : List Action
  channelSent : List Action
  intervals : List Nat
  timerCount : Nat
  lockRequests : Nat
  lockExits : Nat
  deriving DecidableEq

/-- What a handler reads from the page when it runs: the current bounding
rectangle of the video element, `document.pointerLockElement`, and `Date.now()`. -/
structure Env where
  rect : Rect
  pointerLockElement : Option Nat
  now : Int

/-- Source lines 50-64: the controller as built by the constructor. -/
def ControlManager.init (video : Option Nat) (dataLog : Option (List LogLine))
    (mediaContainer videoContainer virtualMouse : Bool) : ControlManager :=
  { dataChannel := none
    video := video
    dataLog := dataLog
    mediaContainer := mediaContainer
    videoContainer := videoContainer
    virtualMouse := virtualMouse
    state :=
      { pointerLocked := false
        normalizedPos := { x := JSNum.fin (1/2), y := JSNum.fin (1/2) }
        lastPointerPos := none
        lastWheelAt := 0
        isFullscreen := false
        isRealFullscreen := false
        touchpadStart := none
        draggingVirtualMouse := false
        dragOffset := { x := JSNum.fin 0, y := JSNum.fin 0 }
        videoRect := none }
    virtualWheelTimer := none
    sendCalls := []
    channelSent := []
    intervals := []
    timerCount := 0
    lockRequests := 0
    lockExits := 0 }

/-! ## Transport gate and action encoder -/

namespace ControlManager

/-- Source line 109: `setDataChannel`. -/
def setDataChannel (m : ControlManager) (channel : Option DataChannel) : ControlManager :=
  { m with dataChannel := channel }

/-- Source lines 113-115: `isChannelOpen`. -/
def isChannelOpen (m : ControlManager) : Bool :=
  match m.dataChannel with
  | none => false
  | some ch => ch.readyState == "open"

/-- Source lines 186-191: `logDataChannel`. -/
def logDataChannel (m : ControlManager) (payload : Action) : ControlManager :=
  match m.dataLog with
  | none => m
  | some lines => { m with dataLog := some (lines ++ [LogLine.payload payload]) }

/-- Source lines 117-128: `send`, with the boolean it returns.  The serialised
payload is represented by the action itself. -/
def send (m : ControlManager) (action : Action) : ControlManager × Bool :=
  let m0 := { m with sendCalls := m.sendCalls ++ [action] }
  if !m0.isChannelOpen then (m0, false)
  else
    match m0.dataChannel with
    | none => (m0, false)
    | some ch =>
      if ch.sendThrows then (m0, false)
      else (logDataChannel { m0 with channelSent := m0.channelSent ++ [action] } action, true)

/-- Source lines 131-132: the computation of `numericFlag`. -/
def numericFlag (flag : FlagArg) : FlagVal :=
  match flag with
  | FlagArg.str name =>
    match MouseFlag.get name with
    | some v => v
    | none => FlagVal.int MouseFlag.move
  | FlagArg.num v => FlagVal.int v.toInt32
  | FlagArg.undefined => FlagVal.int 0

/-- Source lines 134-142: the record built by `sendMouseAction`; `scroll` is
`none` when the caller leaves it out, and then defaults to `0`. -/
def mouseAction (x y : JSNum) (flag : FlagArg) (scroll : Option JSNum) : Action :=
  Action.mouse
    { x := clamp01 x
      y := clamp01 y
      s := (scroll.getD (JSNum.fin 0)).toInt32
      flag := numericFlag flag }

/-- Source lines 130-145: `sendMouseAction`. -/
def sendMouseAction (m : ControlManager) (x y : JSNum) (flag : FlagArg)
    (scroll : Option JSNum) : ControlManager :=
  (m.send (mouseAction x y flag scroll)).1

/-- Source lines 147-156: `sendKeyboardAction`. -/
def sendKeyboardAction (m : ControlManager) (keyValue : JSNum) (isDown : Bool) :
    ControlManager :=
  (m.send (Action.keyboard
    { key_value := keyValue.toInt32, flag := if isDown then 0 else 1 })).1

/-- Source lines 158-164: `sendAudioCapture`. -/
def sendAudioCapture (m : ControlManager) (enabled : Bool) : ControlManager :=
  (m.send (Action.audio_capture enabled)).1

/-- Source lines 166-172: `sendDisplayId`. -/
def sendDisplayId (m : ControlManager) (id : JSNum) : ControlManager :=
  (m.send (Action.display_id id.toInt32)).1

/-- A numeric member of `MouseFlag` passed as the `flag` argument. -/
def flagOf (n : Int) : FlagArg := FlagArg.num (JSNum.fin n)

/-! ## Geometry helpers -/

/-- Source lines 405-413: `buttonToFlag`. -/
def buttonToFlag (button : Int) (isDown : Bool) : Int :=
  let record : Int × Int :=
    if button = 0 then (MouseFlag.left_down, MouseFlag.left_up)
    else if button = 1 then (MouseFlag.middle_down, MouseFlag.middle_up)
    else if button = 2 then (MouseFlag.right_down, MouseFlag.right_up)
    else (MouseFlag.left_down, MouseFlag.left_up)
  if isDown then record.1 else record.2

/-- Source lines 415-421: `requestPointerLock`. -/
def requestPointerLock (m : ControlManager) : ControlManager :=
  if m.video.isSome then { m with lockRequests := m.lockRequests + 1 } else m

/-- Source lines 423-427: `ensureVideoRect`. -/
def ensureVideoRect (m : ControlManager) (env : Env) : ControlManager :=
  match m.video with
  | none => m
  | some _ => { m with state := { m.state with videoRect := some env.rect } }

/-- Source lines 429-438: `isInsideVideo`. -/
def isInsideVideo (m : ControlManager) (clientX clientY : JSNum) : Bool :=
  match m.state.videoRect with
  | none => false
  | some rect =>
    clientX.ge rect.left && clientX.le rect.right &&
    clientY.ge rect.top && clientY.le rect.bottom

/-- Source lines 440-446: `updateNormalizedFromClient`. -/
def updateNormalizedFromClient (m : ControlManager) (clientX clientY : JSNum) :
    ControlManager :=
  match m.state.videoRect with
  | none => m
  | some rect =>
    { m with state := { m.state with normalizedPos :=
        { x := clamp01 ((clientX.sub rect.left).div rect.width)
          y := clamp01 ((clientY.sub rect.top).div rect.height) } } }

end ControlManager

/-! ## Events -/

/-- The members of a pointer or mouse event that the handlers read.  `button`
is `none` when `event.button` is not a number; a missing coordinate is `NaN`. -/
structure PointerEvent where
  button : Option Int
  clientX : JSNum
  clientY : JSNum
  movementX : JSNum
  movementY : JSNum

/-- The members of a wheel event that `onWheel` reads. -/
structure WheelEvent where
  clientX : JSNum
  clientY : JSNum
  deltaX : JSNum
  deltaY : JSNum

/-- A touch point. -/
structure Touch where
  clientX : JSNum
  clientY : JSNum

/-- A touch event: its `touches` and `changedTouches` lists. -/
structure TouchEvent where
  touches : List Touch
  changedTouches : List Touch

namespace ControlManager

/-! ## Pointer-lock notifications -/

/-- Source lines 203-220: `onPointerLockChange`.  The toast is presentation
only and is not modelled. -/
def onPointerLockChange (m : ControlManager) (env : Env) : ControlManager :=
  let locked : Bool := decide (env.pointerLockElement = m.video)
  let rect : Option Rect :=
    if locked then (match m.video with
      | some _ => some env.rect
      | none => none)
    else none
  let m1 := { m with state := { m.state with pointerLocked := locked, videoRect := rect } }
  match m1.dataLog with
  | none => m1
  | some lines => { m1 with dataLog := some (lines ++ [LogLine.pointerlock locked]) }

/-- Source lines 222-224: `onPointerLockError` only shows a toast. -/
def onPointerLockError (m : ControlManager) : ControlManager := m

/-! ## Pointer handlers -/

/-- Source lines 262-280: `onPointerDown`. -/
def onPointerDown (m : ControlManager) (env : Env) (event : PointerEvent) :
    ControlManager :=
  let button : Int := event.button.getD 0
  if button < 0 then m
  else
    let m1 := { m with state := { m.state with
      lastPointerPos := some { x := event.clientX, y := event.clientY } } }
    let m2 := m1.ensureVideoRect env
    let m3 :=
      if m2.state.videoRect.isSome && m2.isInsideVideo event.clientX event.clientY then
        (m2.updateNormalizedFromClient event.clientX event.clientY).requestPointerLock
      else m2
    m3.sendMouseAction m3.state.normalizedPos.x m3.state.normalizedPos.y
      (flagOf (buttonToFlag button true)) none

/-- Source lines 282-325: `onPointerMove`. -/
def onPointerMove (m : ControlManager) (env : Env) (event : PointerEvent) :
    ControlManager :=
  if !m.state.pointerLocked && m.state.lastPointerPos.isNone then m
  else
    let movementX : JSNum :=
      if m.state.pointerLocked then event.movementX
      else event.clientX.sub (match m.state.lastPointerPos with
        | some p => p.x
        | none => event.clientX)
    let movementY : JSNum :=
      if m.state.pointerLocked then event.movementY
      else event.clientY.sub (match m.state.lastPointerPos with
        | some p => p.y
        | none => event.clientY)
    let m1 :=
      if !m.state.pointerLocked then
        { m with state := { m.state with
            lastPointerPos := some { x := event.clientX, y := event.clientY } } }
      else m
    let m2 := m1.ensureVideoRect env
    match m2.state.videoRect with
    | none => m2
    | some rect =>
      if m2.state.pointerLocked then
        let nx := clamp01 (m2.state.normalizedPos.x.add (movementX.div rect.width))
        let ny := clamp01 (m2.state.normalizedPos.y.add (movementY.div rect.height))
        let m3 := { m2 with state := { m2.state with normalizedPos := { x := nx, y := ny } } }
        m3.sendMouseAction m3.state.normalizedPos.x m3.state.normalizedPos.y
          (flagOf MouseFlag.move) none
      else if !m2.isInsideVideo event.clientX event.clientY then m2
      else
        let x := (event.clientX.sub rect.left).div rect.width
        let y := (event.clientY.sub rect.top).div rect.height
        let m3 := { m2 with state := { m2.state with
          normalizedPos := { x := clamp01 x, y := clamp01 y } } }
        m3.sendMouseAction m3.state.normalizedPos.x m3.state.normalizedPos.y
          (flagOf MouseFlag.move) none

/-- Source lines 327-336: `onPointerUp`. -/
def onPointerUp (m : ControlManager) (event : PointerEvent) : ControlManager :=
  let button : Int := event.button.getD 0
  let m1 := { m with state := { m.state with lastPointerPos := none } }
  m1.sendMouseAction m1.state.normalizedPos.x m1.state.normalizedPos.y
    (flagOf (buttonToFlag button false)) none

/-- Source lines 338-340: `onPointerCancel`. -/
def onPointerCancel (m : ControlManager) : ControlManager :=
  { m with state := { m.state with lastPointerPos := none } }

/-- Source lines 342-368: `onWheel`. -/
def onWheel (m : ControlManager) (env : Env) (event : WheelEvent) : ControlManager :=
  let now := env.now
  if now - m.state.lastWheelAt < 50 then m
  else
    let m1 := { m with state := { m.state with lastWheelAt := now } }
    let m2 := m1.ensureVideoRect env
    match m2.state.videoRect with
    | none => m2
    | some rect =>
      let flag : Int :=
        if event.deltaY.strictEq (JSNum.fin 0) then MouseFlag.wheel_horizontal
        else MouseFlag.wheel_vertical
      let scroll : JSNum := if event.deltaY.truthy then event.deltaY else event.deltaX
      if !m2.state.pointerLocked then
        if !m2.isInsideVideo event.clientX event.clientY then m2
        else
          m2.sendMouseAction
            ((event.clientX.sub rect.left).div rect.width)
            ((event.clientY.sub rect.top).div rect.height)
            (flagOf flag) (some scroll)
      else
        m2.sendMouseAction m2.state.normalizedPos.x m2.state.normalizedPos.y
          (flagOf flag) (some scroll)

/-! ## Legacy touch fallback -/

/-- Source lines 370-380: `onTouchStartFallback`. -/
def onTouchStartFallback (m : ControlManager) (env : Env) (event : TouchEvent) :
    ControlManager :=
  match event.touches with
  | [] => m
  | touch :: _ =>
    let m1 := { m with state := { m.state with
      lastPointerPos := some { x := touch.clientX, y := touch.clientY } } }
    m1.onPointerDown env
      { button := some 0, clientX := touch.clientX, clientY := touch.clientY,
        movementX := JSNum.nan, movementY := JSNum.nan }

/-- Source lines 382-393: `onTouchMoveFallback`. -/
def onTouchMoveFallback (m : ControlManager) (env : Env) (event : TouchEvent) :
    ControlManager :=
  match m.state.lastPointerPos, event.touches with
  | none, _ => m
  | some _, [] => m
  | some last, touch :: _ =>
    let m1 := m.onPointerMove env
      { button := none, clientX := touch.clientX, clientY := touch.clientY,
        movementX := touch.clientX.sub last.x, movementY := touch.clientY.sub last.y }
    { m1 with state := { m1.state with
        lastPointerPos := some { x := touch.clientX, y := touch.clientY } } }

/-- Source lines 395-403: `onTouchEndFallback`. -/
def onTouchEndFallback (m : ControlManager) (event : TouchEvent) : ControlManager :=
  let touch := event.changedTouches.head?
  let m1 := m.onPointerUp
    { button := some 0
      clientX := (touch.map Touch.clientX).getD (JSNum.fin 0)
      clientY := (touch.map Touch.clientY).getD (JSNum.fin 0)
      movementX := JSNum.nan, movementY := JSNum.nan }
  { m1 with state := { m1.state with lastPointerPos := none } }

end ControlManager

/-! ## Keyboard -/

/-- The target of a keyboard event: its `tagName` and its `type` attribute
(`none` for a missing member or attribute). -/
structure Element where
  tagName : Option String
  typeAttr : Option String

/-- The members of a keyboard event that the listeners read. -/
structure KeyEvent where
  ctrlKey : Bool
  key : String
  repeated : Bool
  keyCode : Option JSNum
  target : Option Element

/-- The Kelvin sign (U+212A): the one character outside ASCII whose lower-case
form is an ASCII letter (`k`). -/
def kelvinSign : Char := Char.ofNat 8490

/-- The lower-case form of a character, for the characters whose lower-case
form is an ASCII letter: the ASCII letters and the Kelvin sign.  Every other
character is kept. -/
def toLowerCaseChar (c : Char) : Char :=
  if c = kelvinSign then 'k' else c.toLower

/-- The method `toLowerCase` of a string, as far as `isTextInput` can observe
it.  `isTextInput` only compares the result with words of ASCII letters, and a
string lower-cases to such a word exactly when each of its characters is an
ASCII letter or the Kelvin sign of the right letter; these characters are
mapped as JavaScript maps them, so every comparison comes out as in the source.
Characters whose lower-case form is not an ASCII letter are kept as they are. -/
def toLowerCase (s : String) : String :=
  String.mk (s.data.map toLowerCaseChar)

/-- Source lines 23-30: `isTextInput`. -/
def isTextInput (el : Option Element) : Bool :=
  match el with
  | none => false
  | some e =>
    match e.tagName with
    | none => false
    | some name =>
      if name = "" then false
      else
        let tag := toLowerCase name
        if tag = "textarea" then true
        else if tag ≠ "input" then false
        else
          let attr : String :=
            match e.typeAttr with
            | none => "text"
            | some t => if t = "" then "text" else t
          !(["checkbox", "radio", "button", "submit", "reset"].contains (toLowerCase attr))

namespace ControlManager

/-- Source lines 196-200 and 449-454: the two `keydown` listeners, in the
order in which they are registered.  Both are closures that `init` (lines
92-107) creates after its check of the video element: on a page without that
element `init` returns before `bindPointerLockEvents` and
`bindKeyboardListeners`, and no listener runs. -/
def onKeyDown (m : ControlManager) (event : KeyEvent) : ControlManager :=
  match m.video with
  | none => m
  | some _ =>
    let m1 :=
      if event.ctrlKey && event.key == "Escape" then { m with lockExits := m.lockExits + 1 }
      else m
    if !m1.isChannelOpen then m1
    else if event.repeated then m1
    else if isTextInput event.target then m1
    else m1.sendKeyboardAction (event.keyCode.getD (JSNum.fin 0)) true

/-- Source lines 456-460: the `keyup` listener, a closure that `init` creates
only when the video element exists (lines 92-107). -/
def onKeyUp (m : ControlManager) (event : KeyEvent) : ControlManager :=
  match m.video with
  | none => m
  | some _ =>
    if !m.isChannelOpen then m
    else if isTextInput event.target then m
    else m.sendKeyboardAction (event.keyCode.getD (JSNum.fin 0)) false

/-! ## Gesture emulators -/

/-- Source lines 475-525: the four listeners of the virtual left and right
buttons; each sends the given flag at the current position. -/
def onVirtualButton (m : ControlManager) (flag : Int) : ControlManager :=
  m.sendMouseAction m.state.normalizedPos.x m.state.normalizedPos.y (flagOf flag) none

/-- Source lines 581-588: `emitVirtualWheel`. -/
def emitVirtualWheel (m : ControlManager) : ControlManager :=
  m.sendMouseAction m.state.normalizedPos.x m.state.normalizedPos.y
    (flagOf MouseFlag.wheel_vertical) (some (JSNum.fin (-20)))

/-- The call `setInterval(callback, 100)`: a fresh positive handle is returned
and the timer is scheduled. -/
def setInterval (m : ControlManager) : ControlManager × Nat :=
  let handle := m.timerCount + 1
  ({ m with intervals := m.intervals ++ [handle], timerCount := m.timerCount + 1 }, handle)

/-- The call `clearInterval(handle)`. -/
def clearInterval (m : ControlManager) (handle : Nat) : ControlManager :=
  { m with intervals := m.intervals.filter (fun h => h != handle) }

/-- Source lines 567-571: `onVirtualWheelStart`. -/
def onVirtualWheelStart (m : ControlManager) : ControlManager :=
  let m1 := m.emitVirtualWheel
  let r := m1.setInterval
  { r.1 with virtualWheelTimer := some r.2 }

/-- Source lines 573-579: `onVirtualWheelEnd`; a handle is truthy when it is
not zero. -/
def onVirtualWheelEnd (m : ControlManager) : ControlManager :=
  match m.virtualWheelTimer with
  | none => m
  | some handle =>
    if handle = 0 then m
    else { (m.clearInterval handle) with virtualWheelTimer := none }

/-- The interval timer `handle` fires: its callback (line 570) runs if the
timer is still scheduled. -/
def onIntervalFired (m : ControlManager) (handle : Nat) : ControlManager :=
  if handle ∈ m.intervals then m.emitVirtualWheel else m

/-- Source lines 590-600: `onTouchpadStart`. -/
def onTouchpadStart (m : ControlManager) (event : TouchEvent) : ControlManager :=
  match event.touches with
  | [] => m
  | touch :: _ =>
    let anchor : TouchpadStart :=
      { x := touch.clientX
        y := touch.clientY
        normalizedX := m.state.normalizedPos.x
        normalizedY := m.state.normalizedPos.y }
    { m with state := { m.state with touchpadStart := some anchor } }

/-- Source lines 602-631: `onTouchpadMove`. -/
def onTouchpadMove (m : ControlManager) (env : Env) (event : TouchEvent) :
    ControlManager :=
  match event.touches, m.state.touchpadStart with
  | [], _ => m
  | _ :: _, none => m
  | touch :: _, some start =>
    let m1 := m.ensureVideoRect env
    match m1.state.videoRect with
    | none => m1
    | some rect =>
      let sensitivity := JSNum.fin 2
      let deltaX := touch.clientX.sub start.x
      let deltaY := touch.clientY.sub start.y
      let newX := start.normalizedX.add ((deltaX.div rect.width).mul sensitivity)
      let newY := start.normalizedY.add ((deltaY.div rect.height).mul sensitivity)
      let m2 := { m1 with state := { m1.state with
        normalizedPos := { x := clamp01 newX, y := clamp01 newY } } }
      m2.sendMouseAction m2.state.normalizedPos.x m2.state.normalizedPos.y
        (flagOf MouseFlag.move) none

/-- Source lines 633-636: `onTouchpadEnd`. -/
def onTouchpadEnd (m : ControlManager) : ControlManager :=
  { m with state := { m.state with touchpadStart := none } }

/-- Source lines 657-667: `onDragHandleTouchStart`; `overlay` is the bounding
rectangle of the virtual-mouse overlay. -/
def onDragHandleTouchStart (m : ControlManager) (overlay : Rect) (event : TouchEvent) :
    ControlManager :=
  match event.touches with
  | [] => m
  | touch :: _ =>
    if !m.virtualMouse then m
    else { m with state := { m.state with
      draggingVirtualMouse := true
      dragOffset := { x := touch.clientX.sub overlay.left, y := touch.clientY.sub overlay.top } } }

/-- Source lines 669-696: `onDragHandleTouchMove` only restyles the overlay. -/
def onDragHandleTouchMove (m : ControlManager) (_event : TouchEvent) : ControlManager := m

/-- Source lines 698-700: `onDragHandleTouchEnd`. -/
def onDragHandleTouchEnd (m : ControlManager) : ControlManager :=
  { m with state := { m.state with draggingVirtualMouse := false } }

/-- Source lines 702-705: `onDragHandleClick` only toggles a style class. -/
def onDragHandleClick (m : ControlManager) : ControlManager := m

/-- Source lines 708-717: the click listener of the maximise button. -/
def onFullscreenClick (m : ControlManager) (env : Env) : ControlManager :=
  if !m.mediaContainer then m
  else
    ({ m with state := { m.state with isFullscreen := !m.state.isFullscreen } }).ensureVideoRect env

/-- Source lines 719-741: the click listener of the fullscreen button. -/
def onRealFullscreenClick (m : ControlManager) : ControlManager :=
  if !m.videoContainer then m
  else { m with state := { m.state with isRealFullscreen := !m.state.isRealFullscreen } }

end ControlManager

/-! ## The event loop -/

/-- Everything that can call into the controller. -/
inductive Event where
  | setDataChannel (channel : Option DataChannel)
  | pointerLockChange
  | pointerLockError
  | pointerDown (e : PointerEvent)
  | pointerMove (e : PointerEvent)
  | pointerUp (e : PointerEvent)
  | pointerCancel
  | wheel (e : WheelEvent)
  | touchStartFallback (e : TouchEvent)
  | touchMoveFallback (e : TouchEvent)
  | touchEndFallback (e : TouchEvent)
  | keyDown (e : KeyEvent)
  | keyUp (e : KeyEvent)
  | virtualLeftDown
  | virtualLeftUp
  | virtualRightDown
  | virtualRightUp
  | virtualWheelStart
  | virtualWheelEnd
  | intervalFired (handle : Nat)
  | touchpadStart (e : TouchEvent)
  | touchpadMove (e : TouchEvent)
  | touchpadEnd
  | dragHandleTouchStart (overlay : Rect) (e : TouchEvent)
  | dragHandleTouchMove (e : TouchEvent)
  | dragHandleTouchEnd
  | dragHandleClick
  | fullscreenClick
  | realFullscreenClick
  | sendRemoteActionAt (x y : JSNum) (flag : FlagArg) (scroll : Option JSNum)

namespace ControlManager

/-- One turn of the event loop: the handler bound to the event runs to
completion in the environment `env`. -/
def step (m : ControlManager) (env : Env) : Event → ControlManager
  | Event.setDataChannel channel => m.setDataChannel channel
  | Event.pointerLockChange => m.onPointerLockChange env
  | Event.pointerLockError => m.onPointerLockError
  | Event.pointerDown e => m.onPointerDown env e
  | Event.pointerMove e => m.onPointerMove env e
  | Event.pointerUp e => m.onPointerUp e
  | Event.pointerCancel => m.onPointerCancel
  | Event.wheel e => m.onWheel env e
  | Event.touchStartFallback e => m.onTouchStartFallback env e
  | Event.touchMoveFallback e => m.onTouchMoveFallback env e
  | Event.touchEndFallback e => m.onTouchEndFallback e
  | Event.keyDown e => m.onKeyDown e
  | Event.keyUp e => m.onKeyUp e
  | Event.virtualLeftDown => m.onVirtualButton MouseFlag.left_down
  | Event.virtualLeftUp => m.onVirtualButton MouseFlag.left_up
  | Event.virtualRightDown => m.onVirtualButton MouseFlag.right_down
  | Event.virtualRightUp => m.onVirtualButton MouseFlag.right_up
  | Event.virtualWheelStart => m.onVirtualWheelStart
  | Event.virtualWheelEnd => m.onVirtualWheelEnd
  | Event.intervalFired handle => m.onIntervalFired handle
  | Event.touchpadStart e => m.onTouchpadStart e
  | Event.touchpadMove e => m.onTouchpadMove env e
  | Event.touchpadEnd => m.onTouchpadEnd
  | Event.dragHandleTouchStart overlay e => m.onDragHandleTouchStart overlay e
  | Event.dragHandleTouchMove e => m.onDragHandleTouchMove e
  | Event.dragHandleTouchEnd => m.onDragHandleTouchEnd
  | Event.dragHandleClick => m.onDragHandleClick
  | Event.fullscreenClick => m.onFullscreenClick env
  | Event.realFullscreenClick => m.onRealFullscreenClick
  | Event.sendRemoteActionAt x y flag scroll => m.sendMouseAction x y flag scroll

/-- A finite sequence of turns of the event loop. -/
def run (m : ControlManager) : List (Env × Event) → ControlManager
  | [] => m
  | (env, ev) :: rest => (m.step env ev).run rest

end ControlManager

/-! ## Notions used in the statements -/

namespace ControlManager

/-- The mode and the video element are the same in `m2` as in `m`. -/
def SameLock (m m2 : ControlManager) : Prop :=
  m2.state.pointerLocked = m.state.pointerLocked ∧ m2.video = m.video

/-- The mode written by the last capture-change notification of a sequence of
turns, for a controller whose video element is `video`; `none` when the sequence
holds no such notification. -/
def lastLockNotification (video : Option Nat) : List (Env × Event) → Option Bool
  | [] => none
  | (env, ev) :: rest =>
    match lastLockNotification video rest with
    | some b => some b
    | none =>
      match ev with
      | Event.pointerLockChange => some (decide (env.pointerLockElement = video))
      | _ => none

end ControlManager

/-- A rectangle of the given left, top, width and height. -/
def rectOf (l t w h : ℚ) : Rect :=
  { left := JSNum.fin l, top := JSNum.fin t, width := JSNum.fin w, height := JSNum.fin h }

/-- A page whose video rectangle is `r`, with no pointer-lock element, at time `0`. -/
def envOf (r : Rect) : Env := { rect := r, pointerLockElement := none, now := 0 }

/-- A controller as constructed on a page that has every element, video element `1`. -/
def fresh : ControlManager := ControlManager.init (some 1) (some []) true true true

/-- A pointer event with the given button at the given client coordinates. -/
def pointerAt (button : Int) (x y : ℚ) : PointerEvent :=
  { button := some button, clientX := JSNum.fin x, clientY := JSNum.fin y,
    movementX := JSNum.fin 0, movementY := JSNum.fin 0 }

/-- A controller in captured mode at the normalized position `(x, y)`, with the
rectangle `r` cached. -/
def capturedAt (x y : ℚ) (r : Rect) : ControlManager :=
  { fresh with state := { fresh.state with
      pointerLocked := true
      normalizedPos := { x := JSNum.fin x, y := JSNum.fin y }
      videoRect := some r } }

/-- A pointer event carrying the relative movement `(dx, dy)` at the client
coordinates `(x, y)`. -/
def movementOf (dx dy x y : ℚ) : PointerEvent :=
  { button := some 0, clientX := JSNum.fin x, clientY := JSNum.fin y,
    movementX := JSNum.fin dx, movementY := JSNum.fin dy }

/-- A controller in free mode while a button is held: the last pointer-down
was at client `(x, y)`. -/
def pressedAt (x y : ℚ) : ControlManager :=
  { fresh with state := { fresh.state with
      lastPointerPos := some { x := JSNum.fin x, y := JSNum.fin y } } }

/-- A page whose video rectangle is `r`, with no pointer-lock element, at time `now`. -/
def envAt (r : Rect) (now : Int) : Env := { rect := r, pointerLockElement := none, now := now }

/-- A wheel event at client `(x, y)` with deltas `(dx, dy)`. -/
def wheelOf (x y dx dy : ℚ) : WheelEvent :=
  { clientX := JSNum.fin x, clientY := JSNum.fin y, deltaX := JSNum.fin dx, deltaY := JSNum.fin dy }

/-- The dominant delta of a wheel event in the words of the specification: the
one of larger magnitude. -/
def dominantDelta (dx dy : ℚ) : ℚ := if |dy| < |dx| then dx else dy

namespace ControlManager

/-- The times (`Date.now()`) of the calls of `onWheel`, in a sequence of calls,
that called `send`. -/
def wheelEmitTimes (m : ControlManager) : List (Env × WheelEvent) → List Int
  | [] => []
  | (env, e) :: rest =>
    (if (m.onWheel env e).sendCalls.length = m.sendCalls.length then [] else [env.now]) ++
      wheelEmitTimes (m.onWheel env e) rest

end ControlManager

/-- Ten wheel events in the video, 5 ms apart, from time 1000 to time 1045. -/
def wheelBurst : List (Env × WheelEvent) :=
  [1000, 1005, 1010, 1015, 1020, 1025, 1030, 1035, 1040, 1045].map
    (fun t => (envAt (rectOf 0 0 200 100) t, wheelOf 100 50 0 (-120)))

/-- Two touch-starts on the virtual wheel (a second finger lands before the
first lifts) followed by one touch-end. -/
def overlappingWheelTouches : List (Env × Event) :=
  [(envOf (rectOf 0 0 200 100), Event.virtualWheelStart),
   (envOf (rectOf 0 0 200 100), Event.virtualWheelStart),
   (envOf (rectOf 0 0 200 100), Event.virtualWheelEnd)]

/-- A touch event with one touch point at client `(x, y)`. -/
def touchAt (x y : ℚ) : TouchEvent :=
  { touches := [{ clientX := JSNum.fin x, clientY := JSNum.fin y }], changedTouches := [] }

/-- A vertical drag on the virtual touchpad, from `(10, 10)` to `(10, 20)`,
while the video element has an empty bounding rectangle (it is not laid out). -/
def touchpadDragOnEmptyVideo : List (Env × Event) :=
  [(envOf (rectOf 0 0 0 0), Event.touchpadStart (touchAt 10 10)),
   (envOf (rectOf 0 0 0 0), Event.touchpadMove (touchAt 10 20))]

/-- A rectangle with finite sides and positive width and height. -/
def Rect.Proper (r : Rect) : Prop :=
  ∃ l t w h : ℚ, r = rectOf l t w h ∧ 0 < w ∧ 0 < h

/-- Every coordinate of a pointer event is a finite number. -/
def PointerEvent.Finite (e : PointerEvent) : Prop :=
  e.clientX.isFinite = true ∧ e.clientY.isFinite = true ∧
  e.movementX.isFinite = true ∧ e.movementY.isFinite = true

/-- Every touch point of a touch event has finite coordinates. -/
def TouchEvent.Finite (e : TouchEvent) : Prop :=
  ∀ t ∈ e.touches, t.clientX.isFinite = true ∧ t.clientY.isFinite = true

/-- The coordinates carried by an event, if any, are finite numbers. -/
def Event.Finite : Event → Prop
  | Event.pointerDown e => e.Finite
  | Event.pointerMove e => e.Finite
  | Event.pointerUp e => e.Finite
  | Event.touchStartFallback e => e.Finite
  | Event.touchMoveFallback e => e.Finite
  | Event.touchpadStart e => e.Finite
  | Event.touchpadMove e => e.Finite
  | _ => True

/-- The anchor of a touchpad session, if any, holds finite numbers. -/
def AnchorFinite (s : Option TouchpadStart) : Prop :=
  ∀ a, s = some a →
    a.x.isFinite = true ∧ a.y.isFinite = true ∧
    a.normalizedX.isFinite = true ∧ a.normalizedY.isFinite = true

/-- The remembered pointer position, if any, holds finite numbers. -/
def PosFinite (p : Option Pos) : Prop :=
  ∀ q, p = some q → q.x.isFinite = true ∧ q.y.isFinite = true

namespace ControlManager

/-- The invariant behind the range of the position: the position is in the unit
square, the anchors kept for later moves are finite, and a controller without a
video element has no cached rectangle. -/
def Inv (m : ControlManager) : Prop :=
  JSNum.InUnit m.state.normalizedPos.x ∧ JSNum.InUnit m.state.normalizedPos.y ∧
  AnchorFinite m.state.touchpadStart ∧ PosFinite m.state.lastPointerPos ∧
  (m.video = none → m.state.videoRect = none)

end ControlManager

/-- A data channel that is open and whose `send` does not throw. -/
def openChannel : DataChannel := { readyState := "open", sendThrows := false }

/-- A fresh controller wired to an open data channel. -/
def freshOpen : ControlManager := fresh.setDataChannel (some openChannel)

/-- A fresh controller wired to a data channel that is still connecting. -/
def freshConnecting : ControlManager :=
  fresh.setDataChannel (some { readyState := "connecting", sendThrows := false })

namespace ControlManager

/-- One session of the virtual wheel on the controller `m`: touch-start, `n`
firings of the repeat timer that this touch-start creates, touch-end. -/
def wheelSession (m : ControlManager) (env : Env) (n : Nat) : List (Env × Event) :=
  (env, Event.virtualWheelStart) ::
    (List.replicate n (env, Event.intervalFired (m.timerCount + 1)) ++
      [(env, Event.virtualWheelEnd)])

/-- The wheel tick sent by `emitVirtualWheel` on the controller `m`. -/
def wheelTick (m : ControlManager) : Action :=
  Action.mouse
    { x := clamp01 m.state.normalizedPos.x
      y := clamp01 m.state.normalizedPos.y
      s := -20
      flag := FlagVal.int MouseFlag.wheel_vertical }

end ControlManager

/-- A controller built on a page without a video element. -/
def freshNoVideo : ControlManager := ControlManager.init none (some []) true true true

/-- A key event for the key code `code` on the target `target`. -/
def keyOf (code : Int) (repeated : Bool) (target : Option Element) : KeyEvent :=
  { ctrlKey := false, key := "a", repeated := repeated,
    keyCode := some (JSNum.fin code), target := target }

/-- The page body as the target of a key event. -/
def bodyElement : Element := { tagName := some "BODY", typeAttr := none }

/-- A text field (`<input type="text">`) as the target of a key event. -/
def textField : Element := { tagName := some "INPUT", typeAttr := some "text" }

/-- A key held down on the target `target`: the first key-down, `k` repeated
key-downs, and the key-up. -/
def keyHeld (env : Env) (code : Int) (target : Option Element) (k : Nat) :
    List (Env × Event) :=
  (env, Event.keyDown (keyOf code false target)) ::
    (List.replicate k (env, Event.keyDown (keyOf code true target)) ++
      [(env, Event.keyUp (keyOf code false target))])

/-- A fresh controller in free mode with the rectangle `r` cached. -/
def freeWith (r : Rect) : ControlManager :=
  { fresh with state := { fresh.state with videoRect := some r } }

namespace ControlManager

/-- A sequence of touch-moves on the virtual touchpad, each with the page as it
is when the move arrives. -/
def touchMoves (m : ControlManager) : List (Env × TouchEvent) → ControlManager
  | [] => m
  | (env, e) :: rest => touchMoves (m.onTouchpadMove env e) rest

/-- The members that decide the result of a touchpad move are the same in `m2`
as in `m`: the video element, the anchor, the cached rectangle when there is no
video element, and the position when a move can do nothing. -/
def SameSession (m m2 : ControlManager) : Prop :=
  m2.video = m.video ∧
  m2.state.touchpadStart = m.state.touchpadStart ∧
  (m.video = none → m2.state.videoRect = m.state.videoRect) ∧
  (m.state.touchpadStart = none ∨ (m.video = none ∧ m.state.videoRect = none) →
    m2.state.normalizedPos = m.state.normalizedPos)

end ControlManager

/-- A checkbox whose `type` attribute is written with the Kelvin sign in place
of the letter `k`. -/
def kelvinCheckbox : Element :=
  { tagName := some "INPUT"
    typeAttr := some (String.mk ['c', 'h', 'e', 'c', kelvinSign, 'b', 'o', 'x']) }

/-- A controller built on a page without a video element, wired to an open
data channel. -/
def freshNoVideoOpen : ControlManager := freshNoVideo.setDataChannel (some openChannel)

/-! ## Lemmas -/

theorem clamp01_fin (q : ℚ) : clamp01 (JSNum.fin q) = JSNum.fin (Max.max 0 (Min.min 1 q)) := by
  unfold clamp01 JSNum.max JSNum.min
  by_cases h1 : (1 : ℚ) ≤ q
  · simp [JSNum.isNaN, JSNum.le, h1]
  · have h1b : q ≤ 1 := le_of_lt (not_le.mp h1)
    by_cases h0 : (0 : ℚ) ≤ q
    · simp [JSNum.isNaN, JSNum.le, h1, h0, h1b]
    · have h0b : q ≤ 0 := le_of_lt (not_le.mp h0)
      simp [JSNum.isNaN, JSNum.le, h1, h0, h1b, h0b]

theorem clamp01_pinf : clamp01 JSNum.pinf = JSNum.fin 1 := by
  simp [clamp01, JSNum.max, JSNum.min, JSNum.isNaN, JSNum.le]

theorem clamp01_ninf : clamp01 JSNum.ninf = JSNum.fin 0 := by
  simp [clamp01, JSNum.max, JSNum.min, JSNum.isNaN, JSNum.le]

theorem clamp01_nan : clamp01 JSNum.nan = JSNum.nan := by
  simp [clamp01, JSNum.max, JSNum.min, JSNum.isNaN]

theorem clamp01_idem (v : JSNum) : clamp01 (clamp01 v) = clamp01 v := by
  cases v with
  | fin q =>
    rw [clamp01_fin, clamp01_fin]
    congr 1
    have h0 : (0 : ℚ) ≤ Max.max 0 (Min.min 1 q) := le_max_left _ _
    have h1 : Max.max 0 (Min.min 1 q) ≤ (1 : ℚ) := max_le (by norm_num) (min_le_left _ _)
    rw [min_eq_right h1, max_eq_right h0]
  | pinf => rw [clamp01_pinf, clamp01_fin]; norm_num
  | ninf => rw [clamp01_ninf, clamp01_fin]; norm_num
  | nan => rw [clamp01_nan, clamp01_nan]

theorem inUnit_fin (q : ℚ) : JSNum.InUnit (JSNum.fin q) ↔ 0 ≤ q ∧ q ≤ 1 := by
  simp [JSNum.InUnit, JSNum.le]

theorem inUnit_clamp01_fin (q : ℚ) : JSNum.InUnit (clamp01 (JSNum.fin q)) := by
  rw [clamp01_fin, inUnit_fin]
  exact ⟨le_max_left _ _, max_le (by norm_num) (min_le_left _ _)⟩

theorem inUnit_clamp01 (v : JSNum) (h : v ≠ JSNum.nan) : JSNum.InUnit (clamp01 v) := by
  cases v with
  | fin q => exact inUnit_clamp01_fin q
  | pinf => rw [clamp01_pinf, inUnit_fin]; norm_num
  | ninf => rw [clamp01_ninf, inUnit_fin]; norm_num
  | nan => exact absurd rfl h

theorem not_inUnit_nan : ¬ JSNum.InUnit JSNum.nan := by
  simp [JSNum.InUnit, JSNum.le]

theorem clamp01_of_inUnit (v : JSNum) (h : JSNum.InUnit v) : clamp01 v = v := by
  cases v with
  | fin q =>
    rw [inUnit_fin] at h
    rw [clamp01_fin, min_eq_right h.2, max_eq_right h.1]
  | pinf => simp [JSNum.InUnit, JSNum.le] at h
  | ninf => simp [JSNum.InUnit, JSNum.le] at h
  | nan => exact absurd h not_inUnit_nan

theorem truncQ_intCast (n : Int) : JSNum.truncQ (n : ℚ) = n := by
  unfold JSNum.truncQ
  split <;> simp

theorem wrap32_of_range (n : Int) (h1 : -2147483648 ≤ n) (h2 : n < 2147483648) :
    JSNum.wrap32 n = n := by
  unfold JSNum.wrap32
  simp only
  split <;> omega

theorem toInt32_intCast (n : Int) (h1 : -2147483648 ≤ n) (h2 : n < 2147483648) :
    (JSNum.fin (n : ℚ)).toInt32 = n := by
  simp [JSNum.toInt32, truncQ_intCast, wrap32_of_range n h1 h2]

theorem toInt32_zero : (JSNum.fin 0).toInt32 = 0 := by
  have := toInt32_intCast 0 (by norm_num) (by norm_num)
  simpa using this

theorem sub_fin (a b : ℚ) : (JSNum.fin a).sub (JSNum.fin b) = JSNum.fin (a - b) := by
  simp [JSNum.sub, JSNum.neg, JSNum.add, sub_eq_add_neg]

theorem div_fin_of_ne (a b : ℚ) (hb : b ≠ 0) :
    (JSNum.fin a).div (JSNum.fin b) = JSNum.fin (a / b) := by
  simp [JSNum.div, hb]

theorem clamp01_fin_of_mem (q : ℚ) (h0 : 0 ≤ q) (h1 : q ≤ 1) :
    clamp01 (JSNum.fin q) = JSNum.fin q := by
  rw [clamp01_fin, min_eq_right h1, max_eq_right h0]

theorem unit_of_inside (l w c : ℚ) (hw : 0 < w) (h1 : l ≤ c) (h2 : c ≤ l + w) :
    0 ≤ (c - l) / w ∧ (c - l) / w ≤ 1 := by
  constructor
  · exact div_nonneg (by linarith) hw.le
  · rw [div_le_one hw]; linarith

/-- The absolute conversion of a point inside a rectangle of positive size is the
plain quotient. -/
theorem toNormalized_inside (l w c : ℚ) (hw : 0 < w) (h1 : l ≤ c) (h2 : c ≤ l + w) :
    clamp01 (((JSNum.fin c).sub (JSNum.fin l)).div (JSNum.fin w)) =
      JSNum.fin ((c - l) / w) := by
  rw [sub_fin, div_fin_of_ne _ _ hw.ne.symm]
  exact clamp01_fin_of_mem _ (unit_of_inside l w c hw h1 h2).1 (unit_of_inside l w c hw h1 h2).2

theorem le_false_of_lt (a b : JSNum) (h : a.lt b = true) : b.le a = false := by
  cases a <;> cases b <;> simp_all [JSNum.lt, JSNum.le]

/-! ### What `send` leaves alone -/

namespace ControlManager

theorem send_state (m : ControlManager) (a : Action) : (m.send a).1.state = m.state := by
  unfold send logDataChannel
  simp only
  split
  · rfl
  · split
    · rfl
    · split
      · rfl
      · split <;> rfl

theorem send_sendCalls (m : ControlManager) (a : Action) :
    (m.send a).1.sendCalls = m.sendCalls ++ [a] := by
  unfold send logDataChannel
  simp only
  split
  · rfl
  · split
    · rfl
    · split
      · rfl
      · split <;> rfl

theorem send_frame (m : ControlManager) (a : Action) :
    (m.send a).1.video = m.video ∧ (m.send a).1.virtualWheelTimer = m.virtualWheelTimer ∧
    (m.send a).1.intervals = m.intervals ∧ (m.send a).1.timerCount = m.timerCount ∧
    (m.send a).1.lockRequests = m.lockRequests ∧ (m.send a).1.dataChannel = m.dataChannel := by
  unfold send logDataChannel
  simp only
  split
  · simp
  · split
    · simp
    · split
      · simp
      · split <;> simp

@[simp] theorem sendMouseAction_state (m : ControlManager) (x y : JSNum) (f : FlagArg)
    (sc : Option JSNum) : (m.sendMouseAction x y f sc).state = m.state :=
  send_state m _

@[simp] theorem sendMouseAction_sendCalls (m : ControlManager) (x y : JSNum) (f : FlagArg)
    (sc : Option JSNum) :
    (m.sendMouseAction x y f sc).sendCalls = m.sendCalls ++ [mouseAction x y f sc] :=
  send_sendCalls m _

@[simp] theorem sendMouseAction_video (m : ControlManager) (x y : JSNum) (f : FlagArg)
    (sc : Option JSNum) : (m.sendMouseAction x y f sc).video = m.video :=
  (send_frame m _).1

@[simp] theorem sendMouseAction_virtualWheelTimer (m : ControlManager) (x y : JSNum)
    (f : FlagArg) (sc : Option JSNum) :
    (m.sendMouseAction x y f sc).virtualWheelTimer = m.virtualWheelTimer :=
  (send_frame m _).2.1

@[simp] theorem sendMouseAction_intervals (m : ControlManager) (x y : JSNum) (f : FlagArg)
    (sc : Option JSNum) : (m.sendMouseAction x y f sc).intervals = m.intervals :=
  (send_frame m _).2.2.1

@[simp] theorem sendMouseAction_timerCount (m : ControlManager) (x y : JSNum) (f : FlagArg)
    (sc : Option JSNum) : (m.sendMouseAction x y f sc).timerCount = m.timerCount :=
  (send_frame m _).2.2.2.1

@[simp] theorem sendMouseAction_lockRequests (m : ControlManager) (x y : JSNum) (f : FlagArg)
    (sc : Option JSNum) : (m.sendMouseAction x y f sc).lockRequests = m.lockRequests :=
  (send_frame m _).2.2.2.2.1

@[simp] theorem sendKeyboardAction_state (m : ControlManager) (k : JSNum) (d : Bool) :
    (m.sendKeyboardAction k d).state = m.state :=
  send_state m _

@[simp] theorem sendKeyboardAction_video (m : ControlManager) (k : JSNum) (d : Bool) :
    (m.sendKeyboardAction k d).video = m.video :=
  (send_frame m _).1

@[simp] theorem ensureVideoRect_video (m : ControlManager) (env : Env) :
    (m.ensureVideoRect env).video = m.video := by
  unfold ensureVideoRect; split <;> rfl

@[simp] theorem ensureVideoRect_sendCalls (m : ControlManager) (env : Env) :
    (m.ensureVideoRect env).sendCalls = m.sendCalls := by
  unfold ensureVideoRect; split <;> rfl

@[simp] theorem ensureVideoRect_pointerLocked (m : ControlManager) (env : Env) :
    (m.ensureVideoRect env).state.pointerLocked = m.state.pointerLocked := by
  unfold ensureVideoRect; split <;> rfl

@[simp] theorem ensureVideoRect_normalizedPos (m : ControlManager) (env : Env) :
    (m.ensureVideoRect env).state.normalizedPos = m.state.normalizedPos := by
  unfold ensureVideoRect; split <;> rfl

theorem ensureVideoRect_of_video (m : ControlManager) (env : Env) (v : Nat)
    (h : m.video = some v) :
    m.ensureVideoRect env = { m with state := { m.state with videoRect := some env.rect } } := by
  unfold ensureVideoRect; rw [h]

theorem mouseAction_flagOf (x y : JSNum) (n : Int) (h1 : -2147483648 ≤ n)
    (h2 : n < 2147483648) :
    mouseAction x y (flagOf n) none =
      Action.mouse { x := clamp01 x, y := clamp01 y, s := 0, flag := FlagVal.int n } := by
  simp [mouseAction, numericFlag, flagOf, toInt32_intCast n h1 h2, toInt32_zero]

theorem buttonToFlag_range (b : Int) (d : Bool) :
    -2147483648 ≤ buttonToFlag b d ∧ buttonToFlag b d < 2147483648 := by
  unfold buttonToFlag
  simp only [MouseFlag.left_down, MouseFlag.left_up, MouseFlag.middle_down,
    MouseFlag.middle_up, MouseFlag.right_down, MouseFlag.right_up]
  split_ifs <;> constructor <;> norm_num

end ControlManager

namespace ControlManager

@[simp] theorem requestPointerLock_state (m : ControlManager) :
    m.requestPointerLock.state = m.state := by
  unfold requestPointerLock; split <;> rfl

@[simp] theorem requestPointerLock_video (m : ControlManager) :
    m.requestPointerLock.video = m.video := by
  unfold requestPointerLock; split <;> rfl

@[simp] theorem requestPointerLock_sendCalls (m : ControlManager) :
    m.requestPointerLock.sendCalls = m.sendCalls := by
  unfold requestPointerLock; split <;> rfl

@[simp] theorem updateNormalizedFromClient_video (m : ControlManager) (x y : JSNum) :
    (m.updateNormalizedFromClient x y).video = m.video := by
  unfold updateNormalizedFromClient; split <;> rfl

@[simp] theorem updateNormalizedFromClient_pointerLocked (m : ControlManager) (x y : JSNum) :
    (m.updateNormalizedFromClient x y).state.pointerLocked = m.state.pointerLocked := by
  unfold updateNormalizedFromClient; split <;> rfl

theorem sameLock_refl (m : ControlManager) : SameLock m m := ⟨rfl, rfl⟩

theorem sameLock_trans (a b c : ControlManager) (h1 : SameLock a b) (h2 : SameLock b c) :
    SameLock a c := ⟨h2.1.trans h1.1, h2.2.trans h1.2⟩

theorem sameLock_sendMouseAction (m : ControlManager) (x y : JSNum) (f : FlagArg)
    (sc : Option JSNum) : SameLock m (m.sendMouseAction x y f sc) := by
  simp [SameLock]

theorem sameLock_sendKeyboardAction (m : ControlManager) (k : JSNum) (d : Bool) :
    SameLock m (m.sendKeyboardAction k d) := by
  simp [SameLock]

theorem onPointerDown_sameLock (m : ControlManager) (env : Env) (e : PointerEvent) :
    SameLock m (m.onPointerDown env e) := by
  unfold SameLock
  cases hv : m.video <;> cases hr : m.state.videoRect <;>
    simp [onPointerDown, ensureVideoRect, hv, hr] <;>
    split <;> simp [hv] <;> split <;> simp [hv]

theorem onPointerMove_sameLock (m : ControlManager) (env : Env) (e : PointerEvent) :
    SameLock m (m.onPointerMove env e) := by
  unfold SameLock
  cases hl : m.state.pointerLocked <;> cases hv : m.video <;>
    cases hp : m.state.lastPointerPos <;> cases hr : m.state.videoRect <;>
    simp [onPointerMove, ensureVideoRect, hl, hv, hp, hr] <;>
    split <;> simp [hl, hv]

theorem onPointerUp_sameLock (m : ControlManager) (e : PointerEvent) :
    SameLock m (m.onPointerUp e) := by
  simp [SameLock, onPointerUp]

theorem onWheel_sameLock (m : ControlManager) (env : Env) (e : WheelEvent) :
    SameLock m (m.onWheel env e) := by
  unfold SameLock
  cases hl : m.state.pointerLocked <;> cases hv : m.video <;>
    cases hr : m.state.videoRect <;>
    simp [onWheel, ensureVideoRect, hl, hv, hr] <;>
    split_ifs <;> simp [hl, hv]

theorem onTouchpadMove_sameLock (m : ControlManager) (env : Env) (e : TouchEvent) :
    SameLock m (m.onTouchpadMove env e) := by
  unfold SameLock
  cases ht : e.touches <;> cases hs : m.state.touchpadStart <;> cases hv : m.video <;>
    cases hr : m.state.videoRect <;>
    simp [onTouchpadMove, ensureVideoRect, ht, hs, hv, hr]

theorem onTouchStartFallback_sameLock (m : ControlManager) (env : Env) (e : TouchEvent) :
    SameLock m (m.onTouchStartFallback env e) := by
  unfold onTouchStartFallback
  split
  · exact sameLock_refl m
  · exact sameLock_trans _ _ _ ⟨rfl, rfl⟩ (onPointerDown_sameLock _ env _)

theorem onTouchMoveFallback_sameLock (m : ControlManager) (env : Env) (e : TouchEvent) :
    SameLock m (m.onTouchMoveFallback env e) := by
  unfold onTouchMoveFallback
  split
  · exact sameLock_refl m
  · exact sameLock_refl m
  · exact sameLock_trans _ _ _ (onPointerMove_sameLock m env _) ⟨rfl, rfl⟩

theorem onTouchEndFallback_sameLock (m : ControlManager) (e : TouchEvent) :
    SameLock m (m.onTouchEndFallback e) := by
  unfold onTouchEndFallback
  exact sameLock_trans _ _ _ (onPointerUp_sameLock m _) ⟨rfl, rfl⟩

/-- With the video element present the key-down listener is bound: its body. -/
theorem onKeyDown_bound (m : ControlManager) (e : KeyEvent) (v : Nat)
    (hv : m.video = some v) :
    m.onKeyDown e =
      (if !(if (e.ctrlKey && e.key == "Escape") then { m with lockExits := m.lockExits + 1 } else m).isChannelOpen
        then (if (e.ctrlKey && e.key == "Escape") then { m with lockExits := m.lockExits + 1 } else m)
      else if e.repeated then
        (if (e.ctrlKey && e.key == "Escape") then { m with lockExits := m.lockExits + 1 } else m)
      else if isTextInput e.target then
        (if (e.ctrlKey && e.key == "Escape") then { m with lockExits := m.lockExits + 1 } else m)
      else (if (e.ctrlKey && e.key == "Escape") then { m with lockExits := m.lockExits + 1 } else
        m).sendKeyboardAction (e.keyCode.getD (JSNum.fin 0)) true) := by
  unfold onKeyDown; rw [hv]

/-- With the video element present the key-up listener is bound: its body. -/
theorem onKeyUp_bound (m : ControlManager) (e : KeyEvent) (v : Nat)
    (hv : m.video = some v) :
    m.onKeyUp e =
      (if !m.isChannelOpen then m
      else if isTextInput e.target then m
      else m.sendKeyboardAction (e.keyCode.getD (JSNum.fin 0)) false) := by
  unfold onKeyUp; rw [hv]

/-- Without a video element no keyboard listener is bound: a key event leaves
the controller as it is. -/
theorem onKey_without_video (m : ControlManager) (e : KeyEvent) (hv : m.video = none) :
    m.onKeyDown e = m ∧ m.onKeyUp e = m := by
  constructor
  · unfold onKeyDown; rw [hv]
  · unfold onKeyUp; rw [hv]

theorem onKeyDown_sameLock (m : ControlManager) (e : KeyEvent) :
    SameLock m (m.onKeyDown e) := by
  rcases Option.eq_none_or_eq_some m.video with hv | ⟨v, hv⟩
  · rw [(onKey_without_video m e hv).1]; exact ⟨rfl, rfl⟩
  · rw [onKeyDown_bound m e v hv]
    unfold SameLock
    split_ifs <;> simp

theorem onKeyUp_sameLock (m : ControlManager) (e : KeyEvent) :
    SameLock m (m.onKeyUp e) := by
  rcases Option.eq_none_or_eq_some m.video with hv | ⟨v, hv⟩
  · rw [(onKey_without_video m e hv).2]; exact ⟨rfl, rfl⟩
  · rw [onKeyUp_bound m e v hv]
    unfold SameLock
    split_ifs <;> simp

theorem emitVirtualWheel_sameLock (m : ControlManager) : SameLock m m.emitVirtualWheel := by
  simp [SameLock, emitVirtualWheel]

theorem onVirtualWheelStart_sameLock (m : ControlManager) :
    SameLock m m.onVirtualWheelStart := by
  simp [SameLock, onVirtualWheelStart, setInterval, emitVirtualWheel]

theorem onVirtualWheelEnd_sameLock (m : ControlManager) :
    SameLock m m.onVirtualWheelEnd := by
  unfold onVirtualWheelEnd SameLock
  split
  · simp
  · split <;> simp [clearInterval]

/-- Every handler but the capture-change notification leaves the mode and the
video element alone. -/
theorem step_sameLock (m : ControlManager) (env : Env) (ev : Event)
    (h : ev ≠ Event.pointerLockChange) : SameLock m (m.step env ev) := by
  cases ev with
  | pointerLockChange => exact absurd rfl h
  | pointerDown e => exact onPointerDown_sameLock m env e
  | pointerMove e => exact onPointerMove_sameLock m env e
  | pointerUp e => exact onPointerUp_sameLock m e
  | wheel e => exact onWheel_sameLock m env e
  | touchStartFallback e => exact onTouchStartFallback_sameLock m env e
  | touchMoveFallback e => exact onTouchMoveFallback_sameLock m env e
  | touchEndFallback e => exact onTouchEndFallback_sameLock m e
  | keyDown e => exact onKeyDown_sameLock m e
  | keyUp e => exact onKeyUp_sameLock m e
  | virtualWheelStart => exact onVirtualWheelStart_sameLock m
  | virtualWheelEnd => exact onVirtualWheelEnd_sameLock m
  | touchpadMove e => exact onTouchpadMove_sameLock m env e
  | intervalFired handle =>
    simp only [step, onIntervalFired]
    split
    · exact emitVirtualWheel_sameLock m
    · exact sameLock_refl m
  | touchpadStart e =>
    simp only [step, onTouchpadStart]
    split <;> exact ⟨rfl, rfl⟩
  | dragHandleTouchStart overlay e =>
    simp only [step, onDragHandleTouchStart]
    split
    · exact ⟨rfl, rfl⟩
    · split <;> exact ⟨rfl, rfl⟩
  | fullscreenClick =>
    simp only [step, onFullscreenClick]
    split
    · exact ⟨rfl, rfl⟩
    · simp [SameLock]
  | realFullscreenClick =>
    simp only [step, onRealFullscreenClick]
    split <;> exact ⟨rfl, rfl⟩
  | sendRemoteActionAt x y flag scroll => exact sameLock_sendMouseAction m x y flag scroll
  | virtualLeftDown => exact sameLock_sendMouseAction m _ _ _ _
  | virtualLeftUp => exact sameLock_sendMouseAction m _ _ _ _
  | virtualRightDown => exact sameLock_sendMouseAction m _ _ _ _
  | virtualRightUp => exact sameLock_sendMouseAction m _ _ _ _
  | setDataChannel channel => exact ⟨rfl, rfl⟩
  | pointerLockError => exact ⟨rfl, rfl⟩
  | pointerCancel => exact ⟨rfl, rfl⟩
  | touchpadEnd => exact ⟨rfl, rfl⟩
  | dragHandleTouchMove e => exact ⟨rfl, rfl⟩
  | dragHandleTouchEnd => exact ⟨rfl, rfl⟩
  | dragHandleClick => exact ⟨rfl, rfl⟩

theorem onPointerLockChange_video (m : ControlManager) (env : Env) :
    (m.onPointerLockChange env).video = m.video := by
  unfold onPointerLockChange
  simp only
  split <;> rfl

theorem onPointerLockChange_pointerLocked (m : ControlManager) (env : Env) :
    (m.onPointerLockChange env).state.pointerLocked =
      decide (env.pointerLockElement = m.video) := by
  unfold onPointerLockChange
  simp only
  split <;> rfl

theorem step_video (m : ControlManager) (env : Env) (ev : Event) :
    (m.step env ev).video = m.video := by
  by_cases h : ev = Event.pointerLockChange
  · subst h; exact onPointerLockChange_video m env
  · exact (step_sameLock m env ev h).2

theorem run_pointerLocked (evs : List (Env × Event)) (m : ControlManager) :
    (m.run evs).state.pointerLocked =
      (lastLockNotification m.video evs).getD m.state.pointerLocked := by
  induction evs generalizing m with
  | nil => rfl
  | cons p rest ih =>
    obtain ⟨env, ev⟩ := p
    simp only [run, lastLockNotification]
    rw [ih (m.step env ev), step_video]
    cases hl : lastLockNotification m.video rest with
    | some b => rfl
    | none =>
      by_cases h : ev = Event.pointerLockChange
      · subst h
        simp [step, onPointerLockChange_pointerLocked]
      · have hs := (step_sameLock m env ev h).1
        cases ev <;> first | exact absurd rfl h | simpa using hs

end ControlManager

/-! ## The pointer mode state machine -/

namespace ControlManager

/-- C2: whatever the prior state, a capture-change notification that arrives
while `document.pointerLockElement` is not the video element leaves the
controller in free mode (`pointerLocked = false`) with no cached rectangle. -/
theorem onPointerLockChange_elsewhere (m : ControlManager) (env : Env)
    (h : env.pointerLockElement ≠ m.video) :
    (m.onPointerLockChange env).state.pointerLocked = false ∧
    (m.onPointerLockChange env).state.videoRect = none := by
  unfold onPointerLockChange
  simp only [h, decide_False]
  split <;> simp

/-- C2, at a captured controller with a cached rectangle, the lock being lost. -/
theorem onPointerLockChange_elsewhere_witness :
    (envOf (rectOf 0 0 200 100)).pointerLockElement ≠
        (capturedAt (1/2) (1/2) (rectOf 0 0 200 100)).video ∧
    (capturedAt (1/2) (1/2) (rectOf 0 0 200 100)).state.pointerLocked = true ∧
    ((capturedAt (1/2) (1/2) (rectOf 0 0 200 100)).onPointerLockChange
        (envOf (rectOf 0 0 200 100))).state.pointerLocked = false ∧
    ((capturedAt (1/2) (1/2) (rectOf 0 0 200 100)).onPointerLockChange
        (envOf (rectOf 0 0 200 100))).state.videoRect = none :=
  ⟨by simp [envOf, capturedAt, fresh, init], rfl,
   onPointerLockChange_elsewhere _ _ (by simp [envOf, capturedAt, fresh, init])⟩

/-- C3: the capture-change notification is the only writer of the mode.  No
other handler changes `pointerLocked` (a pointer-down that requests capture
included); so after any sequence of turns `pointerLocked` is the value written
by the last notification of the sequence, or its initial value when there was
none, which is `false` for a freshly constructed controller. -/
theorem pointerLocked_written_only_by_notification :
    (∀ (m : ControlManager) (env : Env) (ev : Event), ev ≠ Event.pointerLockChange →
      (m.step env ev).state.pointerLocked = m.state.pointerLocked) ∧
    (∀ (m : ControlManager) (evs : List (Env × Event)),
      (m.run evs).state.pointerLocked =
        (lastLockNotification m.video evs).getD m.state.pointerLocked) ∧
    (∀ (video : Option Nat) (dataLog : Option (List LogLine)) (mc vc vm : Bool)
       (evs : List (Env × Event)),
      ((init video dataLog mc vc vm).run evs).state.pointerLocked =
        (lastLockNotification video evs).getD false) :=
  ⟨fun m env ev h => (step_sameLock m env ev h).1,
   fun m evs => run_pointerLocked evs m,
   fun video dataLog mc vc vm evs => run_pointerLocked evs (init video dataLog mc vc vm)⟩

/-- C3, at a pointer-down inside the video of a fresh controller: a capture
request is issued and the mode stays free. -/
theorem pointerLocked_written_only_by_notification_witness :
    Event.pointerDown (pointerAt 0 100 50) ≠ Event.pointerLockChange ∧
    (fresh.step (envOf (rectOf 0 0 200 100))
      (Event.pointerDown (pointerAt 0 100 50))).state.pointerLocked =
        fresh.state.pointerLocked :=
  ⟨by simp, pointerLocked_written_only_by_notification.1 fresh
    (envOf (rectOf 0 0 200 100)) (Event.pointerDown (pointerAt 0 100 50)) (by simp)⟩

end ControlManager

/-! ## Pointer moves, presses and the wheel -/

namespace ControlManager

/-- C4: in captured mode, with the video element present, `onPointerMove` with
relative movement `(dx, dy)` sets the position to
`(clamp01 (x + dx / width), clamp01 (y + dy / height))` for the freshly pulled
rectangle, and calls `send` exactly once, with a `move` (0) action at that
position; an event with the same movement and any other client coordinates gives
the same controller. -/
theorem onPointerMove_captured (m : ControlManager) (env : Env) (e : PointerEvent)
    (v : Nat) (hv : m.video = some v) (hl : m.state.pointerLocked = true) :
    (m.onPointerMove env e).state.normalizedPos =
      { x := clamp01 (m.state.normalizedPos.x.add (e.movementX.div env.rect.width))
        y := clamp01 (m.state.normalizedPos.y.add (e.movementY.div env.rect.height)) } ∧
    (m.onPointerMove env e).sendCalls = m.sendCalls ++ [Action.mouse
      { x := clamp01 (m.state.normalizedPos.x.add (e.movementX.div env.rect.width))
        y := clamp01 (m.state.normalizedPos.y.add (e.movementY.div env.rect.height))
        s := 0
        flag := FlagVal.int 0 }] ∧
    (∀ e2 : PointerEvent, e2.movementX = e.movementX → e2.movementY = e.movementY →
      m.onPointerMove env e2 = m.onPointerMove env e) := by
  have hflag := fun x y => mouseAction_flagOf x y 0 (by decide) (by decide)
  refine ⟨?_, ?_, ?_⟩
  · simp [onPointerMove, ensureVideoRect, hv, hl]
  · simp [onPointerMove, ensureVideoRect, hv, hl, hflag, clamp01_idem, MouseFlag.move]
  · intro e2 hx hy
    simp [onPointerMove, ensureVideoRect, hv, hl, hx, hy]

/-- C4, the scenario of the specification: position `(0.5, 0.5)`, rectangle
`200 x 100`, movement `(20, -10)` gives `(0.6, 0.4)`. -/
theorem onPointerMove_captured_witness :
    ((capturedAt (1/2) (1/2) (rectOf 0 0 200 100)).onPointerMove
        (envOf (rectOf 0 0 200 100)) (movementOf 20 (-10) 7 9)).state.normalizedPos =
      { x := JSNum.fin (3/5), y := JSNum.fin (2/5) } ∧
    ((capturedAt (1/2) (1/2) (rectOf 0 0 200 100)).onPointerMove
        (envOf (rectOf 0 0 200 100)) (movementOf 20 (-10) 7 9)).sendCalls =
      [Action.mouse { x := JSNum.fin (3/5), y := JSNum.fin (2/5), s := 0,
                      flag := FlagVal.int 0 }] := by
  have h := onPointerMove_captured (capturedAt (1/2) (1/2) (rectOf 0 0 200 100))
    (envOf (rectOf 0 0 200 100)) (movementOf 20 (-10) 7 9) 1 rfl rfl
  have hx : clamp01 ((JSNum.fin (1/2)).add ((JSNum.fin 20).div (JSNum.fin 200))) =
      JSNum.fin (3/5) := by
    simp only [JSNum.div, JSNum.add]
    norm_num [clamp01_fin]
  have hy : clamp01 ((JSNum.fin (1/2)).add ((JSNum.fin (-10)).div (JSNum.fin 100))) =
      JSNum.fin (2/5) := by
    simp only [JSNum.div, JSNum.add]
    norm_num [clamp01_fin]
  refine ⟨?_, ?_⟩
  · rw [h.1]
    simp only [capturedAt, envOf, rectOf, movementOf, fresh, init, hx, hy]
  · rw [h.2.1]
    simp only [capturedAt, envOf, rectOf, movementOf, fresh, init, hx, hy, List.nil_append]

end ControlManager

namespace ControlManager

theorem isInsideVideo_rectOf (m : ControlManager) (l t w h cx cy : ℚ)
    (hr : m.state.videoRect = some (rectOf l t w h)) :
    m.isInsideVideo (JSNum.fin cx) (JSNum.fin cy) =
      (decide (l ≤ cx) && decide (cx ≤ l + w) && decide (t ≤ cy) && decide (cy ≤ t + h)) := by
  simp [isInsideVideo, hr, rectOf, Rect.right, Rect.bottom, JSNum.ge, JSNum.le, JSNum.add]

/-- C5: for a rectangle of positive size and a pointer-down with a non-negative
button (a missing button counts as `0`) at client coordinates inside the
rectangle, `onPointerDown` sets the position to
`((clientX - left) / width, (clientY - top) / height)`, issues one capture
request, calls `send` exactly once with the button-down action of that button at
the position just computed, and leaves `pointerLocked` as it was. -/
theorem onPointerDown_inside (m : ControlManager) (env : Env) (e : PointerEvent)
    (v : Nat) (l t w h cx cy : ℚ) (hv : m.video = some v)
    (hb : 0 ≤ e.button.getD 0) (hr : env.rect = rectOf l t w h) (hw : 0 < w) (hh : 0 < h)
    (hx : e.clientX = JSNum.fin cx) (hy : e.clientY = JSNum.fin cy)
    (hl : l ≤ cx) (hr2 : cx ≤ l + w) (ht : t ≤ cy) (hb2 : cy ≤ t + h) :
    (m.onPointerDown env e).state.normalizedPos =
      { x := JSNum.fin ((cx - l) / w), y := JSNum.fin ((cy - t) / h) } ∧
    (m.onPointerDown env e).lockRequests = m.lockRequests + 1 ∧
    (m.onPointerDown env e).sendCalls = m.sendCalls ++ [Action.mouse
      { x := JSNum.fin ((cx - l) / w)
        y := JSNum.fin ((cy - t) / h)
        s := 0
        flag := FlagVal.int (buttonToFlag (e.button.getD 0) true) }] ∧
    (buttonToFlag (e.button.getD 0) true = MouseFlag.left_down ∨
     buttonToFlag (e.button.getD 0) true = MouseFlag.middle_down ∨
     buttonToFlag (e.button.getD 0) true = MouseFlag.right_down) ∧
    (m.onPointerDown env e).state.pointerLocked = m.state.pointerLocked := by
  have hdown : buttonToFlag (e.button.getD 0) true = MouseFlag.left_down ∨
      buttonToFlag (e.button.getD 0) true = MouseFlag.middle_down ∨
      buttonToFlag (e.button.getD 0) true = MouseFlag.right_down := by
    simp only [buttonToFlag, if_true]
    split_ifs <;> simp
  have hflag := fun x y => mouseAction_flagOf x y (buttonToFlag (e.button.getD 0) true)
    (buttonToFlag_range _ _).1 (buttonToFlag_range _ _).2
  have hnx := toNormalized_inside l w cx hw hl hr2
  have hny := toNormalized_inside t h cy hh ht hb2
  have hux := unit_of_inside l w cx hw hl hr2
  have huy := unit_of_inside t h cy hh ht hb2
  have hcx := clamp01_fin_of_mem _ hux.1 hux.2
  have hcy := clamp01_fin_of_mem _ huy.1 huy.2
  have hnb : ¬ (e.button.getD 0 < 0) := not_lt.mpr hb
  have hin : ∀ s : State, s.videoRect = some (rectOf l t w h) →
      ∀ m2 : ControlManager, m2.state = s →
        m2.isInsideVideo (JSNum.fin cx) (JSNum.fin cy) = true := by
    intro s hs m2 hm2
    rw [isInsideVideo_rectOf m2 l t w h cx cy (by rw [hm2]; exact hs)]
    simp [hl, hr2, ht, hb2]
  simp only [onPointerDown, hnb, if_false, ensureVideoRect, hv, hr, hx, hy]
  rw [hin _ rfl _ rfl]
  simp [updateNormalizedFromClient, requestPointerLock, hv, hflag, rectOf] at *
  simp [hnx, hny, hcx, hcy, hdown]

end ControlManager

namespace ControlManager

/-- C5, the scenario of the specification: rectangle `{0, 0, 200, 100}`, free
mode, primary button down at `(100, 50)`: one action `{x 0.5, y 0.5, left_down}`
and one capture request, the mode staying free. -/
theorem onPointerDown_inside_witness :
    (fresh.onPointerDown (envOf (rectOf 0 0 200 100)) (pointerAt 0 100 50)).sendCalls =
      [Action.mouse { x := JSNum.fin (1/2), y := JSNum.fin (1/2), s := 0,
                      flag := FlagVal.int 1 }] ∧
    (fresh.onPointerDown (envOf (rectOf 0 0 200 100)) (pointerAt 0 100 50)).lockRequests = 1 ∧
    (fresh.onPointerDown (envOf (rectOf 0 0 200 100))
      (pointerAt 0 100 50)).state.pointerLocked = false := by
  have h := onPointerDown_inside fresh (envOf (rectOf 0 0 200 100)) (pointerAt 0 100 50)
    1 0 0 200 100 100 50 rfl (by simp [pointerAt]) rfl (by norm_num) (by norm_num) rfl rfl
    (by norm_num) (by norm_num) (by norm_num) (by norm_num)
  refine ⟨?_, ?_, ?_⟩
  · rw [h.2.2.1]
    norm_num [fresh, init, pointerAt, buttonToFlag, MouseFlag.left_down]
  · rw [h.2.1]; rfl
  · rw [h.2.2.2.2]; rfl

/-- C6 as stated fails: in free mode with no button held, a move inside the
video is dropped by the guard of line 283: no call of `send`, and the position
stays `(0.5, 0.5)` instead of becoming the converted `(0.25, 0.5)`. -/
theorem onPointerMove_free_hover_ignored :
    fresh.state.pointerLocked = false ∧
    (fresh.ensureVideoRect (envOf (rectOf 0 0 200 100))).isInsideVideo
      (JSNum.fin 50) (JSNum.fin 50) = true ∧
    clamp01 (((JSNum.fin 50).sub (JSNum.fin 0)).div (JSNum.fin 200)) = JSNum.fin (1/4) ∧
    (fresh.onPointerMove (envOf (rectOf 0 0 200 100)) (pointerAt 0 50 50)).sendCalls = [] ∧
    (fresh.onPointerMove (envOf (rectOf 0 0 200 100))
      (pointerAt 0 50 50)).state.normalizedPos =
        { x := JSNum.fin (1/2), y := JSNum.fin (1/2) } := by
  refine ⟨rfl, ?_, ?_, ?_, ?_⟩
  · rw [isInsideVideo_rectOf _ 0 0 200 100 50 50 (by simp [ensureVideoRect, fresh, init, envOf])]
    norm_num
  · rw [toNormalized_inside 0 200 50 (by norm_num) (by norm_num) (by norm_num)]
    norm_num
  · simp [onPointerMove, fresh, init]
  · simp [onPointerMove, fresh, init]

/-- C6, amended: in free mode while a pointer-down is in progress
(`lastPointerPos` is set), with the video element present, a move whose client
coordinates fall within the freshly pulled rectangle sets the position to the
clamped quotients and calls `send` exactly once, with a `move` action there.
A free-mode move with no pointer-down in progress is ignored, whatever the
controller, the rectangle and the event: the controller is left as it was. -/
theorem onPointerMove_free_inside (m : ControlManager) (env : Env) (e : PointerEvent)
    (v : Nat) (p : Pos) (hv : m.video = some v) (hl : m.state.pointerLocked = false)
    (hp : m.state.lastPointerPos = some p)
    (hin : (e.clientX.ge env.rect.left && e.clientX.le env.rect.right &&
            e.clientY.ge env.rect.top && e.clientY.le env.rect.bottom) = true) :
    (m.onPointerMove env e).state.normalizedPos =
      { x := clamp01 ((e.clientX.sub env.rect.left).div env.rect.width)
        y := clamp01 ((e.clientY.sub env.rect.top).div env.rect.height) } ∧
    (m.onPointerMove env e).sendCalls = m.sendCalls ++ [Action.mouse
      { x := clamp01 ((e.clientX.sub env.rect.left).div env.rect.width)
        y := clamp01 ((e.clientY.sub env.rect.top).div env.rect.height)
        s := 0
        flag := FlagVal.int 0 }] ∧
    (∀ (m2 : ControlManager) (env2 : Env) (e2 : PointerEvent),
      m2.state.pointerLocked = false → m2.state.lastPointerPos = none →
      m2.onPointerMove env2 e2 = m2) := by
  have hflag := fun x y => mouseAction_flagOf x y 0 (by decide) (by decide)
  simp only [Bool.and_eq_true] at hin
  obtain ⟨⟨⟨h1, h2⟩, h3⟩, h4⟩ := hin
  refine ⟨?_, ?_, ?_⟩
  · simp [onPointerMove, ensureVideoRect, isInsideVideo, hv, hl, hp, h1, h2, h3, h4]
  · simp [onPointerMove, ensureVideoRect, isInsideVideo, hv, hl, hp, h1, h2, h3, h4, hflag,
      clamp01_idem, MouseFlag.move]
  · intro m2 env2 e2 hl2 hp2
    simp [onPointerMove, hl2, hp2]

/-- C6 amended, at a drag inside the video: button held, move to `(50, 50)` in
the rectangle `200 x 100` gives `(0.25, 0.5)`; and with no button held the same
move leaves the fresh controller as it was. -/
theorem onPointerMove_free_inside_witness :
    ((pressedAt 100 50).onPointerMove (envOf (rectOf 0 0 200 100))
      (pointerAt 0 50 50)).state.normalizedPos =
        { x := JSNum.fin (1/4), y := JSNum.fin (1/2) } ∧
    fresh.onPointerMove (envOf (rectOf 0 0 200 100)) (pointerAt 0 50 50) = fresh := by
  have h := onPointerMove_free_inside (pressedAt 100 50) (envOf (rectOf 0 0 200 100))
    (pointerAt 0 50 50) 1 { x := JSNum.fin 100, y := JSNum.fin 50 } rfl rfl rfl
    (by norm_num [pointerAt, envOf, rectOf, Rect.right, Rect.bottom, JSNum.ge, JSNum.le,
      JSNum.add])
  refine ⟨?_, h.2.2 fresh (envOf (rectOf 0 0 200 100)) (pointerAt 0 50 50) rfl rfl⟩
  rw [h.1]
  have hx := toNormalized_inside 0 200 50 (by norm_num) (by norm_num) (by norm_num)
  have hy := toNormalized_inside 0 100 50 (by norm_num) (by norm_num) (by norm_num)
  simp only [pointerAt, envOf, rectOf, hx, hy]
  norm_num

/-- C7: in free mode, with the video element present, a move whose client
coordinates lie outside the freshly pulled rectangle (left of it, right of it,
above it or below it) calls `send` not at all and leaves the position alone. -/
theorem onPointerMove_free_outside (m : ControlManager) (env : Env) (e : PointerEvent)
    (v : Nat) (hv : m.video = some v) (hl : m.state.pointerLocked = false)
    (hout : e.clientX.lt env.rect.left = true ∨ e.clientX.gt env.rect.right = true ∨
            e.clientY.lt env.rect.top = true ∨ e.clientY.gt env.rect.bottom = true) :
    (m.onPointerMove env e).sendCalls = m.sendCalls ∧
    (m.onPointerMove env e).state.normalizedPos = m.state.normalizedPos := by
  have hin : (e.clientX.ge env.rect.left && e.clientX.le env.rect.right &&
      e.clientY.ge env.rect.top && e.clientY.le env.rect.bottom) = false := by
    rcases hout with h | h | h | h
    · simp [JSNum.ge, le_false_of_lt _ _ h]
    · simp [le_false_of_lt _ _ h]
    · simp [JSNum.ge, le_false_of_lt _ _ h]
    · simp [le_false_of_lt _ _ h]
  cases hp : m.state.lastPointerPos with
  | none => simp [onPointerMove, hl, hp]
  | some p =>
    simp only [Bool.and_eq_false_iff] at hin
    constructor <;>
      simp [onPointerMove, ensureVideoRect, isInsideVideo, hv, hl, hp] <;>
      rw [if_pos hin]

/-- C7, at a drag that leaves the video: button held, move to `(300, 50)`
outside the rectangle `200 x 100`. -/
theorem onPointerMove_free_outside_witness :
    ((JSNum.fin 300).gt (envOf (rectOf 0 0 200 100)).rect.right = true) ∧
    ((pressedAt 100 50).onPointerMove (envOf (rectOf 0 0 200 100))
      (pointerAt 0 300 50)).sendCalls = [] ∧
    ((pressedAt 100 50).onPointerMove (envOf (rectOf 0 0 200 100))
      (pointerAt 0 300 50)).state.normalizedPos =
        { x := JSNum.fin (1/2), y := JSNum.fin (1/2) } :=
  have hgt : (JSNum.fin 300).gt (envOf (rectOf 0 0 200 100)).rect.right = true := by
    norm_num [envOf, rectOf, Rect.right, JSNum.gt, JSNum.lt, JSNum.add]
  ⟨hgt, onPointerMove_free_outside (pressedAt 100 50) (envOf (rectOf 0 0 200 100))
    (pointerAt 0 300 50) 1 rfl rfl (Or.inr (Or.inl hgt))⟩

end ControlManager

namespace ControlManager

/-- C8 as stated fails: with horizontal delta `100` and vertical delta `1` the
horizontal delta dominates, yet the scroll value sent is the vertical delta `1`. -/
theorem onWheel_scroll_not_dominant :
    dominantDelta 100 1 = 100 ∧
    ((capturedAt (1/2) (1/2) (rectOf 0 0 200 100)).onWheel
      (envAt (rectOf 0 0 200 100) 1000) (wheelOf 100 50 100 1)).sendCalls =
      [Action.mouse { x := JSNum.fin (1/2), y := JSNum.fin (1/2), s := 1,
                      flag := FlagVal.int 7 }] := by
  constructor
  · norm_num [dominantDelta]
  · have h1 : (JSNum.fin 1).toInt32 = 1 := by
      have := toInt32_intCast 1 (by norm_num) (by norm_num)
      simpa using this
    have h7 : (JSNum.fin 7).toInt32 = 7 := by
      have := toInt32_intCast 7 (by norm_num) (by norm_num)
      simpa using this
    have hc : clamp01 (JSNum.fin (1/2)) = JSNum.fin (1/2) :=
      clamp01_fin_of_mem _ (by norm_num) (by norm_num)
    simp [onWheel, capturedAt, fresh, init, envAt, wheelOf, ensureVideoRect, mouseAction,
      numericFlag, flagOf, JSNum.strictEq, JSNum.truthy, MouseFlag.wheel_vertical, h1, h7]
    simpa using hc

/-- C8, amended: whenever `onWheel` calls `send`, it does so once, with the flag
`wheel_horizontal` (8) if `deltaY` is exactly zero and `wheel_vertical` (7)
otherwise, and with the scroll value `deltaY` if that is non-zero (and not
`NaN`), else `deltaX`, truncated to a signed 32-bit integer. -/
theorem onWheel_flag_and_scroll (m : ControlManager) (env : Env) (e : WheelEvent) :
    (m.onWheel env e).sendCalls = m.sendCalls ∨
    ∃ x y : JSNum, (m.onWheel env e).sendCalls = m.sendCalls ++ [Action.mouse
      { x := x
        y := y
        s := (if e.deltaY.truthy then e.deltaY else e.deltaX).toInt32
        flag := FlagVal.int (if e.deltaY.strictEq (JSNum.fin 0) then 8 else 7) }] := by
  have h8 : (JSNum.fin ((8 : Int) : ℚ)).toInt32 = 8 := toInt32_intCast 8 (by norm_num) (by norm_num)
  have h7 : (JSNum.fin ((7 : Int) : ℚ)).toInt32 = 7 := toInt32_intCast 7 (by norm_num) (by norm_num)
  have hf : ∀ b : Bool, numericFlag (flagOf (if b = true then MouseFlag.wheel_horizontal
      else MouseFlag.wheel_vertical)) = FlagVal.int (if b = true then 8 else 7) := by
    intro b
    cases b
    · simpa [numericFlag, flagOf, MouseFlag.wheel_vertical] using h7
    · simpa [numericFlag, flagOf, MouseFlag.wheel_horizontal] using h8
  have hsend : ∀ (m2 : ControlManager) (x y : JSNum), m2.sendCalls = m.sendCalls →
      ∃ x2 y2 : JSNum,
        (m2.sendMouseAction x y
          (flagOf (if e.deltaY.strictEq (JSNum.fin 0) = true then MouseFlag.wheel_horizontal
            else MouseFlag.wheel_vertical))
          (some (if e.deltaY.truthy = true then e.deltaY else e.deltaX))).sendCalls =
        m.sendCalls ++ [Action.mouse
          { x := x2
            y := y2
            s := (if e.deltaY.truthy then e.deltaY else e.deltaX).toInt32
            flag := FlagVal.int (if e.deltaY.strictEq (JSNum.fin 0) then 8 else 7) }] := by
    intro m2 x y h2
    exact ⟨clamp01 x, clamp01 y, by simp [mouseAction, hf, h2]⟩
  unfold onWheel
  simp only
  split
  · exact Or.inl rfl
  · split
    · left; simp
    · split
      · split
        · left; simp
        · right
          exact hsend _ _ _ (by simp)
      · right
        exact hsend _ _ _ (by simp)

end ControlManager

/-! ## Wheel rate limit -/

namespace ControlManager

theorem onWheel_dropped (m : ControlManager) (env : Env) (e : WheelEvent)
    (h : env.now - m.state.lastWheelAt < 50) : m.onWheel env e = m := by
  simp [onWheel, h]

theorem onWheel_lastWheelAt (m : ControlManager) (env : Env) (e : WheelEvent)
    (h : ¬ env.now - m.state.lastWheelAt < 50) :
    (m.onWheel env e).state.lastWheelAt = env.now := by
  cases hl : m.state.pointerLocked <;> cases hv : m.video <;>
    cases hr : m.state.videoRect <;>
    simp [onWheel, ensureVideoRect, hl, hv, hr, h] <;>
    split_ifs <;> simp

theorem onWheel_lastWheelAt_mono (m : ControlManager) (env : Env) (e : WheelEvent) :
    m.state.lastWheelAt ≤ (m.onWheel env e).state.lastWheelAt := by
  by_cases h : env.now - m.state.lastWheelAt < 50
  · rw [onWheel_dropped m env e h]
  · rw [onWheel_lastWheelAt m env e h]; omega

/-- Every emission happens at least 50 ms after the last accepted wheel event. -/
theorem wheelEmitTimes_after (evs : List (Env × WheelEvent)) (m : ControlManager) :
    ∀ t ∈ m.wheelEmitTimes evs, m.state.lastWheelAt + 50 ≤ t := by
  induction evs generalizing m with
  | nil => intro t ht; simp [wheelEmitTimes] at ht
  | cons p rest ih =>
    obtain ⟨env, e⟩ := p
    intro t ht
    simp only [wheelEmitTimes, List.mem_append] at ht
    rcases ht with ht | ht
    · by_cases h : env.now - m.state.lastWheelAt < 50
      · rw [onWheel_dropped m env e h] at ht
        simp at ht
      · split at ht
        · simp at ht
        · simp only [List.mem_singleton] at ht
          omega
    · have h1 := ih (m.onWheel env e) t ht
      have h2 := onWheel_lastWheelAt_mono m env e
      omega

theorem wheelEmitTimes_mem (evs : List (Env × WheelEvent)) (m : ControlManager) :
    ∀ t ∈ m.wheelEmitTimes evs, ∃ p ∈ evs, p.1.now = t := by
  induction evs generalizing m with
  | nil => intro t ht; simp [wheelEmitTimes] at ht
  | cons p rest ih =>
    obtain ⟨env, e⟩ := p
    intro t ht
    simp only [wheelEmitTimes, List.mem_append] at ht
    rcases ht with ht | ht
    · split at ht
      · simp at ht
      · simp only [List.mem_singleton] at ht
        exact ⟨(env, e), List.mem_cons_self _ _, ht.symm⟩
    · obtain ⟨q, hq, hqt⟩ := ih (m.onWheel env e) t ht
      exact ⟨q, List.mem_cons_of_mem _ hq, hqt⟩

theorem wheelEmitTimes_pairwise (evs : List (Env × WheelEvent)) (m : ControlManager) :
    List.Pairwise (fun a b => a + 50 ≤ b) (m.wheelEmitTimes evs) := by
  induction evs generalizing m with
  | nil => simp [wheelEmitTimes]
  | cons p rest ih =>
    obtain ⟨env, e⟩ := p
    simp only [wheelEmitTimes]
    rw [List.pairwise_append]
    refine ⟨?_, ih _, ?_⟩
    · split <;> simp
    · intro a ha b hb
      by_cases h : env.now - m.state.lastWheelAt < 50
      · rw [onWheel_dropped m env e h] at ha
        simp at ha
      · split at ha
        · simp at ha
        · simp only [List.mem_singleton] at ha
          have h1 := wheelEmitTimes_after rest (m.onWheel env e) b hb
          rw [onWheel_lastWheelAt m env e h] at h1
          omega

/-- C9: in every sequence of calls of `onWheel` (whatever the timestamps), any
two calls of `send` are at least 50 ms apart; an event that arrives less than
50 ms after the last accepted one leaves the controller exactly as it was
(dropped, nothing queued); and events whose timestamps all lie in one window of
50 ms produce at most one call of `send`. -/
theorem onWheel_rate_limited :
    (∀ (m : ControlManager) (evs : List (Env × WheelEvent)),
      List.Pairwise (fun a b => a + 50 ≤ b) (m.wheelEmitTimes evs)) ∧
    (∀ (m : ControlManager) (env : Env) (e : WheelEvent),
      env.now - m.state.lastWheelAt < 50 → m.onWheel env e = m) ∧
    (∀ (m : ControlManager) (evs : List (Env × WheelEvent)) (t0 : Int),
      (∀ p ∈ evs, t0 ≤ p.1.now ∧ p.1.now < t0 + 50) →
      (m.wheelEmitTimes evs).length ≤ 1) := by
  refine ⟨fun m evs => wheelEmitTimes_pairwise evs m, onWheel_dropped, ?_⟩
  intro m evs t0 hwin
  have hp := wheelEmitTimes_pairwise evs m
  have hm := wheelEmitTimes_mem evs m
  match hl : m.wheelEmitTimes evs with
  | [] => simp
  | [_] => simp
  | a :: b :: rest =>
    exfalso
    rw [hl] at hp hm
    have hab : a + 50 ≤ b := by
      have := List.rel_of_pairwise_cons hp (List.mem_cons_self b rest)
      exact this
    obtain ⟨p, hp1, hp2⟩ := hm a (List.mem_cons_self _ _)
    obtain ⟨q, hq1, hq2⟩ := hm b (List.mem_cons_of_mem _ (List.mem_cons_self _ _))
    have h1 := hwin p hp1
    have h2 := hwin q hq1
    omega

/-- C9, at ten wheel events 5 ms apart inside one window of 50 ms: exactly one
call of `send`, for the first of them. -/
theorem onWheel_rate_limited_witness :
    (∀ p ∈ wheelBurst, (1000 : Int) ≤ p.1.now ∧ p.1.now < 1000 + 50) ∧
    wheelBurst.length = 10 ∧
    ((capturedAt (1/2) (1/2) (rectOf 0 0 200 100)).wheelEmitTimes wheelBurst).length ≤ 1 ∧
    (capturedAt (1/2) (1/2) (rectOf 0 0 200 100)).wheelEmitTimes wheelBurst = [1000] := by
  have hwin : ∀ p ∈ wheelBurst, (1000 : Int) ≤ p.1.now ∧ p.1.now < 1000 + 50 := by
    intro p hp
    simp only [wheelBurst, List.map_cons, List.map_nil, List.mem_cons, List.mem_singleton,
      List.not_mem_nil, or_false] at hp
    rcases hp with h | h | h | h | h | h | h | h | h | h <;> subst h <;> simp [envAt]
  refine ⟨hwin, rfl, onWheel_rate_limited.2.2 _ wheelBurst 1000 hwin, ?_⟩
  simp [wheelBurst, wheelEmitTimes, onWheel, ensureVideoRect, capturedAt, fresh, init, envAt,
    wheelOf]

end ControlManager

/-! ## Virtual wheel repeat timer -/

namespace ControlManager

/-- The record sent by `emitVirtualWheel` at the position `(x, y)`. -/
theorem mouseAction_wheelTick (x y : JSNum) :
    mouseAction x y (flagOf MouseFlag.wheel_vertical) (some (JSNum.fin (-20))) =
      Action.mouse { x := clamp01 x, y := clamp01 y, s := -20, flag := FlagVal.int 7 } := by
  have h7 : (JSNum.fin ((7 : Int) : ℚ)).toInt32 = 7 :=
    toInt32_intCast 7 (by norm_num) (by norm_num)
  have h20 : (JSNum.fin (((-20 : Int)) : ℚ)).toInt32 = -20 :=
    toInt32_intCast (-20) (by norm_num) (by norm_num)
  simp only [Int.cast_neg, Int.cast_ofNat] at h7 h20
  simp [mouseAction, numericFlag, flagOf, MouseFlag.wheel_vertical, h7, h20]

/-- When every scheduled timer is the one whose handle the controller holds,
`onVirtualWheelEnd` leaves no timer scheduled. -/
theorem onVirtualWheelEnd_clears (m : ControlManager)
    (hinv : ∀ h ∈ m.intervals, h ≠ 0 ∧ m.virtualWheelTimer = some h) :
    m.onVirtualWheelEnd.intervals = [] := by
  unfold onVirtualWheelEnd
  cases ht : m.virtualWheelTimer with
  | none =>
    have : m.intervals = [] := by
      cases hi : m.intervals with
      | nil => rfl
      | cons a rest =>
        have := (hinv a (by rw [hi]; exact List.mem_cons_self _ _)).2
        rw [ht] at this
        cases this
    simp [this]
  | some handle =>
    by_cases h0 : handle = 0
    · have : m.intervals = [] := by
        cases hi : m.intervals with
        | nil => rfl
        | cons a rest =>
          have ha := hinv a (by rw [hi]; exact List.mem_cons_self _ _)
          rw [ht] at ha
          have : handle = a := Option.some.inj ha.2
          exact absurd (this ▸ h0) ha.1
      simp [h0, this]
    · simp only [h0, if_false, clearInterval]
      rw [List.filter_eq_nil_iff]
      intro a ha
      have := (hinv a ha).2
      rw [ht] at this
      have : handle = a := Option.some.inj this
      simp [this]

/-- A touch-start that finds no timer scheduled leaves exactly its own timer
scheduled, and holds its handle. -/
theorem onVirtualWheelStart_fresh (m : ControlManager) (h0 : m.intervals = []) :
    ∀ h ∈ m.onVirtualWheelStart.intervals,
      h ≠ 0 ∧ m.onVirtualWheelStart.virtualWheelTimer = some h := by
  intro h hh
  simp [onVirtualWheelStart, setInterval, emitVirtualWheel, h0] at hh ⊢
  subst hh
  simp

/-- C10 fails on the code: after touch-start, touch-start, touch-end on the
virtual wheel, the timer created by the first touch-start (handle 1) is still
scheduled although the controller holds no handle any more, and when it fires a
wheel tick is sent. -/
theorem virtualWheel_timer_outlives_release :
    (fresh.run overlappingWheelTouches).intervals = [1] ∧
    (fresh.run overlappingWheelTouches).virtualWheelTimer = none ∧
    ((fresh.run overlappingWheelTouches).step (envOf (rectOf 0 0 200 100))
        Event.virtualWheelEnd).intervals = [1] ∧
    ((fresh.run overlappingWheelTouches).step (envOf (rectOf 0 0 200 100))
        (Event.intervalFired 1)).sendCalls =
      (fresh.run overlappingWheelTouches).sendCalls ++
        [Action.mouse { x := JSNum.fin (1/2), y := JSNum.fin (1/2), s := -20,
                        flag := FlagVal.int 7 }] := by
  have hi : (fresh.run overlappingWheelTouches).intervals = [1] := by
    simp [overlappingWheelTouches, run, step, onVirtualWheelStart, onVirtualWheelEnd,
      setInterval, clearInterval, emitVirtualWheel, fresh, init]
  have hp : (fresh.run overlappingWheelTouches).state.normalizedPos =
      { x := JSNum.fin (1/2), y := JSNum.fin (1/2) } := by
    simp [overlappingWheelTouches, run, step, onVirtualWheelStart, onVirtualWheelEnd,
      setInterval, clearInterval, emitVirtualWheel, fresh, init]
  have ht : (fresh.run overlappingWheelTouches).virtualWheelTimer = none := by
    simp [overlappingWheelTouches, run, step, onVirtualWheelStart, onVirtualWheelEnd,
      setInterval, clearInterval, emitVirtualWheel, fresh, init]
  refine ⟨hi, ht, ?_, ?_⟩
  · simp [step, onVirtualWheelEnd, ht, hi]
  · have hc : clamp01 (JSNum.fin 2⁻¹) = JSNum.fin 2⁻¹ :=
      clamp01_fin_of_mem _ (by norm_num) (by norm_num)
    simp [step, onIntervalFired, hi, emitVirtualWheel, hp, mouseAction_wheelTick, hc]

end ControlManager

/-! ## The range of the normalized position -/

theorem isFinite_iff (v : JSNum) : v.isFinite = true ↔ ∃ q, v = JSNum.fin q := by
  cases v <;> simp [JSNum.isFinite]

theorem isFinite_of_inUnit (v : JSNum) (h : JSNum.InUnit v) : v.isFinite = true := by
  cases v <;> simp_all [JSNum.InUnit, JSNum.le, JSNum.isFinite]

theorem inUnit_clamp01_of_finite (v : JSNum) (h : v.isFinite = true) :
    JSNum.InUnit (clamp01 v) := by
  obtain ⟨q, rfl⟩ := (isFinite_iff v).mp h
  exact inUnit_clamp01_fin q

theorem isFinite_add (a b : JSNum) (ha : a.isFinite = true) (hb : b.isFinite = true) :
    (a.add b).isFinite = true := by
  obtain ⟨p, rfl⟩ := (isFinite_iff a).mp ha
  obtain ⟨q, rfl⟩ := (isFinite_iff b).mp hb
  rfl

theorem isFinite_sub (a b : JSNum) (ha : a.isFinite = true) (hb : b.isFinite = true) :
    (a.sub b).isFinite = true := by
  obtain ⟨p, rfl⟩ := (isFinite_iff a).mp ha
  obtain ⟨q, rfl⟩ := (isFinite_iff b).mp hb
  rfl

theorem isFinite_mul (a b : JSNum) (ha : a.isFinite = true) (hb : b.isFinite = true) :
    (a.mul b).isFinite = true := by
  obtain ⟨p, rfl⟩ := (isFinite_iff a).mp ha
  obtain ⟨q, rfl⟩ := (isFinite_iff b).mp hb
  rfl

theorem isFinite_div (a : JSNum) (w : ℚ) (ha : a.isFinite = true) (hw : 0 < w) :
    (a.div (JSNum.fin w)).isFinite = true := by
  obtain ⟨p, rfl⟩ := (isFinite_iff a).mp ha
  simp [JSNum.div, hw.ne.symm, JSNum.isFinite]

theorem posFinite_none : PosFinite none := by
  intro q h; cases h

theorem posFinite_some (p : Pos) :
    PosFinite (some p) ↔ p.x.isFinite = true ∧ p.y.isFinite = true := by
  constructor
  · intro h; exact h p rfl
  · intro h q hq; cases hq; exact h

theorem anchorFinite_none : AnchorFinite none := by
  intro q h; cases h

theorem anchorFinite_some (a : TouchpadStart) :
    AnchorFinite (some a) ↔ a.x.isFinite = true ∧ a.y.isFinite = true ∧
      a.normalizedX.isFinite = true ∧ a.normalizedY.isFinite = true := by
  constructor
  · intro h; exact h a rfl
  · intro h q hq; cases hq; exact h

/-- A relative move by a finite delta over a positive dimension stays in range. -/
theorem inUnit_relative (x d : JSNum) (w : ℚ) (hx : x.isFinite = true)
    (hd : d.isFinite = true) (hw : 0 < w) :
    JSNum.InUnit (clamp01 (x.add (d.div (JSNum.fin w)))) :=
  inUnit_clamp01_of_finite _ (isFinite_add _ _ hx (isFinite_div _ _ hd hw))

/-- The absolute conversion of a finite coordinate over a positive dimension is in range. -/
theorem inUnit_absolute (c : JSNum) (l w : ℚ) (hc : c.isFinite = true) (hw : 0 < w) :
    JSNum.InUnit (clamp01 ((c.sub (JSNum.fin l)).div (JSNum.fin w))) :=
  inUnit_clamp01_of_finite _ (isFinite_div _ _ (isFinite_sub _ _ hc rfl) hw)

/-- A touchpad move with finite anchor and touch point over a positive dimension
is in range. -/
theorem inUnit_touchpad (n c a : JSNum) (w : ℚ) (hn : n.isFinite = true)
    (hc : c.isFinite = true) (ha : a.isFinite = true) (hw : 0 < w) :
    JSNum.InUnit (clamp01 (n.add (((c.sub a).div (JSNum.fin w)).mul (JSNum.fin 2)))) :=
  inUnit_clamp01_of_finite _
    (isFinite_add _ _ hn (isFinite_mul _ _ (isFinite_div _ _ (isFinite_sub _ _ hc ha) hw) rfl))

namespace ControlManager

theorem inv_sendMouseAction (m : ControlManager) (x y : JSNum) (f : FlagArg)
    (sc : Option JSNum) (h : Inv m) : Inv (m.sendMouseAction x y f sc) := by
  unfold Inv at *
  simpa using h

theorem onPointerMove_inv (m : ControlManager) (env : Env) (e : PointerEvent)
    (h : Inv m) (hr : env.rect.Proper) (he : e.Finite) : Inv (m.onPointerMove env e) := by
  obtain ⟨l, t, w, ht, hrect, hw, hh⟩ := hr
  obtain ⟨hx, hy, hta, hlp, hvr⟩ := h
  obtain ⟨h1, h2, h3, h4⟩ := he
  have fx := isFinite_of_inUnit _ hx
  have fy := isFinite_of_inUnit _ hy
  have fl : (JSNum.fin l).isFinite = true := rfl
  have ft : (JSNum.fin t).isFinite = true := rfl
  unfold Inv
  cases hv : m.video with
  | none =>
    have hvr2 := hvr hv
    cases hl : m.state.pointerLocked <;> cases hp : m.state.lastPointerPos <;>
      simp_all [onPointerMove, ensureVideoRect, posFinite_none, posFinite_some]
  | some v =>
    cases hl : m.state.pointerLocked <;> cases hp : m.state.lastPointerPos <;>
      simp [onPointerMove, ensureVideoRect, hl, hv, hp, hrect, rectOf] <;>
      (try split_ifs) <;>
      simp_all [inUnit_relative, inUnit_absolute, posFinite_none, posFinite_some]

theorem onPointerDown_inv (m : ControlManager) (env : Env) (e : PointerEvent)
    (h : Inv m) (hr : env.rect.Proper) (h1 : e.clientX.isFinite = true)
    (h2 : e.clientY.isFinite = true) : Inv (m.onPointerDown env e) := by
  obtain ⟨l, t, w, ht, hrect, hw, hh⟩ := hr
  obtain ⟨hx, hy, hta, hlp, hvr⟩ := h
  unfold Inv
  cases hv : m.video with
  | none =>
    have hvr2 := hvr hv
    simp only [onPointerDown]
    split_ifs <;>
      simp_all [ensureVideoRect, isInsideVideo, posFinite_some]
  | some v =>
    simp only [onPointerDown]
    split_ifs <;>
      simp_all [ensureVideoRect, updateNormalizedFromClient, rectOf, inUnit_absolute,
        posFinite_some]

theorem onPointerUp_inv (m : ControlManager) (e : PointerEvent) (h : Inv m) :
    Inv (m.onPointerUp e) := by
  unfold Inv at *
  simp_all [onPointerUp, posFinite_none]

theorem onWheel_inv (m : ControlManager) (env : Env) (e : WheelEvent) (h : Inv m) :
    Inv (m.onWheel env e) := by
  obtain ⟨hx, hy, hta, hlp, hvr⟩ := h
  unfold Inv
  cases hv : m.video with
  | none =>
    have hvr2 := hvr hv
    simp only [onWheel]
    split_ifs <;> simp_all [ensureVideoRect]
  | some v =>
    cases hl : m.state.pointerLocked <;>
      simp [onWheel, ensureVideoRect, hl, hv] <;>
      split_ifs <;> simp_all

theorem onTouchpadStart_inv (m : ControlManager) (e : TouchEvent) (h : Inv m)
    (he : e.Finite) : Inv (m.onTouchpadStart e) := by
  obtain ⟨hx, hy, hta, hlp, hvr⟩ := h
  have fx := isFinite_of_inUnit _ hx
  have fy := isFinite_of_inUnit _ hy
  unfold Inv onTouchpadStart
  cases ht : e.touches with
  | nil => exact ⟨hx, hy, hta, hlp, hvr⟩
  | cons touch rest =>
    have hf := he touch (by rw [ht]; exact List.mem_cons_self _ _)
    simp_all [anchorFinite_some]

theorem onTouchpadMove_inv (m : ControlManager) (env : Env) (e : TouchEvent)
    (h : Inv m) (hr : env.rect.Proper) (he : e.Finite) : Inv (m.onTouchpadMove env e) := by
  obtain ⟨l, t, w, ht, hrect, hw, hh⟩ := hr
  obtain ⟨hx, hy, hta, hlp, hvr⟩ := h
  unfold Inv
  cases htc : e.touches with
  | nil => simpa [onTouchpadMove, htc] using ⟨hx, hy, hta, hlp, hvr⟩
  | cons touch rest =>
    have hf := he touch (by rw [htc]; exact List.mem_cons_self _ _)
    cases hs : m.state.touchpadStart with
    | none => simpa [onTouchpadMove, htc, hs] using ⟨hx, hy, hs ▸ hta, hlp, hvr⟩
    | some start =>
      have hst := hta start hs
      cases hv : m.video with
      | none =>
        have hvr2 := hvr hv
        simp_all [onTouchpadMove, ensureVideoRect]
      | some v =>
        simp_all [onTouchpadMove, ensureVideoRect, rectOf, inUnit_touchpad]

theorem onPointerLockChange_inv (m : ControlManager) (env : Env) (h : Inv m) :
    Inv (m.onPointerLockChange env) := by
  obtain ⟨hx, hy, hta, hlp, hvr⟩ := h
  unfold Inv onPointerLockChange
  simp only
  cases hv : m.video <;> split <;> simp_all

theorem onTouchStartFallback_inv (m : ControlManager) (env : Env) (e : TouchEvent)
    (h : Inv m) (hr : env.rect.Proper) (he : e.Finite) :
    Inv (m.onTouchStartFallback env e) := by
  unfold onTouchStartFallback
  cases ht : e.touches with
  | nil => exact h
  | cons touch rest =>
    have hf := he touch (by rw [ht]; exact List.mem_cons_self _ _)
    apply onPointerDown_inv _ env _ _ hr hf.1 hf.2
    obtain ⟨hx, hy, hta, hlp, hvr⟩ := h
    exact ⟨hx, hy, hta, (posFinite_some _).mpr hf, hvr⟩

theorem onTouchMoveFallback_inv (m : ControlManager) (env : Env) (e : TouchEvent)
    (h : Inv m) (hr : env.rect.Proper) (he : e.Finite) :
    Inv (m.onTouchMoveFallback env e) := by
  unfold onTouchMoveFallback
  cases hp : m.state.lastPointerPos with
  | none => exact h
  | some last =>
    cases ht : e.touches with
    | nil => exact h
    | cons touch rest =>
      have hf := he touch (by rw [ht]; exact List.mem_cons_self _ _)
      have hl := h.2.2.2.1 last hp
      have hm := onPointerMove_inv m env
        { button := none, clientX := touch.clientX, clientY := touch.clientY,
          movementX := touch.clientX.sub last.x, movementY := touch.clientY.sub last.y }
        h hr ⟨hf.1, hf.2, isFinite_sub _ _ hf.1 hl.1, isFinite_sub _ _ hf.2 hl.2⟩
      obtain ⟨hx, hy, hta, hlp, hvr⟩ := hm
      exact ⟨hx, hy, hta, (posFinite_some _).mpr hf, hvr⟩

theorem onTouchEndFallback_inv (m : ControlManager) (e : TouchEvent) (h : Inv m) :
    Inv (m.onTouchEndFallback e) := by
  unfold onTouchEndFallback
  obtain ⟨hx, hy, hta, hlp, hvr⟩ := onPointerUp_inv m
    { button := some 0
      clientX := (e.changedTouches.head?.map Touch.clientX).getD (JSNum.fin 0)
      clientY := (e.changedTouches.head?.map Touch.clientY).getD (JSNum.fin 0)
      movementX := JSNum.nan, movementY := JSNum.nan } h
  exact ⟨hx, hy, hta, posFinite_none, hvr⟩

theorem inv_of_same (m m2 : ControlManager) (h : Inv m)
    (hs : m2.state = m.state) (hv : m2.video = m.video) : Inv m2 := by
  unfold Inv at *
  rw [hs, hv]; exact h

theorem sendKeyboardAction_inv (m : ControlManager) (k : JSNum) (d : Bool) (h : Inv m) :
    Inv (m.sendKeyboardAction k d) :=
  inv_of_same m _ h (by simp) (by simp)

theorem onKeyDown_frame (m : ControlManager) (e : KeyEvent) :
    (m.onKeyDown e).state = m.state ∧ (m.onKeyDown e).video = m.video := by
  rcases Option.eq_none_or_eq_some m.video with hv | ⟨v, hv⟩
  · rw [(onKey_without_video m e hv).1]; exact ⟨rfl, rfl⟩
  · rw [onKeyDown_bound m e v hv]
    split_ifs <;> simp

theorem onKeyUp_frame (m : ControlManager) (e : KeyEvent) :
    (m.onKeyUp e).state = m.state ∧ (m.onKeyUp e).video = m.video := by
  rcases Option.eq_none_or_eq_some m.video with hv | ⟨v, hv⟩
  · rw [(onKey_without_video m e hv).2]; exact ⟨rfl, rfl⟩
  · rw [onKeyUp_bound m e v hv]
    split_ifs <;> simp

/-- One turn of the event loop keeps the invariant, when the video rectangle
has positive size and the event carries finite coordinates. -/
theorem step_inv (m : ControlManager) (env : Env) (ev : Event) (h : Inv m)
    (hr : env.rect.Proper) (he : ev.Finite) : Inv (m.step env ev) := by
  cases ev with
  | pointerLockChange => exact onPointerLockChange_inv m env h
  | pointerDown e => exact onPointerDown_inv m env e h hr he.1 he.2.1
  | pointerMove e => exact onPointerMove_inv m env e h hr he
  | pointerUp e => exact onPointerUp_inv m e h
  | wheel e => exact onWheel_inv m env e h
  | touchStartFallback e => exact onTouchStartFallback_inv m env e h hr he
  | touchMoveFallback e => exact onTouchMoveFallback_inv m env e h hr he
  | touchEndFallback e => exact onTouchEndFallback_inv m e h
  | touchpadStart e => exact onTouchpadStart_inv m e h he
  | touchpadMove e => exact onTouchpadMove_inv m env e h hr he
  | keyDown e => exact inv_of_same m _ h (onKeyDown_frame m e).1 (onKeyDown_frame m e).2
  | keyUp e => exact inv_of_same m _ h (onKeyUp_frame m e).1 (onKeyUp_frame m e).2
  | virtualWheelStart =>
    exact inv_of_same m _ h (by simp [step, onVirtualWheelStart, setInterval, emitVirtualWheel])
      (by simp [step, onVirtualWheelStart, setInterval, emitVirtualWheel])
  | virtualWheelEnd =>
    simp only [step, onVirtualWheelEnd]
    split
    · exact h
    · split
      · exact h
      · exact inv_of_same m _ h rfl rfl
  | intervalFired handle =>
    simp only [step, onIntervalFired]
    split
    · exact inv_sendMouseAction m _ _ _ _ h
    · exact h
  | dragHandleTouchStart overlay e =>
    simp only [step, onDragHandleTouchStart]
    split
    · exact h
    · split
      · exact h
      · exact h
  | fullscreenClick =>
    simp only [step, onFullscreenClick]
    obtain ⟨hx, hy, hta, hlp, hvr⟩ := h
    unfold Inv
    cases hv : m.video <;> split <;> simp_all [ensureVideoRect]
  | realFullscreenClick =>
    simp only [step, onRealFullscreenClick]
    split <;> exact h
  | sendRemoteActionAt x y flag scroll => exact inv_sendMouseAction m x y flag scroll h
  | virtualLeftDown => exact inv_sendMouseAction m _ _ _ _ h
  | virtualLeftUp => exact inv_sendMouseAction m _ _ _ _ h
  | virtualRightDown => exact inv_sendMouseAction m _ _ _ _ h
  | virtualRightUp => exact inv_sendMouseAction m _ _ _ _ h
  | setDataChannel channel => exact h
  | pointerLockError => exact h
  | pointerCancel =>
    obtain ⟨hx, hy, hta, hlp, hvr⟩ := h
    exact ⟨hx, hy, hta, posFinite_none, hvr⟩
  | touchpadEnd =>
    obtain ⟨hx, hy, hta, hlp, hvr⟩ := h
    exact ⟨hx, hy, anchorFinite_none, hlp, hvr⟩
  | dragHandleTouchMove e => exact h
  | dragHandleTouchEnd => exact h
  | dragHandleClick => exact h

theorem init_inv (video : Option Nat) (dataLog : Option (List LogLine)) (mc vc vm : Bool) :
    Inv (init video dataLog mc vc vm) := by
  refine ⟨?_, ?_, anchorFinite_none, posFinite_none, fun _ => rfl⟩
  · exact (inUnit_fin _).mpr (by norm_num)
  · exact (inUnit_fin _).mpr (by norm_num)

theorem run_inv (evs : List (Env × Event)) (m : ControlManager) (h : Inv m)
    (hev : ∀ p ∈ evs, p.1.rect.Proper ∧ p.2.Finite) : Inv (m.run evs) := by
  induction evs generalizing m with
  | nil => exact h
  | cons p rest ih =>
    obtain ⟨env, ev⟩ := p
    have hp := hev (env, ev) (List.mem_cons_self _ _)
    exact ih (m.step env ev) (step_inv m env ev h hp.1 hp.2)
      (fun q hq => hev q (List.mem_cons_of_mem _ hq))

/-- From the initial state, after every finite sequence of turns in which the
video rectangle has positive size and the events carry finite coordinates, both
coordinates of the normalized position lie in `[0, 1]`. -/
theorem normalizedPos_inUnit_of_proper (video : Option Nat)
    (dataLog : Option (List LogLine)) (mc vc vm : Bool) (evs : List (Env × Event))
    (hev : ∀ p ∈ evs, p.1.rect.Proper ∧ p.2.Finite) :
    JSNum.InUnit ((init video dataLog mc vc vm).run evs).state.normalizedPos.x ∧
    JSNum.InUnit ((init video dataLog mc vc vm).run evs).state.normalizedPos.y :=
  have h := run_inv evs _ (init_inv video dataLog mc vc vm) hev
  ⟨h.1, h.2.1⟩

end ControlManager


namespace ControlManager

/-- C1 fails on the code: from the initial state, a vertical drag on the virtual
touchpad while the video rectangle is empty divides `0` by the zero width, and
`clamp01` lets the resulting `NaN` through: `normalizedPos.x` is `NaN`, which is
not in `[0, 1]`, and the move action sent carries it. -/
theorem normalizedPos_nan_on_empty_rect :
    (fresh.run touchpadDragOnEmptyVideo).state.normalizedPos =
      { x := JSNum.nan, y := JSNum.fin 1 } ∧
    ¬ JSNum.InUnit (fresh.run touchpadDragOnEmptyVideo).state.normalizedPos.x ∧
    (fresh.run touchpadDragOnEmptyVideo).sendCalls =
      [Action.mouse { x := JSNum.nan, y := JSNum.fin 1, s := 0, flag := FlagVal.int 0 }] := by
  have hx : clamp01 ((JSNum.fin (1/2)).add
      ((((JSNum.fin 10).sub (JSNum.fin 10)).div (JSNum.fin 0)).mul (JSNum.fin 2))) =
      JSNum.nan := by
    simp [sub_fin, JSNum.div, JSNum.mul, JSNum.add, clamp01_nan]
  have hy : clamp01 ((JSNum.fin (1/2)).add
      ((((JSNum.fin 20).sub (JSNum.fin 10)).div (JSNum.fin 0)).mul (JSNum.fin 2))) =
      JSNum.fin 1 := by
    rw [sub_fin]
    norm_num [JSNum.div, JSNum.mul, JSNum.add, clamp01_pinf]
  have hp : (fresh.run touchpadDragOnEmptyVideo).state.normalizedPos =
      { x := JSNum.nan, y := JSNum.fin 1 } := by
    simp only [touchpadDragOnEmptyVideo, run, step, onTouchpadStart, onTouchpadMove, touchAt,
      ensureVideoRect, fresh, init, envOf, rectOf, sendMouseAction_state, hx, hy]
  refine ⟨hp, ?_, ?_⟩
  · rw [hp]; exact not_inUnit_nan
  · have hflag := fun x y => mouseAction_flagOf x y 0 (by decide) (by decide)
    simp only [touchpadDragOnEmptyVideo, run, step, onTouchpadStart, onTouchpadMove, touchAt,
      ensureVideoRect, fresh, init, envOf, rectOf, sendMouseAction_sendCalls, hx, hy,
      MouseFlag.move, hflag, clamp01_nan, List.nil_append]
    rw [clamp01_fin_of_mem 1 (by norm_num) (by norm_num)]

end ControlManager

/-! ## The transport gate -/

namespace ControlManager

theorem isChannelOpen_iff (m : ControlManager) :
    m.isChannelOpen = true ↔ ∃ ch, m.dataChannel = some ch ∧ ch.readyState = "open" := by
  unfold isChannelOpen
  cases h : m.dataChannel with
  | none => simp
  | some ch => simp

/-- What `send` does when the channel is open and accepts the payload. -/
theorem send_open (m : ControlManager) (a : Action) (ch : DataChannel)
    (hch : m.dataChannel = some ch) (ho : ch.readyState = "open")
    (ht : ch.sendThrows = false) :
    (m.send a).2 = true ∧
    (m.send a).1.channelSent = m.channelSent ++ [a] ∧
    (m.send a).1.dataLog = m.dataLog.map (fun lines => lines ++ [LogLine.payload a]) := by
  cases hl : m.dataLog <;>
    simp [send, isChannelOpen, logDataChannel, hch, ho, ht, hl]

/-- What `send` does when the channel is missing or not open. -/
theorem send_closed (m : ControlManager) (a : Action) (h : m.isChannelOpen = false) :
    m.send a = ({ m with sendCalls := m.sendCalls ++ [a] }, false) := by
  have h2 : ({ m with sendCalls := m.sendCalls ++ [a] } : ControlManager).isChannelOpen =
      false := h
  simp [send, h2]

/-- What `send` does when the channel is open but its `send` throws. -/
theorem send_throws (m : ControlManager) (a : Action) (ch : DataChannel)
    (hch : m.dataChannel = some ch) (ht : ch.sendThrows = true) :
    m.send a = ({ m with sendCalls := m.sendCalls ++ [a] }, false) := by
  simp only [send]
  split
  · rfl
  · simp [hch, ht]

/-- C13: `send` returns `true` exactly when a channel is set, its `readyState`
is `"open"` and its `send` does not throw; in that case the payload is handed
to the channel (and mirrored to the log), otherwise nothing is handed over; and
when the channel is not open `send` returns `false` and leaves every member of
the controller, the log included, as it was (only the trace of calls grows). -/
theorem send_forwards_iff_open (m : ControlManager) (a : Action) :
    ((m.send a).2 = true ↔
      ∃ ch, m.dataChannel = some ch ∧ ch.readyState = "open" ∧ ch.sendThrows = false) ∧
    ((m.send a).2 = true → (m.send a).1.channelSent = m.channelSent ++ [a]) ∧
    ((m.send a).2 = false → (m.send a).1.channelSent = m.channelSent ∧
      (m.send a).1.dataLog = m.dataLog) ∧
    (m.isChannelOpen = false →
      (m.send a).2 = false ∧ (m.send a).1 = { m with sendCalls := m.sendCalls ++ [a] }) := by
  have hclosed : m.isChannelOpen = false →
      (m.send a).2 = false ∧ (m.send a).1 = { m with sendCalls := m.sendCalls ++ [a] } := by
    intro h
    rw [send_closed m a h]
    exact ⟨rfl, rfl⟩
  rcases Option.eq_none_or_eq_some m.dataChannel with hc | ⟨ch, hc⟩
  · have hno : m.isChannelOpen = false := by simp [isChannelOpen, hc]
    have h := hclosed hno
    refine ⟨?_, ?_, ?_, hclosed⟩
    · simp [h.1, hc]
    · intro h2; rw [h.1] at h2; cases h2
    · intro _; rw [h.2]; exact ⟨rfl, rfl⟩
  · by_cases ho : ch.readyState = "open"
    · cases ht : ch.sendThrows with
      | false =>
        have h := send_open m a ch hc ho ht
        refine ⟨?_, ?_, ?_, hclosed⟩
        · simp [h.1, hc, ho, ht]
        · intro _; exact h.2.1
        · intro h2; rw [h.1] at h2; cases h2
      | true =>
        have h := send_throws m a ch hc ht
        refine ⟨?_, ?_, ?_, hclosed⟩
        · rw [h]; simp [hc, ht]
        · intro h2; rw [h] at h2; cases h2
        · intro _; rw [h]; exact ⟨rfl, rfl⟩
    · have hno : m.isChannelOpen = false := by simp [isChannelOpen, hc, ho]
      have h := hclosed hno
      refine ⟨?_, ?_, ?_, hclosed⟩
      · simp [h.1, hc, ho]
      · intro h2; rw [h.1] at h2; cases h2
      · intro _; rw [h.2]; exact ⟨rfl, rfl⟩

/-- C13, at a channel that is still connecting: `send` returns `false`, hands
nothing to the channel and writes nothing to the log. -/
theorem send_forwards_iff_open_witness :
    freshConnecting.isChannelOpen = false ∧
    (freshConnecting.send (Action.display_id 1)).2 = false ∧
    (freshConnecting.send (Action.display_id 1)).1.channelSent = [] ∧
    (freshConnecting.send (Action.display_id 1)).1.dataLog = some [] := by
  have hno : freshConnecting.isChannelOpen = false := by
    simp [freshConnecting, fresh, init, setDataChannel, isChannelOpen]
  have h := (send_forwards_iff_open freshConnecting (Action.display_id 1)).2.2.2 hno
  refine ⟨hno, h.1, ?_, ?_⟩
  · rw [h.2]; rfl
  · rw [h.2]; rfl

end ControlManager

/-! ## One session of the virtual wheel -/

namespace ControlManager

theorem run_append (a b : List (Env × Event)) (m : ControlManager) :
    m.run (a ++ b) = (m.run a).run b := by
  induction a generalizing m with
  | nil => rfl
  | cons p rest ih =>
    obtain ⟨env, ev⟩ := p
    simp only [List.cons_append, run]
    exact ih _

/-- The members of the controller that a wheel tick leaves alone, and the call
of `send` it makes. -/
theorem emitVirtualWheel_effect (m : ControlManager) :
    m.emitVirtualWheel.sendCalls = m.sendCalls ++ [wheelTick m] ∧
    m.emitVirtualWheel.state = m.state ∧
    m.emitVirtualWheel.intervals = m.intervals ∧
    m.emitVirtualWheel.timerCount = m.timerCount ∧
    m.emitVirtualWheel.virtualWheelTimer = m.virtualWheelTimer ∧
    m.emitVirtualWheel.dataChannel = m.dataChannel := by
  refine ⟨?_, ?_, ?_, ?_, ?_, ?_⟩
  · simp only [emitVirtualWheel, sendMouseAction_sendCalls, mouseAction_wheelTick, wheelTick]
    rfl
  · simp [emitVirtualWheel]
  · simp [emitVirtualWheel]
  · simp [emitVirtualWheel]
  · simp [emitVirtualWheel]
  · exact (send_frame m _).2.2.2.2.2

theorem emitVirtualWheel_channelSent (m : ControlManager) (ch : DataChannel)
    (hch : m.dataChannel = some ch) (ho : ch.readyState = "open")
    (ht : ch.sendThrows = false) :
    m.emitVirtualWheel.channelSent = m.channelSent ++ [wheelTick m] := by
  have h := (send_open m (mouseAction m.state.normalizedPos.x m.state.normalizedPos.y
    (flagOf MouseFlag.wheel_vertical) (some (JSNum.fin (-20)))) ch hch ho ht).2.1
  rw [mouseAction_wheelTick] at h
  simp only [emitVirtualWheel, sendMouseAction, wheelTick, mouseAction_wheelTick]
  exact h

theorem wheelTick_congr (m m2 : ControlManager) (h : m2.state = m.state) :
    wheelTick m2 = wheelTick m := by
  simp [wheelTick, h]

/-- The effect of `n` firings of a timer that is scheduled. -/
theorem run_fires (env : Env) (handle : Nat) (n : Nat) (m : ControlManager)
    (hin : handle ∈ m.intervals) :
    (m.run (List.replicate n (env, Event.intervalFired handle))).sendCalls =
      m.sendCalls ++ List.replicate n (wheelTick m) ∧
    (m.run (List.replicate n (env, Event.intervalFired handle))).state = m.state ∧
    (m.run (List.replicate n (env, Event.intervalFired handle))).intervals = m.intervals ∧
    (m.run (List.replicate n (env, Event.intervalFired handle))).virtualWheelTimer =
      m.virtualWheelTimer ∧
    (m.run (List.replicate n (env, Event.intervalFired handle))).dataChannel =
      m.dataChannel ∧
    (∀ ch, m.dataChannel = some ch → ch.readyState = "open" → ch.sendThrows = false →
      (m.run (List.replicate n (env, Event.intervalFired handle))).channelSent =
        m.channelSent ++ List.replicate n (wheelTick m)) := by
  induction n generalizing m with
  | zero => simp [run]
  | succ k ih =>
    have he := emitVirtualWheel_effect m
    have hstep : m.step env (Event.intervalFired handle) = m.emitVirtualWheel := by
      simp [step, onIntervalFired, hin]
    have hin2 : handle ∈ m.emitVirtualWheel.intervals := by rw [he.2.2.1]; exact hin
    have h := ih m.emitVirtualWheel hin2
    have ht := wheelTick_congr m m.emitVirtualWheel he.2.1
    simp only [List.replicate_succ, run, hstep]
    refine ⟨?_, ?_, ?_, ?_, ?_, ?_⟩
    · rw [h.1, he.1, ht]; simp
    · rw [h.2.1, he.2.1]
    · rw [h.2.2.1, he.2.2.1]
    · rw [h.2.2.2.1, he.2.2.2.2.1]
    · rw [h.2.2.2.2.1, he.2.2.2.2.2]
    · intro ch hch ho hth
      rw [h.2.2.2.2.2 ch (by rw [he.2.2.2.2.2]; exact hch) ho hth,
        emitVirtualWheel_channelSent m ch hch ho hth, ht]
      simp

/-- C11: one session of the virtual wheel (touch-start, `n` firings of the
repeat timer, touch-end) calls `send` exactly `n + 1` times, each time with a
`wheel_vertical` (7) action of scroll value `-20` at the current position; and
with the channel open, exactly these `n + 1` actions are handed to it.  After
the touch-end the timer of the session is no longer scheduled. -/
theorem virtualWheel_session_ticks (m : ControlManager) (env : Env) (n : Nat) :
    (m.run (m.wheelSession env n)).sendCalls =
      m.sendCalls ++ List.replicate (n + 1) (wheelTick m) ∧
    (∀ ch, m.dataChannel = some ch → ch.readyState = "open" → ch.sendThrows = false →
      (m.run (m.wheelSession env n)).channelSent =
        m.channelSent ++ List.replicate (n + 1) (wheelTick m)) ∧
    m.timerCount + 1 ∉ (m.run (m.wheelSession env n)).intervals := by
  have he := emitVirtualWheel_effect m
  have hstart : m.step env Event.virtualWheelStart = m.onVirtualWheelStart := rfl
  have hs_calls : m.onVirtualWheelStart.sendCalls = m.sendCalls ++ [wheelTick m] := by
    simp [onVirtualWheelStart, setInterval, he.1]
  have hs_state : m.onVirtualWheelStart.state = m.state := by
    simp [onVirtualWheelStart, setInterval, he.2.1]
  have hs_in : m.timerCount + 1 ∈ m.onVirtualWheelStart.intervals := by
    simp [onVirtualWheelStart, setInterval, he.2.2.2.1]
  have hs_ch : m.onVirtualWheelStart.dataChannel = m.dataChannel := by
    simp [onVirtualWheelStart, setInterval, he.2.2.2.2.2]
  have hf := run_fires env (m.timerCount + 1) n m.onVirtualWheelStart hs_in
  have ht := wheelTick_congr m m.onVirtualWheelStart hs_state
  have hend : ∀ m2 : ControlManager,
      (m2.run [(env, Event.virtualWheelEnd)]).sendCalls = m2.sendCalls ∧
      (m2.run [(env, Event.virtualWheelEnd)]).channelSent = m2.channelSent := by
    intro m2
    simp only [run, step, onVirtualWheelEnd]
    split
    · exact ⟨rfl, rfl⟩
    · split <;> exact ⟨rfl, rfl⟩
  have hs_timer : m.onVirtualWheelStart.virtualWheelTimer = some (m.timerCount + 1) := by
    simp [onVirtualWheelStart, setInterval, he.2.2.2.1]
  simp only [wheelSession, run, hstart]
  rw [run_append]
  refine ⟨?_, ?_, ?_⟩
  · rw [(hend _).1, hf.1, hs_calls, ht, List.replicate_succ]
    simp
  · intro ch hch ho hth
    have hsent : m.onVirtualWheelStart.channelSent = m.channelSent ++ [wheelTick m] := by
      simp [onVirtualWheelStart, setInterval, emitVirtualWheel_channelSent m ch hch ho hth]
    rw [(hend _).2, hf.2.2.2.2.2 ch (by rw [hs_ch]; exact hch) ho hth, hsent, ht,
      List.replicate_succ]
    simp
  · simp [run, step, onVirtualWheelEnd, hf.2.2.2.1, hs_timer, clearInterval]

/-- C11, the scenario of the specification: the wheel held for 250 ms, that is
two firings of the 100 ms timer, gives exactly three actions, each
`{x 0.5, y 0.5, s -20, flag 7}`, on the open channel. -/
theorem virtualWheel_session_ticks_witness :
    (freshOpen.run (freshOpen.wheelSession (envOf (rectOf 0 0 200 100)) 2)).channelSent =
      [Action.mouse { x := JSNum.fin (1/2), y := JSNum.fin (1/2), s := -20,
                      flag := FlagVal.int 7 },
       Action.mouse { x := JSNum.fin (1/2), y := JSNum.fin (1/2), s := -20,
                      flag := FlagVal.int 7 },
       Action.mouse { x := JSNum.fin (1/2), y := JSNum.fin (1/2), s := -20,
                      flag := FlagVal.int 7 }] := by
  have h := (virtualWheel_session_ticks freshOpen (envOf (rectOf 0 0 200 100)) 2).2.1
    openChannel rfl rfl rfl
  have hc : clamp01 (JSNum.fin (1/2)) = JSNum.fin (1/2) :=
    clamp01_fin_of_mem _ (by norm_num) (by norm_num)
  rw [h]
  simp only [wheelTick, freshOpen, fresh, init, setDataChannel, hc, MouseFlag.wheel_vertical,
    List.replicate, List.nil_append, List.cons_append]

end ControlManager

/-! ## When the video element is absent -/

namespace ControlManager

/-- C12 as stated fails: with no video element and no rectangle, a pointer-down
still calls `send`, with the button-down action at the stored position; only the
conversion and the capture request are skipped. -/
theorem onPointerDown_without_surface_emits :
    freshNoVideo.video = none ∧ freshNoVideo.state.videoRect = none ∧
    (freshNoVideo.onPointerDown (envOf (rectOf 0 0 200 100)) (pointerAt 0 100 50)).sendCalls =
      [Action.mouse { x := JSNum.fin (1/2), y := JSNum.fin (1/2), s := 0,
                      flag := FlagVal.int 1 }] := by
  have hflag := fun x y => mouseAction_flagOf x y 1 (by decide) (by decide)
  have hc : clamp01 (JSNum.fin (1/2)) = JSNum.fin (1/2) :=
    clamp01_fin_of_mem _ (by norm_num) (by norm_num)
  refine ⟨rfl, rfl, ?_⟩
  simp [onPointerDown, freshNoVideo, init, ensureVideoRect, isInsideVideo, pointerAt,
    buttonToFlag, MouseFlag.left_down, hflag]
  simpa using hc

/-- C12, amended: with no video element and no rectangle, the pointer-move,
wheel and touchpad-move handlers make no call of `send` and leave the position
alone; the pointer-down handler leaves the position alone and requests no
capture, but, for a non-negative button, calls `send` once with the button-down
action at the stored position. -/
theorem handlers_without_surface (m : ControlManager) (env : Env)
    (hv : m.video = none) (hr : m.state.videoRect = none) :
    (∀ e : PointerEvent,
      (m.onPointerMove env e).sendCalls = m.sendCalls ∧
      (m.onPointerMove env e).state.normalizedPos = m.state.normalizedPos) ∧
    (∀ e : WheelEvent,
      (m.onWheel env e).sendCalls = m.sendCalls ∧
      (m.onWheel env e).state.normalizedPos = m.state.normalizedPos) ∧
    (∀ e : TouchEvent,
      (m.onTouchpadMove env e).sendCalls = m.sendCalls ∧
      (m.onTouchpadMove env e).state.normalizedPos = m.state.normalizedPos) ∧
    (∀ e : PointerEvent,
      (m.onPointerDown env e).state.normalizedPos = m.state.normalizedPos ∧
      (m.onPointerDown env e).lockRequests = m.lockRequests ∧
      (m.onPointerDown env e).sendCalls =
        if e.button.getD 0 < 0 then m.sendCalls
        else m.sendCalls ++ [Action.mouse
          { x := clamp01 m.state.normalizedPos.x
            y := clamp01 m.state.normalizedPos.y
            s := 0
            flag := FlagVal.int (buttonToFlag (e.button.getD 0) true) }]) := by
  refine ⟨?_, ?_, ?_, ?_⟩
  · intro e
    cases hl : m.state.pointerLocked <;> cases hp : m.state.lastPointerPos <;>
      simp [onPointerMove, ensureVideoRect, hv, hr, hl, hp]
  · intro e
    by_cases ht : env.now - m.state.lastWheelAt < 50
    · simp [onWheel, ht]
    · simp [onWheel, ensureVideoRect, hv, hr, ht]
  · intro e
    cases ht : e.touches <;> cases hs : m.state.touchpadStart <;>
      simp [onTouchpadMove, ensureVideoRect, hv, hr, ht, hs]
  · intro e
    have hflag := fun x y => mouseAction_flagOf x y (buttonToFlag (e.button.getD 0) true)
      (buttonToFlag_range _ _).1 (buttonToFlag_range _ _).2
    by_cases hb : e.button.getD 0 < 0
    · simp [onPointerDown, hb]
    · simp [onPointerDown, ensureVideoRect, isInsideVideo, hv, hr, hb, hflag]

/-- C12 amended, at a controller without video element: a wheel event sends
nothing, and a pointer-down leaves the position at `(0.5, 0.5)`. -/
theorem handlers_without_surface_witness :
    freshNoVideo.video = none ∧ freshNoVideo.state.videoRect = none ∧
    (freshNoVideo.onWheel (envAt (rectOf 0 0 200 100) 1000)
      (wheelOf 100 50 0 (-120))).sendCalls = [] ∧
    (freshNoVideo.onPointerDown (envAt (rectOf 0 0 200 100) 1000)
      (pointerAt 0 100 50)).state.normalizedPos =
        { x := JSNum.fin (1/2), y := JSNum.fin (1/2) } :=
  ⟨rfl, rfl,
   ((handlers_without_surface freshNoVideo (envAt (rectOf 0 0 200 100) 1000) rfl rfl).2.1
      (wheelOf 100 50 0 (-120))).1,
   ((handlers_without_surface freshNoVideo (envAt (rectOf 0 0 200 100) 1000) rfl rfl).2.2.2
      (pointerAt 0 100 50)).1⟩

end ControlManager

/-! ## The action encoder -/

namespace ControlManager

/-- C14: `sendMouseAction` calls `send` once, with a record of type `0` whose
`x` and `y` are `clamp01` of the arguments, whose `s` is the scroll value as a
signed 32-bit integer (`0` when it is left out) and whose flag is the resolved
flag; `clamp01` of a finite or infinite number lies in `[0, 1]`.  The range
fails on the code for `NaN`: `clamp01` returns `NaN`, so the record built for
`x = NaN` carries `NaN`, which is not in `[0, 1]`. -/
theorem sendMouseAction_record :
    (∀ (m : ControlManager) (x y : JSNum) (flag : FlagArg) (scroll : Option JSNum),
      (m.sendMouseAction x y flag scroll).sendCalls = m.sendCalls ++ [Action.mouse
        { x := clamp01 x
          y := clamp01 y
          s := (scroll.getD (JSNum.fin 0)).toInt32
          flag := numericFlag flag }] ∧
      (mouseAction x y flag scroll).type = 0) ∧
    ((none : Option JSNum).getD (JSNum.fin 0)).toInt32 = 0 ∧
    (∀ q : ℚ, JSNum.InUnit (clamp01 (JSNum.fin q))) ∧
    JSNum.InUnit (clamp01 JSNum.pinf) ∧ JSNum.InUnit (clamp01 JSNum.ninf) ∧
    (fresh.sendMouseAction JSNum.nan (JSNum.fin 2) (FlagArg.num (JSNum.fin 0)) none).sendCalls =
      [Action.mouse { x := JSNum.nan, y := JSNum.fin 1, s := 0, flag := FlagVal.int 0 }] ∧
    ¬ JSNum.InUnit JSNum.nan := by
  refine ⟨?_, toInt32_zero, inUnit_clamp01_fin, inUnit_clamp01 _ (by simp),
    inUnit_clamp01 _ (by simp), ?_, not_inUnit_nan⟩
  · intro m x y flag scroll
    exact ⟨by simp [mouseAction], rfl⟩
  · have h2 : clamp01 (JSNum.fin 2) = JSNum.fin 1 := by
      rw [clamp01_fin]; norm_num
    simp [mouseAction, numericFlag, clamp01_nan, h2, toInt32_zero, fresh, init]

/-- C15: `buttonToFlag` maps button `0` to the pair `1 / 2`, button `1` to
`5 / 6`, button `2` to `3 / 4`, and every other button to the pair `1 / 2` of
the primary button; it is a total function. -/
theorem buttonToFlag_mapping :
    buttonToFlag 0 true = 1 ∧ buttonToFlag 0 false = 2 ∧
    buttonToFlag 1 true = 5 ∧ buttonToFlag 1 false = 6 ∧
    buttonToFlag 2 true = 3 ∧ buttonToFlag 2 false = 4 ∧
    (∀ b : Int, b ≠ 0 → b ≠ 1 → b ≠ 2 →
      buttonToFlag b true = 1 ∧ buttonToFlag b false = 2) := by
  refine ⟨rfl, rfl, rfl, rfl, rfl, rfl, ?_⟩
  intro b h0 h1 h2
  simp [buttonToFlag, h0, h1, h2, MouseFlag.left_down, MouseFlag.left_up]

/-- C15, at button `4` (the forward button of a mouse): the primary pair. -/
theorem buttonToFlag_mapping_witness :
    (4 : Int) ≠ 0 ∧ (4 : Int) ≠ 1 ∧ (4 : Int) ≠ 2 ∧
    buttonToFlag 4 true = 1 ∧ buttonToFlag 4 false = 2 :=
  ⟨by decide, by decide, by decide,
   buttonToFlag_mapping.2.2.2.2.2.2 4 (by decide) (by decide) (by decide)⟩

end ControlManager

/-! ## Keyboard -/

theorem isTextInput_bodyElement : isTextInput (some bodyElement) = false := by
  have h : toLowerCase "BODY" = "body" := by decide
  simp [isTextInput, bodyElement, h]

theorem isTextInput_textField : isTextInput (some textField) = true := by
  have h1 : toLowerCase "INPUT" = "input" := by decide
  have h2 : toLowerCase "text" = "text" := by decide
  simp [isTextInput, textField, h1, h2]

theorem isTextInput_kelvinCheckbox : isTextInput (some kelvinCheckbox) = false := by
  have h1 : toLowerCase "INPUT" = "input" := by decide
  have h2 : toLowerCase (String.mk ['c', 'h', 'e', 'c', kelvinSign, 'b', 'o', 'x']) =
      "checkbox" := by decide
  have h3 : String.mk ['c', 'h', 'e', 'c', kelvinSign, 'b', 'o', 'x'] ≠ "" := by decide
  simp [isTextInput, kelvinCheckbox, h1, h2, h3]

namespace ControlManager

theorem sendKeyboardAction_sendCalls (m : ControlManager) (k : JSNum) (d : Bool) :
    (m.sendKeyboardAction k d).sendCalls = m.sendCalls ++
      [Action.keyboard { key_value := k.toInt32, flag := if d then 0 else 1 }] :=
  send_sendCalls m _

theorem sendKeyboardAction_dataChannel (m : ControlManager) (k : JSNum) (d : Bool) :
    (m.sendKeyboardAction k d).dataChannel = m.dataChannel :=
  (send_frame m _).2.2.2.2.2

theorem onKeyDown_sendCalls (m : ControlManager) (e : KeyEvent) (v : Nat)
    (hv : m.video = some v) (ho : m.isChannelOpen = true) :
    (m.onKeyDown e).sendCalls =
      if e.repeated = false ∧ isTextInput e.target = false then
        m.sendCalls ++ [Action.keyboard
          { key_value := (e.keyCode.getD (JSNum.fin 0)).toInt32, flag := 0 }]
      else m.sendCalls := by
  have ho2 : ({ m with lockExits := m.lockExits + 1 } : ControlManager).isChannelOpen =
      true := ho
  rw [onKeyDown_bound m e v hv]
  cases hr : e.repeated <;> cases ht : isTextInput e.target <;>
    split <;> simp [ho, ho2, sendKeyboardAction_sendCalls]

theorem onKeyDown_dataChannel (m : ControlManager) (e : KeyEvent) :
    (m.onKeyDown e).dataChannel = m.dataChannel := by
  rcases Option.eq_none_or_eq_some m.video with hv | ⟨v, hv⟩
  · rw [(onKey_without_video m e hv).1]
  · rw [onKeyDown_bound m e v hv]
    split_ifs <;> simp [sendKeyboardAction_dataChannel]

theorem onKeyUp_sendCalls (m : ControlManager) (e : KeyEvent) (v : Nat)
    (hv : m.video = some v) (ho : m.isChannelOpen = true) :
    (m.onKeyUp e).sendCalls =
      if isTextInput e.target = false then
        m.sendCalls ++ [Action.keyboard
          { key_value := (e.keyCode.getD (JSNum.fin 0)).toInt32, flag := 1 }]
      else m.sendCalls := by
  rw [onKeyUp_bound m e v hv]
  cases ht : isTextInput e.target <;> simp [ho, sendKeyboardAction_sendCalls]

theorem isChannelOpen_congr (m m2 : ControlManager) (h : m2.dataChannel = m.dataChannel) :
    m2.isChannelOpen = m.isChannelOpen := by
  simp [isChannelOpen, h]

/-- Repeated key-downs send nothing. -/
theorem run_repeats (env : Env) (code : Int) (target : Option Element) (k : Nat)
    (m : ControlManager) (v : Nat) (hv : m.video = some v) (ho : m.isChannelOpen = true) :
    (m.run (List.replicate k (env, Event.keyDown (keyOf code true target)))).sendCalls =
      m.sendCalls ∧
    (m.run (List.replicate k (env, Event.keyDown (keyOf code true target)))).isChannelOpen =
      true ∧
    (m.run (List.replicate k (env, Event.keyDown (keyOf code true target)))).video =
      some v := by
  induction k generalizing m with
  | zero => exact ⟨rfl, ho, hv⟩
  | succ j ih =>
    simp only [List.replicate_succ, run, step]
    have ho2 : (m.onKeyDown (keyOf code true target)).isChannelOpen = true := by
      rw [isChannelOpen_congr m _ (onKeyDown_dataChannel m _)]; exact ho
    have hv2 : (m.onKeyDown (keyOf code true target)).video = some v := by
      rw [(onKeyDown_frame m _).2]; exact hv
    have h := ih (m.onKeyDown (keyOf code true target)) hv2 ho2
    refine ⟨?_, h.2.1, h.2.2⟩
    rw [h.1, onKeyDown_sendCalls m _ v hv ho]
    simp [keyOf]

/-- C16 as stated fails: on a page without a video element `init` returns
before it binds the keyboard listeners, so with the channel open a first
key-down and a key-up on the page body send nothing. -/
theorem keyboard_unbound_without_video :
    freshNoVideoOpen.isChannelOpen = true ∧
    (keyOf 65 false (some bodyElement)).repeated = false ∧
    isTextInput (keyOf 65 false (some bodyElement)).target = false ∧
    (freshNoVideoOpen.onKeyDown (keyOf 65 false (some bodyElement))).sendCalls = [] ∧
    (freshNoVideoOpen.onKeyUp (keyOf 65 false (some bodyElement))).sendCalls = [] := by
  have ho : freshNoVideoOpen.isChannelOpen = true := by
    simp [freshNoVideoOpen, freshNoVideo, init, setDataChannel, isChannelOpen, openChannel]
  have h := onKey_without_video freshNoVideoOpen (keyOf 65 false (some bodyElement)) rfl
  refine ⟨ho, rfl, isTextInput_bodyElement, ?_, ?_⟩
  · rw [h.1]; rfl
  · rw [h.2]; rfl

/-- C16, amended: on a page whose video element exists, so that `init` has
bound the keyboard listeners, and with the channel open, a key-down calls `send`
exactly once, with the keyboard action `{key_value := keyCode | 0, flag := 0}`,
when it is not a repeat and its target is not a text-entry control, and not at
all otherwise; a key-up on a target that is not a text-entry control calls
`send` exactly once, with flag `1`.  Hence a key held down (first key-down, `k`
repeats, key-up) gives exactly one down action followed by one up action.
Without the video element a key event sends nothing.  A text-entry control is
an element whose tag is `textarea`, or `input` with a type (by default `text`)
other than checkbox, radio, button, submit and reset, letter case ignored. -/
theorem keyboard_actions :
    (∀ (m : ControlManager) (e : KeyEvent) (v : Nat),
      m.video = some v → m.isChannelOpen = true →
      (m.onKeyDown e).sendCalls =
        if e.repeated = false ∧ isTextInput e.target = false then
          m.sendCalls ++ [Action.keyboard
            { key_value := (e.keyCode.getD (JSNum.fin 0)).toInt32, flag := 0 }]
        else m.sendCalls) ∧
    (∀ (m : ControlManager) (e : KeyEvent) (v : Nat),
      m.video = some v → m.isChannelOpen = true →
      (m.onKeyUp e).sendCalls =
        if isTextInput e.target = false then
          m.sendCalls ++ [Action.keyboard
            { key_value := (e.keyCode.getD (JSNum.fin 0)).toInt32, flag := 1 }]
        else m.sendCalls) ∧
    (∀ (m : ControlManager) (env : Env) (code : Int) (target : Option Element) (k : Nat)
       (v : Nat),
      m.video = some v → m.isChannelOpen = true → isTextInput target = false →
      -2147483648 ≤ code → code < 2147483648 →
      (m.run (keyHeld env code target k)).sendCalls = m.sendCalls ++
        [Action.keyboard { key_value := code, flag := 0 },
         Action.keyboard { key_value := code, flag := 1 }]) ∧
    (∀ (m : ControlManager) (e : KeyEvent), m.video = none →
      m.onKeyDown e = m ∧ m.onKeyUp e = m) ∧
    (∀ el : Option Element, isTextInput el = true ↔
      ∃ e name, el = some e ∧ e.tagName = some name ∧ name ≠ "" ∧
        (toLowerCase name = "textarea" ∨
          (toLowerCase name = "input" ∧
            toLowerCase (match e.typeAttr with
              | none => "text"
              | some t => if t = "" then "text" else t) ∉
              ["checkbox", "radio", "button", "submit", "reset"]))) := by
  refine ⟨fun m e v hv ho => onKeyDown_sendCalls m e v hv ho,
    fun m e v hv ho => onKeyUp_sendCalls m e v hv ho, ?_, onKey_without_video, ?_⟩
  · intro m env code target k v hv ho ht h1 h2
    have hcode := toInt32_intCast code h1 h2
    have hd := onKeyDown_sendCalls m (keyOf code false target) v hv ho
    have ho1 : (m.onKeyDown (keyOf code false target)).isChannelOpen = true := by
      rw [isChannelOpen_congr m _ (onKeyDown_dataChannel m _)]; exact ho
    have hv1 : (m.onKeyDown (keyOf code false target)).video = some v := by
      rw [(onKeyDown_frame m _).2]; exact hv
    have hr := run_repeats env code target k _ v hv1 ho1
    simp only [keyHeld, run, step]
    rw [run_append]
    simp only [run, step]
    rw [onKeyUp_sendCalls _ _ v hr.2.2 hr.2.1, hr.1, hd]
    simp [keyOf, ht, hcode]
  · intro el
    cases el with
    | none => simp [isTextInput]
    | some e =>
      cases hn : e.tagName with
      | none => simp [isTextInput, hn]
      | some name =>
        by_cases he : name = ""
        · simp [isTextInput, hn, he]
        · by_cases h1 : toLowerCase name = "textarea"
          · simp [isTextInput, hn, he, h1]
          · by_cases h2 : toLowerCase name = "input"
            · cases hty : e.typeAttr <;> simp [isTextInput, hn, he, h1, h2, hty]
            · simp [isTextInput, hn, he, h1, h2]

/-- C16 amended, with the video element present and the channel open: key `65`
held on the page body through three repeats gives one down and one up action; a
key-down in a text field gives none; a key-down on a checkbox whose type is
spelled with the Kelvin sign is forwarded. -/
theorem keyboard_actions_witness :
    freshOpen.video = some 1 ∧ freshOpen.isChannelOpen = true ∧
    isTextInput (some bodyElement) = false ∧
    (freshOpen.run (keyHeld (envOf (rectOf 0 0 200 100)) 65 (some bodyElement) 3)).sendCalls =
      [Action.keyboard { key_value := 65, flag := 0 },
       Action.keyboard { key_value := 65, flag := 1 }] ∧
    (freshOpen.onKeyDown (keyOf 65 false (some textField))).sendCalls = [] ∧
    (freshOpen.onKeyDown (keyOf 65 false (some kelvinCheckbox))).sendCalls =
      [Action.keyboard { key_value := 65, flag := 0 }] := by
  have ho : freshOpen.isChannelOpen = true := by
    simp [freshOpen, fresh, init, setDataChannel, isChannelOpen, openChannel]
  have h65 : (JSNum.fin 65).toInt32 = 65 := by
    have := toInt32_intCast 65 (by norm_num) (by norm_num)
    simpa using this
  refine ⟨rfl, ho, isTextInput_bodyElement, ?_, ?_, ?_⟩
  · have h := keyboard_actions.2.2.1 freshOpen (envOf (rectOf 0 0 200 100)) 65
      (some bodyElement) 3 1 rfl ho isTextInput_bodyElement (by norm_num) (by norm_num)
    simpa [freshOpen, fresh, init, setDataChannel] using h
  · have h := keyboard_actions.1 freshOpen (keyOf 65 false (some textField)) 1 rfl ho
    rw [h]
    simp [keyOf, isTextInput_textField, freshOpen, fresh, init, setDataChannel]
  · have h := keyboard_actions.1 freshOpen (keyOf 65 false (some kelvinCheckbox)) 1 rfl ho
    rw [h]
    simp [keyOf, isTextInput_kelvinCheckbox, freshOpen, fresh, init, setDataChannel, h65]

end ControlManager

/-! ## The absolute conversion -/

theorem clamp01_fin_of_nonpos (q : ℚ) (h : q ≤ 0) : clamp01 (JSNum.fin q) = JSNum.fin 0 := by
  rw [clamp01_fin]
  congr 1
  exact max_eq_left (le_trans (min_le_right _ _) h)

theorem clamp01_fin_of_one_le (q : ℚ) (h : 1 ≤ q) : clamp01 (JSNum.fin q) = JSNum.fin 1 := by
  rw [clamp01_fin, min_eq_left h, max_eq_right (by norm_num)]

/-- The conversion of one finite coordinate against a side of positive length. -/
theorem toNormalized_axis (l w c : ℚ) (hw : 0 < w) :
    clamp01 (((JSNum.fin c).sub (JSNum.fin l)).div (JSNum.fin w)) =
      clamp01 (JSNum.fin ((c - l) / w)) ∧
    JSNum.InUnit (clamp01 (JSNum.fin ((c - l) / w))) ∧
    (l ≤ c → c ≤ l + w → clamp01 (JSNum.fin ((c - l) / w)) = JSNum.fin ((c - l) / w)) ∧
    (c ≤ l → clamp01 (JSNum.fin ((c - l) / w)) = JSNum.fin 0) ∧
    (l + w ≤ c → clamp01 (JSNum.fin ((c - l) / w)) = JSNum.fin 1) := by
  refine ⟨?_, inUnit_clamp01_fin _, ?_, ?_, ?_⟩
  · rw [sub_fin, div_fin_of_ne _ _ hw.ne.symm]
  · intro h1 h2
    exact clamp01_fin_of_mem _ (unit_of_inside l w c hw h1 h2).1 (unit_of_inside l w c hw h1 h2).2
  · intro h1
    exact clamp01_fin_of_nonpos _ (div_nonpos_of_nonpos_of_nonneg (by linarith) hw.le)
  · intro h1
    apply clamp01_fin_of_one_le
    rw [le_div_iff₀ hw]
    linarith

namespace ControlManager

/-- C17: for a cached rectangle of positive width and height and finite client
coordinates, `updateNormalizedFromClient` sets the position to
`(clamp01 ((x - left) / width), clamp01 ((y - top) / height))`; both
coordinates lie in `[0, 1]`; each equals the plain quotient when the coordinate
is within the rectangle on its axis, `0` when it is at or before the near side,
and `1` when it is at or beyond the far side. -/
theorem updateNormalizedFromClient_saturates (m : ControlManager) (l t w h cx cy : ℚ)
    (hr : m.state.videoRect = some (rectOf l t w h)) (hw : 0 < w) (hh : 0 < h) :
    (m.updateNormalizedFromClient (JSNum.fin cx) (JSNum.fin cy)).state.normalizedPos =
      { x := clamp01 (JSNum.fin ((cx - l) / w)), y := clamp01 (JSNum.fin ((cy - t) / h)) } ∧
    JSNum.InUnit (clamp01 (JSNum.fin ((cx - l) / w))) ∧
    JSNum.InUnit (clamp01 (JSNum.fin ((cy - t) / h))) ∧
    (l ≤ cx → cx ≤ l + w → clamp01 (JSNum.fin ((cx - l) / w)) = JSNum.fin ((cx - l) / w)) ∧
    (t ≤ cy → cy ≤ t + h → clamp01 (JSNum.fin ((cy - t) / h)) = JSNum.fin ((cy - t) / h)) ∧
    (cx ≤ l → clamp01 (JSNum.fin ((cx - l) / w)) = JSNum.fin 0) ∧
    (cy ≤ t → clamp01 (JSNum.fin ((cy - t) / h)) = JSNum.fin 0) ∧
    (l + w ≤ cx → clamp01 (JSNum.fin ((cx - l) / w)) = JSNum.fin 1) ∧
    (t + h ≤ cy → clamp01 (JSNum.fin ((cy - t) / h)) = JSNum.fin 1) := by
  have hx := toNormalized_axis l w cx hw
  have hy := toNormalized_axis t h cy hh
  refine ⟨?_, hx.2.1, hy.2.1, hx.2.2.1, hy.2.2.1, hx.2.2.2.1, hy.2.2.2.1, hx.2.2.2.2,
    hy.2.2.2.2⟩
  simp only [updateNormalizedFromClient, hr, rectOf]
  rw [hx.1, hy.1]

/-- C17, at the rectangle `{0, 0, 200, 100}`: the point `(300, -20)`, right of
and above the rectangle, is converted to `(1, 0)`, and the point `(50, 50)`
inside it to `(0.25, 0.5)`. -/
theorem updateNormalizedFromClient_saturates_witness :
    ((freeWith (rectOf 0 0 200 100)).updateNormalizedFromClient
      (JSNum.fin 300) (JSNum.fin (-20))).state.normalizedPos =
        { x := JSNum.fin 1, y := JSNum.fin 0 } ∧
    ((freeWith (rectOf 0 0 200 100)).updateNormalizedFromClient
      (JSNum.fin 50) (JSNum.fin 50)).state.normalizedPos =
        { x := JSNum.fin (1/4), y := JSNum.fin (1/2) } := by
  have h1 := updateNormalizedFromClient_saturates (freeWith (rectOf 0 0 200 100))
    0 0 200 100 300 (-20) rfl (by norm_num) (by norm_num)
  have h2 := updateNormalizedFromClient_saturates (freeWith (rectOf 0 0 200 100))
    0 0 200 100 50 50 rfl (by norm_num) (by norm_num)
  constructor
  · rw [h1.1, h1.2.2.2.2.2.2.2.1 (by norm_num), h1.2.2.2.2.2.2.1 (by norm_num)]
  · rw [h2.1, h2.2.2.2.1 (by norm_num) (by norm_num),
      h2.2.2.2.2.1 (by norm_num) (by norm_num)]
    norm_num

end ControlManager

/-! ## The virtual touchpad -/

namespace ControlManager

/-- C19: in a touchpad session anchored at the device point `(x0, y0)` with the
normalized origin `(nx, ny)`, with the video element present and a rectangle of
positive width `w` and height `h`, a touch-move at `(x1, y1)` sets the position
to `(clamp01 (nx + 2 * (x1 - x0) / w), clamp01 (ny + 2 * (y1 - y0) / h))`, calls
`send` exactly once with a `move` action there, and keeps the anchor; touch-end
clears the anchor, after which a touch-move does nothing; and touch-start
anchors the touch point together with the current position. -/
theorem onTouchpadMove_from_anchor (m : ControlManager) (env : Env) (e : TouchEvent)
    (rest : List Touch) (v : Nat) (x0 y0 nx ny x1 y1 l t w h : ℚ)
    (hv : m.video = some v)
    (hs : m.state.touchpadStart = some
      { x := JSNum.fin x0, y := JSNum.fin y0,
        normalizedX := JSNum.fin nx, normalizedY := JSNum.fin ny })
    (he : e.touches = { clientX := JSNum.fin x1, clientY := JSNum.fin y1 } :: rest)
    (hr : env.rect = rectOf l t w h) (hw : 0 < w) (hh : 0 < h) :
    (m.onTouchpadMove env e).state.normalizedPos =
      { x := clamp01 (JSNum.fin (nx + 2 * (x1 - x0) / w))
        y := clamp01 (JSNum.fin (ny + 2 * (y1 - y0) / h)) } ∧
    (m.onTouchpadMove env e).sendCalls = m.sendCalls ++ [Action.mouse
      { x := clamp01 (JSNum.fin (nx + 2 * (x1 - x0) / w))
        y := clamp01 (JSNum.fin (ny + 2 * (y1 - y0) / h))
        s := 0
        flag := FlagVal.int 0 }] ∧
    (m.onTouchpadMove env e).state.touchpadStart = m.state.touchpadStart ∧
    m.onTouchpadEnd.state.touchpadStart = none ∧
    (∀ (env2 : Env) (e2 : TouchEvent), m.onTouchpadEnd.onTouchpadMove env2 e2 = m.onTouchpadEnd) ∧
    (∀ (m0 : ControlManager) (e0 : TouchEvent) (touch : Touch) (more : List Touch),
      e0.touches = touch :: more →
      (m0.onTouchpadStart e0).state.touchpadStart = some
        { x := touch.clientX, y := touch.clientY,
          normalizedX := m0.state.normalizedPos.x,
          normalizedY := m0.state.normalizedPos.y }) := by
  have hflag := fun x y => mouseAction_flagOf x y 0 (by decide) (by decide)
  have hx : (JSNum.fin nx).add ((((JSNum.fin x1).sub (JSNum.fin x0)).div (JSNum.fin w)).mul
      (JSNum.fin 2)) = JSNum.fin (nx + 2 * (x1 - x0) / w) := by
    rw [sub_fin, div_fin_of_ne _ _ hw.ne.symm]
    simp only [JSNum.mul, JSNum.add]
    congr 1
    ring
  have hy : (JSNum.fin ny).add ((((JSNum.fin y1).sub (JSNum.fin y0)).div (JSNum.fin h)).mul
      (JSNum.fin 2)) = JSNum.fin (ny + 2 * (y1 - y0) / h) := by
    rw [sub_fin, div_fin_of_ne _ _ hh.ne.symm]
    simp only [JSNum.mul, JSNum.add]
    congr 1
    ring
  refine ⟨?_, ?_, ?_, rfl, ?_, ?_⟩
  · simp [onTouchpadMove, ensureVideoRect, hv, hs, he, hr, rectOf, hx, hy]
  · simp [onTouchpadMove, ensureVideoRect, hv, hs, he, hr, rectOf, hx, hy, hflag,
      MouseFlag.move, clamp01_idem]
  · simp [onTouchpadMove, ensureVideoRect, hv, hs, he, hr, rectOf]
  · intro env2 e2
    cases ht : e2.touches <;> simp [onTouchpadMove, onTouchpadEnd, ht]
  · intro m0 e0 touch more h0
    simp [onTouchpadStart, h0]

/-- C19, the scenario of the specification: origin `(0.5, 0.5)`, rectangle
`200 x 100`, touch moved by `(10, 10)` from `(30, 40)`: the position becomes
`(0.6, 0.7)`. -/
theorem onTouchpadMove_from_anchor_witness :
    ((fresh.onTouchpadStart (touchAt 30 40)).onTouchpadMove (envOf (rectOf 0 0 200 100))
      (touchAt 40 50)).state.normalizedPos =
        { x := JSNum.fin (3/5), y := JSNum.fin (7/10) } := by
  have h := (onTouchpadMove_from_anchor (fresh.onTouchpadStart (touchAt 30 40))
    (envOf (rectOf 0 0 200 100)) (touchAt 40 50) [] 1 30 40 (1/2) (1/2) 40 50 0 0 200 100
    rfl rfl rfl rfl (by norm_num) (by norm_num)).1
  rw [h]
  have hx : clamp01 (JSNum.fin (1/2 + 2 * (40 - 30) / 200)) = JSNum.fin (3/5) := by
    rw [clamp01_fin_of_mem _ (by norm_num) (by norm_num)]; norm_num
  have hy : clamp01 (JSNum.fin (1/2 + 2 * (50 - 40) / 100)) = JSNum.fin (7/10) := by
    rw [clamp01_fin_of_mem _ (by norm_num) (by norm_num)]; norm_num
  rw [hx, hy]

end ControlManager

/-! ## Pointer-down in captured mode -/

namespace ControlManager

/-- A pointer-down inside a rectangle of positive size, in either mode: the
position, the capture request, the action sent and the mode. -/
theorem pointerDown_converts_inside (m : ControlManager) (env : Env) (e : PointerEvent)
    (v : Nat) (l t w h cx cy : ℚ) (hv : m.video = some v)
    (hb : 0 ≤ e.button.getD 0) (hr : env.rect = rectOf l t w h) (hw : 0 < w) (hh : 0 < h)
    (hx : e.clientX = JSNum.fin cx) (hy : e.clientY = JSNum.fin cy)
    (hl : l ≤ cx) (hr2 : cx ≤ l + w) (ht : t ≤ cy) (hb2 : cy ≤ t + h) :
    (m.onPointerDown env e).state.normalizedPos =
      { x := JSNum.fin ((cx - l) / w), y := JSNum.fin ((cy - t) / h) } ∧
    (m.onPointerDown env e).lockRequests = m.lockRequests + 1 ∧
    (m.onPointerDown env e).sendCalls = m.sendCalls ++ [Action.mouse
      { x := JSNum.fin ((cx - l) / w)
        y := JSNum.fin ((cy - t) / h)
        s := 0
        flag := FlagVal.int (buttonToFlag (e.button.getD 0) true) }] ∧
    (buttonToFlag (e.button.getD 0) true = MouseFlag.left_down ∨
     buttonToFlag (e.button.getD 0) true = MouseFlag.middle_down ∨
     buttonToFlag (e.button.getD 0) true = MouseFlag.right_down) ∧
    (m.onPointerDown env e).state.pointerLocked = m.state.pointerLocked := by
  have hdown : buttonToFlag (e.button.getD 0) true = MouseFlag.left_down ∨
      buttonToFlag (e.button.getD 0) true = MouseFlag.middle_down ∨
      buttonToFlag (e.button.getD 0) true = MouseFlag.right_down := by
    simp only [buttonToFlag, if_true]
    split_ifs <;> simp
  have hflag := fun x y => mouseAction_flagOf x y (buttonToFlag (e.button.getD 0) true)
    (buttonToFlag_range _ _).1 (buttonToFlag_range _ _).2
  have hnx := toNormalized_inside l w cx hw hl hr2
  have hny := toNormalized_inside t h cy hh ht hb2
  have hux := unit_of_inside l w cx hw hl hr2
  have huy := unit_of_inside t h cy hh ht hb2
  have hcx := clamp01_fin_of_mem _ hux.1 hux.2
  have hcy := clamp01_fin_of_mem _ huy.1 huy.2
  have hnb : ¬ (e.button.getD 0 < 0) := not_lt.mpr hb
  have hin : ∀ s : State, s.videoRect = some (rectOf l t w h) →
      ∀ m2 : ControlManager, m2.state = s →
        m2.isInsideVideo (JSNum.fin cx) (JSNum.fin cy) = true := by
    intro s hs m2 hm2
    rw [isInsideVideo_rectOf m2 l t w h cx cy (by rw [hm2]; exact hs)]
    simp [hl, hr2, ht, hb2]
  simp only [onPointerDown, hnb, if_false, ensureVideoRect, hv, hr, hx, hy]
  rw [hin _ rfl _ rfl]
  simp [updateNormalizedFromClient, requestPointerLock, hv, hflag, rectOf] at *
  simp [hnx, hny, hcx, hcy, hdown]

/-- C20: the position update of `onPointerDown` does not depend on the mode.
Also in captured mode, a pointer-down with a non-negative button whose client
coordinates lie inside the rectangle replaces the position, whatever it was, by
the absolute conversion of those coordinates, and the button-down action is sent
at the replaced position; the mode stays captured, and the same event on the
same controller in free mode gives the same position. -/
theorem onPointerDown_captured_replaces (m : ControlManager) (env : Env) (e : PointerEvent)
    (v : Nat) (l t w h cx cy : ℚ) (hv : m.video = some v)
    (hlock : m.state.pointerLocked = true)
    (hb : 0 ≤ e.button.getD 0) (hr : env.rect = rectOf l t w h) (hw : 0 < w) (hh : 0 < h)
    (hx : e.clientX = JSNum.fin cx) (hy : e.clientY = JSNum.fin cy)
    (hl : l ≤ cx) (hr2 : cx ≤ l + w) (ht : t ≤ cy) (hb2 : cy ≤ t + h) :
    (m.onPointerDown env e).state.normalizedPos =
      { x := JSNum.fin ((cx - l) / w), y := JSNum.fin ((cy - t) / h) } ∧
    (m.onPointerDown env e).sendCalls = m.sendCalls ++ [Action.mouse
      { x := JSNum.fin ((cx - l) / w)
        y := JSNum.fin ((cy - t) / h)
        s := 0
        flag := FlagVal.int (buttonToFlag (e.button.getD 0) true) }] ∧
    (m.onPointerDown env e).state.pointerLocked = true ∧
    (({ m with state := { m.state with pointerLocked := false } } : ControlManager).onPointerDown
        env e).state.normalizedPos = (m.onPointerDown env e).state.normalizedPos := by
  have h1 := pointerDown_converts_inside m env e v l t w h cx cy hv hb hr hw hh hx hy hl hr2 ht hb2
  have h2 := pointerDown_converts_inside
    ({ m with state := { m.state with pointerLocked := false } } : ControlManager)
    env e v l t w h cx cy hv hb hr hw hh hx hy hl hr2 ht hb2
  refine ⟨h1.1, h1.2.2.1, ?_, ?_⟩
  · rw [h1.2.2.2.2, hlock]
  · rw [h1.1, h2.1]

/-- C20, in captured mode at the accumulated position `(0.9, 0.1)`: a primary
button down at `(100, 50)` in the rectangle `200 x 100` replaces the position by
`(0.5, 0.5)` and sends `left_down` there. -/
theorem onPointerDown_captured_replaces_witness :
    (capturedAt (9/10) (1/10) (rectOf 0 0 200 100)).state.pointerLocked = true ∧
    ((capturedAt (9/10) (1/10) (rectOf 0 0 200 100)).onPointerDown
      (envOf (rectOf 0 0 200 100)) (pointerAt 0 100 50)).state.normalizedPos =
        { x := JSNum.fin (1/2), y := JSNum.fin (1/2) } ∧
    ((capturedAt (9/10) (1/10) (rectOf 0 0 200 100)).onPointerDown
      (envOf (rectOf 0 0 200 100)) (pointerAt 0 100 50)).sendCalls =
        [Action.mouse { x := JSNum.fin (1/2), y := JSNum.fin (1/2), s := 0,
                        flag := FlagVal.int 1 }] := by
  have h := onPointerDown_captured_replaces (capturedAt (9/10) (1/10) (rectOf 0 0 200 100))
    (envOf (rectOf 0 0 200 100)) (pointerAt 0 100 50) 1 0 0 200 100 100 50 rfl rfl
    (by simp [pointerAt]) rfl (by norm_num) (by norm_num) rfl rfl
    (by norm_num) (by norm_num) (by norm_num) (by norm_num)
  refine ⟨rfl, ?_, ?_⟩
  · rw [h.1]; norm_num
  · rw [h.2.1]
    norm_num [capturedAt, fresh, init, pointerAt, buttonToFlag, MouseFlag.left_down]

/-- In exact arithmetic, a relative move and its negation undo each other in
captured mode when neither the start nor the intermediate position is clamped.
(Rounding of the additions is not modelled.) -/
theorem relative_move_round_trip_exact (m : ControlManager) (env : Env) (e1 e2 : PointerEvent)
    (v : Nat) (x y dx dy l t w h : ℚ) (hv : m.video = some v)
    (hlock : m.state.pointerLocked = true)
    (hpos : m.state.normalizedPos = { x := JSNum.fin x, y := JSNum.fin y })
    (hr : env.rect = rectOf l t w h) (hw : 0 < w) (hh : 0 < h)
    (h1x : e1.movementX = JSNum.fin dx) (h1y : e1.movementY = JSNum.fin dy)
    (h2x : e2.movementX = JSNum.fin (-dx)) (h2y : e2.movementY = JSNum.fin (-dy))
    (hx0 : 0 ≤ x) (hx1 : x ≤ 1) (hy0 : 0 ≤ y) (hy1 : y ≤ 1)
    (hix0 : 0 ≤ x + dx / w) (hix1 : x + dx / w ≤ 1)
    (hiy0 : 0 ≤ y + dy / h) (hiy1 : y + dy / h ≤ 1) :
    ((m.onPointerMove env e1).onPointerMove env e2).state.normalizedPos =
      m.state.normalizedPos := by
  have hm1 := onPointerMove_sameLock m env e1
  have hA : ∀ (m2 : ControlManager) (e : PointerEvent) (a b da db : ℚ),
      m2.video = some v → m2.state.pointerLocked = true →
      m2.state.normalizedPos = { x := JSNum.fin a, y := JSNum.fin b } →
      e.movementX = JSNum.fin da → e.movementY = JSNum.fin db →
      (m2.onPointerMove env e).state.normalizedPos =
        { x := clamp01 (JSNum.fin (a + da / w)), y := clamp01 (JSNum.fin (b + db / h)) } := by
    intro m2 e a b da db hv2 hl2 hp2 hdx hdy
    simp [onPointerMove, ensureVideoRect, hv2, hl2, hp2, hdx, hdy, hr, rectOf,
      div_fin_of_ne _ _ hw.ne.symm, div_fin_of_ne _ _ hh.ne.symm, JSNum.add]
  have hstep1 := hA m e1 x y dx dy hv hlock hpos h1x h1y
  rw [clamp01_fin_of_mem _ hix0 hix1, clamp01_fin_of_mem _ hiy0 hiy1] at hstep1
  have hstep2 := hA (m.onPointerMove env e1) e2 _ _ (-dx) (-dy)
    (by rw [hm1.2]; exact hv) (by rw [hm1.1]; exact hlock) hstep1 h2x h2y
  rw [hstep2, hpos]
  have ex : x + dx / w + -dx / w = x := by ring
  have ey : y + dy / h + -dy / h = y := by ring
  rw [ex, ey, clamp01_fin_of_mem _ hx0 hx1, clamp01_fin_of_mem _ hy0 hy1]

end ControlManager

/-! ## Resolution of the flag argument -/

namespace ControlManager

/-- C24: how `sendMouseAction` (and `window.sendRemoteActionAt`) resolves its
flag argument.  Each of the nine member names gives the member's number
(`"move"` gives `0`); a number is converted to a signed 32-bit integer and a
missing flag gives `0`; a string that is no member name gives `move` (0) unless
it names a member inherited from `Object.prototype`.  For such a name the claim
fails on the code: `"toString"` resolves to the inherited function, not to `0`,
and the record sent through `window.sendRemoteActionAt` carries it. -/
theorem numericFlag_resolution :
    numericFlag (FlagArg.str "move") = FlagVal.int 0 ∧
    numericFlag (FlagArg.str "left_down") = FlagVal.int 1 ∧
    numericFlag (FlagArg.str "left_up") = FlagVal.int 2 ∧
    numericFlag (FlagArg.str "right_down") = FlagVal.int 3 ∧
    numericFlag (FlagArg.str "right_up") = FlagVal.int 4 ∧
    numericFlag (FlagArg.str "middle_down") = FlagVal.int 5 ∧
    numericFlag (FlagArg.str "middle_up") = FlagVal.int 6 ∧
    numericFlag (FlagArg.str "wheel_vertical") = FlagVal.int 7 ∧
    numericFlag (FlagArg.str "wheel_horizontal") = FlagVal.int 8 ∧
    numericFlag (FlagArg.str "double_click") = FlagVal.int 0 ∧
    (∀ name : String, numericFlag (FlagArg.str name) =
      match MouseFlag.own.lookup name with
      | some n => FlagVal.int n
      | none =>
        if name ∈ objectPrototypeMembers then FlagVal.inherited name else FlagVal.int 0) ∧
    (∀ v : JSNum, numericFlag (FlagArg.num v) = FlagVal.int v.toInt32) ∧
    numericFlag FlagArg.undefined = FlagVal.int 0 ∧
    numericFlag (FlagArg.str "toString") = FlagVal.inherited "toString" ∧
    numericFlag (FlagArg.str "toString") ≠ FlagVal.int 0 ∧
    (fresh.step (envOf (rectOf 0 0 200 100))
      (Event.sendRemoteActionAt (JSNum.fin (1/2)) (JSNum.fin (1/2))
        (FlagArg.str "toString") none)).sendCalls =
      [Action.mouse { x := JSNum.fin (1/2), y := JSNum.fin (1/2), s := 0,
                      flag := FlagVal.inherited "toString" }] := by
  have hts : numericFlag (FlagArg.str "toString") = FlagVal.inherited "toString" := by
    simp [numericFlag, MouseFlag.get, MouseFlag.own, List.lookup, objectPrototypeMembers]
  have hc : clamp01 (JSNum.fin (1/2)) = JSNum.fin (1/2) :=
    clamp01_fin_of_mem _ (by norm_num) (by norm_num)
  refine ⟨?_, ?_, ?_, ?_, ?_, ?_, ?_, ?_, ?_, ?_, ?_, ?_, rfl, hts, ?_, ?_⟩
  · simp [numericFlag, MouseFlag.get, MouseFlag.own, List.lookup, MouseFlag.move]
  · simp [numericFlag, MouseFlag.get, MouseFlag.own, List.lookup, MouseFlag.left_down]
  · simp [numericFlag, MouseFlag.get, MouseFlag.own, List.lookup, MouseFlag.left_up]
  · simp [numericFlag, MouseFlag.get, MouseFlag.own, List.lookup, MouseFlag.right_down]
  · simp [numericFlag, MouseFlag.get, MouseFlag.own, List.lookup, MouseFlag.right_up]
  · simp [numericFlag, MouseFlag.get, MouseFlag.own, List.lookup, MouseFlag.middle_down]
  · simp [numericFlag, MouseFlag.get, MouseFlag.own, List.lookup, MouseFlag.middle_up]
  · simp [numericFlag, MouseFlag.get, MouseFlag.own, List.lookup, MouseFlag.wheel_vertical]
  · simp [numericFlag, MouseFlag.get, MouseFlag.own, List.lookup, MouseFlag.wheel_horizontal]
  · simp [numericFlag, MouseFlag.get, MouseFlag.own, List.lookup, objectPrototypeMembers,
      MouseFlag.move]
  · intro name
    simp only [numericFlag, MouseFlag.get]
    cases h : MouseFlag.own.lookup name with
    | some n => rfl
    | none =>
      simp only
      split_ifs <;> simp [MouseFlag.move]
  · intro v; rfl
  · rw [hts]; simp
  · simp only [step, sendMouseAction_sendCalls, mouseAction, hts, hc, fresh, init,
      Option.getD_none, toInt32_zero, List.nil_append]

end ControlManager

/-! ## The wheel handler and the stored position -/

namespace ControlManager

theorem onWheel_normalizedPos (m : ControlManager) (env : Env) (e : WheelEvent) :
    (m.onWheel env e).state.normalizedPos = m.state.normalizedPos := by
  cases hl : m.state.pointerLocked <;> cases hv : m.video <;>
    cases hr : m.state.videoRect <;>
    simp [onWheel, ensureVideoRect, hl, hv, hr] <;>
    split_ifs <;> simp

/-- The record sent by `onWheel` for the event `e` at the coordinates `(x, y)`. -/
theorem mouseAction_wheel (e : WheelEvent) (x y : JSNum) :
    mouseAction x y
      (flagOf (if e.deltaY.strictEq (JSNum.fin 0) = true then MouseFlag.wheel_horizontal
        else MouseFlag.wheel_vertical))
      (some (if e.deltaY.truthy = true then e.deltaY else e.deltaX)) =
    Action.mouse
      { x := clamp01 x
        y := clamp01 y
        s := (if e.deltaY.truthy then e.deltaY else e.deltaX).toInt32
        flag := FlagVal.int (if e.deltaY.strictEq (JSNum.fin 0) then 8 else 7) } := by
  have h8 : (JSNum.fin ((8 : Int) : ℚ)).toInt32 = 8 :=
    toInt32_intCast 8 (by norm_num) (by norm_num)
  have h7 : (JSNum.fin ((7 : Int) : ℚ)).toInt32 = 7 :=
    toInt32_intCast 7 (by norm_num) (by norm_num)
  cases hb : e.deltaY.strictEq (JSNum.fin 0)
  · simpa [mouseAction, numericFlag, flagOf, MouseFlag.wheel_vertical] using h7
  · simpa [mouseAction, numericFlag, flagOf, MouseFlag.wheel_horizontal] using h8

/-- C23: `onWheel` never changes the stored position.  When it sends in free
mode (video element present, event inside the freshly pulled rectangle), the
action carries the converted coordinates of the event itself; when it sends in
captured mode, the action carries the stored position, which is the stored
value itself whenever that lies in `[0, 1]`. -/
theorem onWheel_keeps_position :
    (∀ (m : ControlManager) (env : Env) (e : WheelEvent),
      (m.onWheel env e).state.normalizedPos = m.state.normalizedPos) ∧
    (∀ (m : ControlManager) (env : Env) (e : WheelEvent) (v : Nat),
      m.video = some v → m.state.pointerLocked = false →
      ¬ env.now - m.state.lastWheelAt < 50 →
      (e.clientX.ge env.rect.left && e.clientX.le env.rect.right &&
        e.clientY.ge env.rect.top && e.clientY.le env.rect.bottom) = true →
      (m.onWheel env e).sendCalls = m.sendCalls ++ [Action.mouse
        { x := clamp01 ((e.clientX.sub env.rect.left).div env.rect.width)
          y := clamp01 ((e.clientY.sub env.rect.top).div env.rect.height)
          s := (if e.deltaY.truthy then e.deltaY else e.deltaX).toInt32
          flag := FlagVal.int (if e.deltaY.strictEq (JSNum.fin 0) then 8 else 7) }]) ∧
    (∀ (m : ControlManager) (env : Env) (e : WheelEvent) (v : Nat),
      m.video = some v → m.state.pointerLocked = true →
      ¬ env.now - m.state.lastWheelAt < 50 →
      (m.onWheel env e).sendCalls = m.sendCalls ++ [Action.mouse
        { x := clamp01 m.state.normalizedPos.x
          y := clamp01 m.state.normalizedPos.y
          s := (if e.deltaY.truthy then e.deltaY else e.deltaX).toInt32
          flag := FlagVal.int (if e.deltaY.strictEq (JSNum.fin 0) then 8 else 7) }] ∧
      (JSNum.InUnit m.state.normalizedPos.x →
        clamp01 m.state.normalizedPos.x = m.state.normalizedPos.x) ∧
      (JSNum.InUnit m.state.normalizedPos.y →
        clamp01 m.state.normalizedPos.y = m.state.normalizedPos.y)) := by
  refine ⟨onWheel_normalizedPos, ?_, ?_⟩
  · intro m env e v hv hl ht hin
    simp only [Bool.and_eq_true] at hin
    obtain ⟨⟨⟨h1, h2⟩, h3⟩, h4⟩ := hin
    simp [onWheel, ensureVideoRect, isInsideVideo, hv, hl, ht, h1, h2, h3, h4,
      mouseAction_wheel]
  · intro m env e v hv hl ht
    refine ⟨?_, clamp01_of_inUnit _, clamp01_of_inUnit _⟩
    simp [onWheel, ensureVideoRect, hv, hl, ht, mouseAction_wheel]

/-- C23, in free mode with the stored position `(0.5, 0.5)`: a wheel event at
`(50, 50)` in the rectangle `200 x 100` sends its action at `(0.25, 0.5)` and
the stored position stays `(0.5, 0.5)`. -/
theorem onWheel_keeps_position_witness :
    (fresh.onWheel (envAt (rectOf 0 0 200 100) 1000)
      (wheelOf 50 50 0 (-120))).state.normalizedPos =
        { x := JSNum.fin (1/2), y := JSNum.fin (1/2) } ∧
    (fresh.onWheel (envAt (rectOf 0 0 200 100) 1000) (wheelOf 50 50 0 (-120))).sendCalls =
      [Action.mouse { x := JSNum.fin (1/4), y := JSNum.fin (1/2), s := -120,
                      flag := FlagVal.int 7 }] := by
  have hp := onWheel_keeps_position.1 fresh (envAt (rectOf 0 0 200 100) 1000)
    (wheelOf 50 50 0 (-120))
  have hs := onWheel_keeps_position.2.1 fresh (envAt (rectOf 0 0 200 100) 1000)
    (wheelOf 50 50 0 (-120)) 1 rfl rfl (by simp [envAt, fresh, init])
    (by norm_num [wheelOf, envAt, rectOf, Rect.right, Rect.bottom, JSNum.ge, JSNum.le,
      JSNum.add])
  have hx := toNormalized_inside 0 200 50 (by norm_num) (by norm_num) (by norm_num)
  have hy := toNormalized_inside 0 100 50 (by norm_num) (by norm_num) (by norm_num)
  have h120 : (JSNum.fin (-120)).toInt32 = -120 := by
    have := toInt32_intCast (-120) (by norm_num) (by norm_num)
    simpa using this
  refine ⟨hp, ?_⟩
  rw [hs]
  simp only [wheelOf, envAt, rectOf, hx, hy]
  norm_num [JSNum.truthy, JSNum.strictEq, h120, fresh, init]

end ControlManager

/-! ## The wheel rate limit and discarded events -/

namespace ControlManager

/-- C22: a wheel event that passes the 50 ms check but is then discarded,
because no rectangle is available or because in free mode its coordinates are
outside the freshly pulled rectangle, sends nothing and still sets
`lastWheelAt`; a wheel event less than 50 ms later, wherever it is, is then
dropped, so that neither of the two sends an action. -/
theorem onWheel_discarded_consumes_window (m : ControlManager) (env1 env2 : Env)
    (e1 e2 : WheelEvent)
    (hpass : ¬ env1.now - m.state.lastWheelAt < 50)
    (hdisc : (m.video = none ∧ m.state.videoRect = none) ∨
      (m.video ≠ none ∧ m.state.pointerLocked = false ∧
        (e1.clientX.ge env1.rect.left && e1.clientX.le env1.rect.right &&
          e1.clientY.ge env1.rect.top && e1.clientY.le env1.rect.bottom) = false))
    (hsoon : env2.now - env1.now < 50) :
    (m.onWheel env1 e1).sendCalls = m.sendCalls ∧
    (m.onWheel env1 e1).state.lastWheelAt = env1.now ∧
    (m.onWheel env1 e1).onWheel env2 e2 = m.onWheel env1 e1 ∧
    ((m.onWheel env1 e1).onWheel env2 e2).sendCalls = m.sendCalls := by
  have hlast := onWheel_lastWheelAt m env1 e1 hpass
  have hcalls : (m.onWheel env1 e1).sendCalls = m.sendCalls := by
    rcases hdisc with ⟨hv, hr⟩ | ⟨hv, hl, hout⟩
    · simp [onWheel, ensureVideoRect, hv, hr, hpass]
    · obtain ⟨v, hv2⟩ := Option.ne_none_iff_exists'.mp hv
      simp only [Bool.and_eq_false_iff] at hout
      simp [onWheel, ensureVideoRect, isInsideVideo, hv2, hl, hpass]
      rw [if_pos hout]
  have hdrop : (m.onWheel env1 e1).onWheel env2 e2 = m.onWheel env1 e1 :=
    onWheel_dropped _ env2 e2 (by rw [hlast]; exact hsoon)
  exact ⟨hcalls, hlast, hdrop, by rw [hdrop, hcalls]⟩

/-- C22, in free mode: a wheel event at time 1000 right of the video is
discarded, and the wheel event inside the video 10 ms later is dropped: no
action for either. -/
theorem onWheel_discarded_consumes_window_witness :
    ((JSNum.fin 300).le (envAt (rectOf 0 0 200 100) 1000).rect.right = false) ∧
    ((fresh.onWheel (envAt (rectOf 0 0 200 100) 1000) (wheelOf 300 50 0 (-120))).onWheel
      (envAt (rectOf 0 0 200 100) 1010) (wheelOf 100 50 0 (-120))).sendCalls = [] := by
  have hle : (JSNum.fin 300).le (envAt (rectOf 0 0 200 100) 1000).rect.right = false := by
    norm_num [envAt, rectOf, Rect.right, JSNum.le, JSNum.add]
  refine ⟨hle, ?_⟩
  exact (onWheel_discarded_consumes_window fresh (envAt (rectOf 0 0 200 100) 1000)
    (envAt (rectOf 0 0 200 100) 1010) (wheelOf 300 50 0 (-120)) (wheelOf 100 50 0 (-120))
    (by simp [envAt, fresh, init])
    (Or.inr ⟨by simp [fresh, init], rfl, by simp [wheelOf, hle]⟩)
    (by simp [envAt])).2.2.2

end ControlManager

/-! ## Path independence of the virtual touchpad -/

namespace ControlManager

theorem sameSession_refl (m : ControlManager) : SameSession m m :=
  ⟨rfl, rfl, fun _ => rfl, fun _ => rfl⟩

/-- A touch-move keeps the members that decide the next touch-move. -/
theorem onTouchpadMove_sameSession (m m2 : ControlManager) (env : Env) (e : TouchEvent)
    (h : SameSession m m2) : SameSession m (m2.onTouchpadMove env e) := by
  obtain ⟨hv, hs, hr, hp⟩ := h
  cases ht : e.touches with
  | nil =>
    have : m2.onTouchpadMove env e = m2 := by simp [onTouchpadMove, ht]
    rw [this]; exact ⟨hv, hs, hr, hp⟩
  | cons touch rest =>
    cases hs2 : m2.state.touchpadStart with
    | none =>
      have : m2.onTouchpadMove env e = m2 := by simp [onTouchpadMove, ht, hs2]
      rw [this]; exact ⟨hv, hs, hr, hp⟩
    | some a =>
      have hsm : m.state.touchpadStart = some a := by rw [← hs, hs2]
      cases hv2 : m2.video with
      | none =>
        have hvm : m.video = none := by rw [← hv, hv2]
        cases hr2 : m2.state.videoRect with
        | none =>
          have : m2.onTouchpadMove env e = m2 := by
            simp [onTouchpadMove, ensureVideoRect, ht, hs2, hv2, hr2]
          rw [this]; exact ⟨hv, hs, hr, hp⟩
        | some r =>
          have hrm : m.state.videoRect = some r := by rw [← hr hvm, hr2]
          refine ⟨?_, ?_, ?_, ?_⟩
          · simp [onTouchpadMove, ensureVideoRect, ht, hs2, hv2, hr2, hvm]
          · simp [onTouchpadMove, ensureVideoRect, ht, hs2, hv2, hr2, hsm]
          · intro _
            simp [onTouchpadMove, ensureVideoRect, ht, hs2, hv2, hr2, hrm]
          · intro hin
            rcases hin with h1 | ⟨_, h2⟩
            · rw [hsm] at h1; cases h1
            · rw [hrm] at h2; cases h2
      | some v =>
        have hvm : m.video = some v := by rw [← hv, hv2]
        refine ⟨?_, ?_, ?_, ?_⟩
        · simp [onTouchpadMove, ensureVideoRect, ht, hs2, hv2, hvm]
        · simp [onTouchpadMove, ensureVideoRect, ht, hs2, hv2, hsm]
        · intro h0; rw [hvm] at h0; cases h0
        · intro hin
          rcases hin with h1 | ⟨h2, _⟩
          · rw [hsm] at h1; cases h1
          · rw [hvm] at h2; cases h2

theorem touchMoves_sameSession (es : List (Env × TouchEvent)) (m m2 : ControlManager)
    (h : SameSession m m2) : SameSession m (m2.touchMoves es) := by
  induction es generalizing m2 with
  | nil => exact h
  | cons p rest ih =>
    obtain ⟨env, e⟩ := p
    simp only [touchMoves]
    exact ih _ (onTouchpadMove_sameSession m m2 env e h)

/-- Two controllers of the same session give the same position after a
touch-move at the same point against the same rectangle. -/
theorem onTouchpadMove_pos_of_sameSession (m m1 m2 : ControlManager) (env1 env2 : Env)
    (e : TouchEvent) (touch : Touch) (rest : List Touch)
    (h1 : SameSession m m1) (h2 : SameSession m m2)
    (he : e.touches = touch :: rest) (hr : env1.rect = env2.rect) :
    (m1.onTouchpadMove env1 e).state.normalizedPos =
      (m2.onTouchpadMove env2 e).state.normalizedPos := by
  obtain ⟨hv1, hs1, hr1, hp1⟩ := h1
  obtain ⟨hv2, hs2, hr2, hp2⟩ := h2
  cases hs : m.state.touchpadStart with
  | none =>
    rw [hs] at hs1 hs2
    have e1 : m1.onTouchpadMove env1 e = m1 := by simp [onTouchpadMove, he, hs1]
    have e2 : m2.onTouchpadMove env2 e = m2 := by simp [onTouchpadMove, he, hs2]
    rw [e1, e2, hp1 (Or.inl hs), hp2 (Or.inl hs)]
  | some a =>
    rw [hs] at hs1 hs2
    cases hv : m.video with
    | none =>
      rw [hv] at hv1 hv2
      have hc1 := hr1 hv
      have hc2 := hr2 hv
      cases hrect : m.state.videoRect with
      | none =>
        rw [hrect] at hc1 hc2
        have e1 : m1.onTouchpadMove env1 e = m1 := by
          simp [onTouchpadMove, ensureVideoRect, he, hs1, hv1, hc1]
        have e2 : m2.onTouchpadMove env2 e = m2 := by
          simp [onTouchpadMove, ensureVideoRect, he, hs2, hv2, hc2]
        rw [e1, e2, hp1 (Or.inr ⟨hv, hrect⟩), hp2 (Or.inr ⟨hv, hrect⟩)]
      | some r =>
        rw [hrect] at hc1 hc2
        simp [onTouchpadMove, ensureVideoRect, he, hs1, hs2, hv1, hv2, hc1, hc2]
    | some v =>
      rw [hv] at hv1 hv2
      simp [onTouchpadMove, ensureVideoRect, he, hs1, hs2, hv1, hv2, hr]

/-- C21: within one touchpad session, the position after a touch-move depends
only on the anchor, the rectangle and the current touch point: after any two
sequences of touch-moves, whatever their intermediate points, rectangles and
clamping, a touch-move at the same point against the same rectangle leaves the
same position. -/
theorem touchpad_position_path_independent (m : ControlManager)
    (es1 es2 : List (Env × TouchEvent)) (env1 env2 : Env) (e : TouchEvent)
    (touch : Touch) (rest : List Touch)
    (he : e.touches = touch :: rest) (hr : env1.rect = env2.rect) :
    ((m.touchMoves es1).onTouchpadMove env1 e).state.normalizedPos =
      ((m.touchMoves es2).onTouchpadMove env2 e).state.normalizedPos :=
  onTouchpadMove_pos_of_sameSession m _ _ env1 env2 e touch rest
    (touchMoves_sameSession es1 m m (sameSession_refl m))
    (touchMoves_sameSession es2 m m (sameSession_refl m)) he hr

/-- C21, in the session anchored at `(30, 40)` with origin `(0.5, 0.5)` and
rectangle `200 x 100`: going to `(40, 50)` by way of `(500, 40)`, where `x` is
clamped to `1`, or going there directly, leaves the same position
`(0.6, 0.7)`. -/
theorem touchpad_position_path_independent_witness :
    ((fresh.onTouchpadStart (touchAt 30 40)).touchMoves
      [(envOf (rectOf 0 0 200 100), touchAt 500 40)]).state.normalizedPos.x = JSNum.fin 1 ∧
    (((fresh.onTouchpadStart (touchAt 30 40)).touchMoves
        [(envOf (rectOf 0 0 200 100), touchAt 500 40)]).onTouchpadMove
        (envOf (rectOf 0 0 200 100)) (touchAt 40 50)).state.normalizedPos =
      (((fresh.onTouchpadStart (touchAt 30 40)).touchMoves []).onTouchpadMove
        (envOf (rectOf 0 0 200 100)) (touchAt 40 50)).state.normalizedPos ∧
    (((fresh.onTouchpadStart (touchAt 30 40)).touchMoves []).onTouchpadMove
      (envOf (rectOf 0 0 200 100)) (touchAt 40 50)).state.normalizedPos =
        { x := JSNum.fin (3/5), y := JSNum.fin (7/10) } := by
  have hfar : clamp01 ((JSNum.fin (1/2)).add
      ((((JSNum.fin 500).sub (JSNum.fin 30)).div (JSNum.fin 200)).mul (JSNum.fin 2))) =
      JSNum.fin 1 := by
    rw [sub_fin, div_fin_of_ne _ _ (by norm_num)]
    simp only [JSNum.mul, JSNum.add]
    rw [clamp01_fin_of_one_le _ (by norm_num)]
  have hx : clamp01 ((JSNum.fin (1/2)).add
      ((((JSNum.fin 40).sub (JSNum.fin 30)).div (JSNum.fin 200)).mul (JSNum.fin 2))) =
      JSNum.fin (3/5) := by
    rw [sub_fin, div_fin_of_ne _ _ (by norm_num)]
    simp only [JSNum.mul, JSNum.add]
    rw [clamp01_fin_of_mem _ (by norm_num) (by norm_num)]
    norm_num
  have hy : clamp01 ((JSNum.fin (1/2)).add
      ((((JSNum.fin 50).sub (JSNum.fin 40)).div (JSNum.fin 100)).mul (JSNum.fin 2))) =
      JSNum.fin (7/10) := by
    rw [sub_fin, div_fin_of_ne _ _ (by norm_num)]
    simp only [JSNum.mul, JSNum.add]
    rw [clamp01_fin_of_mem _ (by norm_num) (by norm_num)]
    norm_num
  refine ⟨?_, ?_, ?_⟩
  · simp only [touchMoves, onTouchpadStart, onTouchpadMove, touchAt, ensureVideoRect, fresh,
      init, envOf, rectOf, sendMouseAction_state, hfar]
  · exact touchpad_position_path_independent (fresh.onTouchpadStart (touchAt 30 40))
      [(envOf (rectOf 0 0 200 100), touchAt 500 40)] []
      (envOf (rectOf 0 0 200 100)) (envOf (rectOf 0 0 200 100)) (touchAt 40 50)
      { clientX := JSNum.fin 40, clientY := JSNum.fin 50 } [] rfl rfl
  · simp only [touchMoves, onTouchpadStart, onTouchpadMove, touchAt, ensureVideoRect, fresh,
      init, envOf, rectOf, sendMouseAction_state, hx, hy]

end ControlManager

end CrossDesk
